import Mathlib

/-!
Shallow embedding of the kernel supervisor in `src/question/kernel/hilevel.c`:
the process table and scheduler, the trap handlers (reset, supervisor call),
the open-file / descriptor subsystem and the bounded pipe buffers.

Conventions of the embedding:
* C machine integers are modelled as `Int` (registers, descriptors, reference
  counts, niceness) or `Nat` (indices, the logical tick counter).  The header
  `hilevel.h` is not among the sources, so the field types of `pcb_t`/`ctx_t`
  and the constants `MAX_PROCS`, `MAX_FDS` are modelled from the spec: table
  capacities are carried by the lengths of the embedded lists, and the aging
  score is exact integer arithmetic (spec section 4.2).
* C `%` on the operands reached by these functions is always applied to a
  non-negative left operand (`rear + 1 >= 0`, `front + 1 >= 0`), where C
  truncated division and `Int.emod` agree, so `%` on `Int` is used directly.
* the UART is modelled as the list of emitted characters, appended in exact
  emission order; device-register writes in the reset handler configure the
  platform only and have no kernel-visible effect.
* `malloc`/`free` of pipes is modelled by a heap `pipeHeap : List Pipe`;
  an open-file entry holds the index of its pipe.  Deallocation has no
  observable effect inside the model (freed slots simply linger), matching
  the fact that no code path reads a pipe after its last descriptor closes.
* user memory is a total map `mem : Nat → Int`, one cell per byte address;
  the two `int` results of `pipe()` are stored at offsets 0 and 4 of the
  user-supplied address, one cell each.
-/

namespace Kernel

/-- Process status. Modelled from the spec (section 3): one of INVALID, READY,
EXECUTING, TERMINATED; `invalid` is the zero/default value so that
`memset(...,0,...)` yields an INVALID entry. -/
inductive Status where
  | invalid
  | ready
  | executing
  | terminated
deriving DecidableEq, Repr

/-- Access flag of an open-file entry (RDONLY / WRONLY). -/
inductive Flag where
  | rdonly
  | wronly
deriving DecidableEq, Repr

/-- Saved register context (`ctx_t`): processor status word, program counter,
general purpose registers, stack pointer, link register. -/
structure Ctx where
  cpsr : Int
  pc : Int
  gpr : List Int
  sp : Int
  lr : Int
deriving DecidableEq, Repr

/-- Process control block (`pcb_t`). -/
structure PCB where
  pid : Nat
  status : Status
  tos : Int
  ctx : Ctx
  lastExec : Nat
  niceness : Int
  fdTab : List Int
deriving DecidableEq, Repr

/-- Bounded circular pipe buffer (`pipe_t`). -/
structure Pipe where
  front : Int
  rear : Int
  size : Nat
  full : Bool
  buffer : List Int
deriving DecidableEq, Repr

/-- Open-file table entry (`fd_t`): pipe-heap index (or `none` for the
standard streams, whose `file` pointer stays NULL), access flag, and the
number of live descriptors referencing the entry. -/
structure FdEntry where
  file : Option Nat
  flag : Flag
  refCount : Int
deriving DecidableEq, Repr

/-- Whole kernel-visible state: the globals of `hilevel.c`, the saved trap
context `ctx` handed in by the trampoline, the pipe heap, user memory and the
console output emitted so far. -/
structure KState where
  currentProcesses : Int
  time : Nat
  procTab : List PCB
  openFileTab : List FdEntry
  pipeHeap : List Pipe
  executingIdx : Nat
  trapCtx : Ctx
  mem : Nat → Int
  out : List Char

/-- Default context used for out-of-range reads. -/
def dCtx : Ctx := ⟨0, 0, [], 0, 0⟩

/-- Default PCB used for out-of-range reads. -/
def dPCB : PCB := ⟨0, Status.invalid, 0, dCtx, 0, 0, []⟩

/-- Default open-file entry used for out-of-range reads. -/
def dFd : FdEntry := ⟨none, Flag.rdonly, 0⟩

/-- Default pipe used for out-of-range reads. -/
def dPipe : Pipe := ⟨0, 0, 0, false, []⟩

/-- MAX_PROCS: the capacity of the fixed process-table array. -/
def KState.maxProcs (st : KState) : Nat := st.procTab.length

/-- MAX_FDS: the capacity of the fixed open-file-table array (the per-process
descriptor tables have the same length, spec section 6). -/
def KState.maxFds (st : KState) : Nat := st.openFileTab.length

/-- Emit one byte to the UART (`PL011_putc`). -/
def emit (st : KState) (c : Char) : KState := { st with out := st.out ++ [c] }

/-- Print an n-character string to the terminal (`print`). -/
def emitStr (st : KState) (s : List Char) : KState := { st with out := st.out ++ s }

/-- Decimal digit character. -/
def pidChar (d : Nat) : Char := Char.ofNat (48 + d)

/-- Print a PID (0-99) to the terminal (`printPID`): the tens digit is emitted
only when `pid >= 10`, then the units digit. -/
def printPID (st : KState) (pid : Nat) : KState :=
  let units := pid % 10
  let st := if pid ≥ 10 then emit st (pidChar ((pid - units) / 10)) else st
  emit st (pidChar units)

/-- Overwrite process-table slot `i` by applying `f` to its current value
(no-op on the table when `i` is out of range, like every C array access the
kernel performs only on in-range indices). -/
def updateProc (st : KState) (i : Nat) (f : PCB → PCB) : KState :=
  { st with procTab := st.procTab.set i (f (st.procTab.getD i dPCB)) }

/-- Write the return value into the saved `gpr[0]`. -/
def setR0 (st : KState) (v : Int) : KState :=
  { st with trapCtx := { st.trapCtx with gpr := st.trapCtx.gpr.set 0 v } }

/-- Context switch (`dispatch`): emits `[`, saves the trap context into the
outgoing PCB (printing its pid, or `?` when NULL), emits `->`, restores the
incoming PCB's context into the trap record (printing its pid), emits `]`,
and finally retargets `executing`. -/
def dispatch (st : KState) (prev : Option Nat) (next : Nat) : KState :=
  let st := emit st '['
  let st :=
    match prev with
    | some p =>
        let st := updateProc st p (fun q => { q with ctx := st.trapCtx })
        printPID st ((st.procTab.getD p dPCB).pid)
    | none => emit st '?'
  let st := emit st '-'
  let st := emit st '>'
  let st : KState := { st with trapCtx := (st.procTab.getD next dPCB).ctx }
  let st := printPID st ((st.procTab.getD next dPCB).pid)
  let st := emit st ']'
  { st with executingIdx := next }

/-- Aging score of a PCB.  The source computes
`(time - procTab[i].lastExec) - procTab[i].niceness` into a C `double`; the
operand types live in the missing header, so the value is Modelled from the
spec (section 4.2 formula): exact integer arithmetic.  Every concrete input
used below keeps the score small and non-negative, where this model, C
unsigned wrap-around and the `double` representation all coincide. -/
def agingScore (time : Nat) (p : PCB) : Int :=
  ((time : Int) - (p.lastExec : Int)) - p.niceness

/-- One iteration of the scheduler's selection scan: a READY entry whose score
is greater or equal to the running best replaces the running choice. -/
def selStep (time : Nat) (tab : List PCB) (acc : Nat × Int) (i : Nat) : Nat × Int :=
  let p := tab.getD i dPCB
  if p.status = Status.ready ∧ agingScore time p ≥ acc.2 then (i, agingScore time p) else acc

/-- Index selected by the scheduling scan of `schedule`: default is the
currently executing pid, starting bound `executing->niceness - 1`. -/
def scheduleSelect (st : KState) : Nat :=
  let ex := st.procTab.getD st.executingIdx dPCB
  ((List.range st.maxProcs).foldl (selStep st.time st.procTab) (ex.pid, ex.niceness - 1)).1

/-- Scheduler (`schedule`): select, dispatch, stamp the previous process'
`lastExec`, demote it EXECUTING → READY, promote the chosen process to
EXECUTING, and advance the tick counter. -/
def schedule (st : KState) : KState :=
  let prevIndex := (st.procTab.getD st.executingIdx dPCB).pid
  let nextIndex := scheduleSelect st
  let st1 := dispatch st (some st.executingIdx) nextIndex
  let st2 := updateProc st1 prevIndex (fun p => { p with lastExec := st1.time })
  let st3 := updateProc st2 prevIndex
    (fun p => if p.status = Status.executing then { p with status := Status.ready } else p)
  let st4 := updateProc st3 nextIndex (fun p => { p with status := Status.executing })
  { st4 with time := st4.time + 1 }

/-- Zero context, as left by `memset`. -/
def zeroCtx : Ctx := ⟨0, 0, List.replicate 13 0, 0, 0⟩

/-- Zeroed PCB, as left by `memset` (note the descriptor table is all 0, not
-1, until explicitly initialised). -/
def zeroPCB (maxFds : Nat) : PCB :=
  ⟨0, Status.invalid, 0, zeroCtx, 0, 0, List.replicate maxFds 0⟩

/-- Kernel state at entry to the reset handler: the C globals have static
storage, hence are zero-initialised; the trap context record comes from the
trampoline.  The table capacities `maxProcs`/`maxFds` are the compile-time
constants of the missing header. -/
def initState (maxProcs maxFds : Nat) (ctx0 : Ctx) : KState :=
  ⟨0, 0, List.replicate maxProcs (zeroPCB maxFds), List.replicate maxFds dFd,
   [], 0, ctx0, fun _ => 0, []⟩

/-- Reset handler (`hilevel_handler_rst`): emits `R`, programs the platform
(no modelled effect), invalidates every PCB, initialises the open-file table
(slots 0-2 reserved with refCount 1, the rest free), builds the console PCB in
slot 0, bumps `currentProcesses` and dispatches into pid 0 with NULL
predecessor. -/
def hilevel_handler_rst (tosConsole mainConsole : Int) (st : KState) : KState :=
  let st := emit st 'R'
  let st : KState := { st with procTab := st.procTab.map (fun p => { p with status := Status.invalid }) }
  let st : KState := { st with openFileTab :=
    (List.range st.maxFds).foldl (fun t i =>
      if i < 3 then
        t.set i { t.getD i dFd with
                  refCount := 1
                  flag := if i = 0 then Flag.rdonly else Flag.wronly }
      else
        t.set i { t.getD i dFd with refCount := 0 }) st.openFileTab }
  let mf := st.maxFds
  let console : PCB :=
    { zeroPCB mf with
        pid := 0
        status := Status.ready
        tos := tosConsole
        ctx := { zeroCtx with cpsr := 0x50, pc := mainConsole, sp := tosConsole }
        lastExec := st.time
        niceness := 0
        fdTab := List.replicate mf (-1) }
  let st : KState := { st with procTab := st.procTab.set 0 console }
  let st : KState := { st with currentProcesses := st.currentProcesses + 1 }
  dispatch st none 0

/-- Allocate an open-file slot (`open_fd`): first slot with `refCount == 0`
among indices [3, MAX_FDS); stores the pipe and flag, bumps the reference
count, installs the global index into the first unused slot of the executing
process' descriptor table, and returns the global index (or -1). -/
def open_fd (st : KState) (hIdx : Nat) (flag : Flag) : KState × Int :=
  match (List.range' 3 (st.maxFds - 3)).find?
      (fun i => decide ((st.openFileTab.getD i dFd).refCount = 0)) with
  | none => (st, -1)
  | some i =>
      let e := st.openFileTab.getD i dFd
      let tab := st.openFileTab.set i { e with file := some hIdx, flag := flag, refCount := e.refCount + 1 }
      let st : KState := { st with openFileTab := tab }
      let ex := st.procTab.getD st.executingIdx dPCB
      let st :=
        match (List.range st.maxFds).find? (fun j => decide (ex.fdTab.getD j 0 < 0)) with
        | none => st
        | some j => updateProc st st.executingIdx (fun p => { p with fdTab := p.fdTab.set j (i : Int) })
      (st, (i : Int))

/-- Close a descriptor (`close_fd`): out-of-range `fd` returns -1 untouched;
otherwise every slot of `procTab[pid].fdTab` equal to `fd` is reset to -1, the
entry's reference count is decremented (unconditionally), the pipe is freed
when the count reaches 0 (no modelled effect), and 0 is returned. -/
def close_fd (st : KState) (fd : Int) (pid : Nat) : KState × Int :=
  if 0 ≤ fd ∧ fd < (st.maxFds : Int) then
    let st := updateProc st pid
      (fun p => { p with fdTab := p.fdTab.map (fun e => if e = fd then -1 else e) })
    let e := st.openFileTab.getD fd.toNat dFd
    let tab := st.openFileTab.set fd.toNat { e with refCount := e.refCount - 1 }
    let st : KState := { st with openFileTab := tab }
    (st, 0)
  else (st, -1)

/-- The descriptor-teardown loop shared by `exit` and `kill`: for each slot
index, re-read `procTab[slot].fdTab[i]` from the current state and close it
(on behalf of `pid`) when non-negative. -/
def closeFdsOf (st : KState) (slot : Nat) (pid : Nat) : KState :=
  (List.range st.maxFds).foldl (fun s i =>
    let fd := (s.procTab.getD slot dPCB).fdTab.getD i (-1)
    if 0 ≤ fd then (close_fd s fd pid).1 else s) st

/-- Enqueue loop of `write` on a pipe: stop early when `full`; otherwise
advance `rear`, store the byte, and raise `full` when the queue closes up.
Returns the final pipe and the count actually written. -/
def pipeWriteLoop (p : Pipe) (xs : List Int) : Pipe × Nat :=
  match xs with
  | [] => (p, 0)
  | b :: rest =>
      if p.full then (p, 0)
      else
        let rear := (p.rear + 1) % (p.size : Int)
        let p1 : Pipe := { p with
          rear := rear
          buffer := p.buffer.set rear.toNat b
          full := if p.front = (rear + 1) % (p.size : Int) then true else p.full }
        let r := pipeWriteLoop p1 rest
        (r.1, r.2 + 1)

/-- Dequeue loop of `read` on a pipe: stop early when the queue is empty
(`front == (rear+1) % size && !full`); otherwise copy `buffer[front]`, advance
`front` and clear `full`.  Returns the final pipe and the bytes read in
order. -/
def pipeReadLoop (p : Pipe) (n : Nat) : Pipe × List Int :=
  match n with
  | 0 => (p, [])
  | Nat.succ m =>
      let fr := p.front
      if fr = (p.rear + 1) % (p.size : Int) ∧ p.full = false then (p, [])
      else
        let b := p.buffer.getD fr.toNat 0
        let p1 : Pipe := { p with
          front := (fr + 1) % (p.size : Int)
          full := if p.full then false else p.full }
        let r := pipeReadLoop p1 m
        (r.1, b :: r.2)

/-- Read `n` consecutive user-memory bytes starting at `a` (the order in
which the `write`/`read` loops of the source walk the user buffer). -/
def readBytes (mem : Nat → Int) (a : Nat) : Nat → List Int
  | 0 => []
  | Nat.succ m => mem a :: readBytes mem (a + 1) m

/-- Store the bytes `xs` into user memory starting at `a`. -/
def storeBytes (mem : Nat → Int) (a : Nat) (xs : List Int) : Nat → Int :=
  fun addr => if a ≤ addr ∧ addr < a + xs.length then xs.getD (addr - a) 0 else mem addr

/-- Byte copy (`memcpy`) of `len` bytes from `src` to `dst`. -/
def copyMem (mem : Nat → Int) (dst src len : Nat) : Nat → Int :=
  fun addr => if dst ≤ addr ∧ addr < dst + len then mem (src + (addr - dst)) else mem addr

/-- Character sent by the UART for a stored byte value. -/
def byteChar (v : Int) : Char := Char.ofNat (v.toNat % 256)

/-- Supervisor call 0x01, `write(fd, x, n)`: negative fd → diagnostic and -1;
fd 0 silent 0; fd 1 emits the bytes over the UART and returns n; fd 2
diagnostic and -1; otherwise the pipe enqueue loop.  A NULL `file` pointer on
the pipe path is undefined behaviour in the source (never exercised by the
theorems); the model returns 0 leaving the state untouched. -/
def svcWrite (st : KState) : KState :=
  let fd : Int := st.trapCtx.gpr.getD 0 0
  let x : Int := st.trapCtx.gpr.getD 1 0
  let n : Int := st.trapCtx.gpr.getD 2 0
  if fd < 0 then
    let st := emitStr st ("\nERR: cannot address negative fd".toList)
    setR0 st (-1)
  else if fd = 0 then
    setR0 st 0
  else if fd = 1 then
    let bs := readBytes st.mem x.toNat n.toNat
    let st := emitStr st (bs.map byteChar)
    setR0 st n
  else if fd = 2 then
    let st := emitStr st ("\nwrite error".toList)
    setR0 st (-1)
  else
    match (st.openFileTab.getD fd.toNat dFd).file with
    | none => setR0 st 0
    | some h =>
        let p := st.pipeHeap.getD h dPipe
        let bs := readBytes st.mem x.toNat n.toNat
        let r := pipeWriteLoop p bs
        let st : KState := { st with pipeHeap := st.pipeHeap.set h r.1 }
        setR0 st (r.2 : Int)

/-- Supervisor call 0x02, `read(fd, x, n)`: negative fd → diagnostic and -1;
fd 0/1 diagnostic and 0; fd 2 diagnostic and -1; otherwise the pipe dequeue
loop, storing the bytes into user memory at `x` and returning the count.  A
NULL `file` pointer is undefined behaviour in the source; the model returns 0
leaving the state untouched. -/
def svcRead (st : KState) : KState :=
  let fd : Int := st.trapCtx.gpr.getD 0 0
  let x : Int := st.trapCtx.gpr.getD 1 0
  let n : Int := st.trapCtx.gpr.getD 2 0
  if fd < 0 then
    let st := emitStr st ("\nERR: cannot address negative fd".toList)
    setR0 st (-1)
  else if fd = 0 then
    let st := emitStr st ("\nread stdin".toList)
    setR0 st 0
  else if fd = 1 then
    let st := emitStr st ("\nread stdout".toList)
    setR0 st 0
  else if fd = 2 then
    let st := emitStr st ("\nread error".toList)
    setR0 st (-1)
  else
    match (st.openFileTab.getD fd.toNat dFd).file with
    | none => setR0 st 0
    | some h =>
        let p := st.pipeHeap.getD h dPipe
        let r := pipeReadLoop p n.toNat
        let st : KState := { st with
          pipeHeap := st.pipeHeap.set h r.1
          mem := storeBytes st.mem x.toNat r.2 }
        setR0 st (r.2.length : Int)

/-- Destination slot chosen by `fork()`: the first index in [1, MAX_PROCS)
whose PCB is TERMINATED, else the pre-increment value of `currentProcesses`
(the source loads the default before bumping the counter and then searches;
neither step reads the counter again, so the two computations agree). -/
def forkDest (st : KState) : Nat :=
  match (List.range' 1 (st.maxProcs - 1)).find?
      (fun i => decide ((st.procTab.getD i dPCB).status = Status.terminated)) with
  | some i => i
  | none => st.currentProcesses.toNat

/-- One iteration of the descriptor-inheritance loop of `fork()`: re-read
`executing->fdTab[i]` from the current table, copy it into the child's slot
`i`, and bump the open-file reference count when it is a live descriptor. -/
def forkFdStep (iNew : Nat) (s : KState) (i : Nat) : KState :=
  let fd := (s.procTab.getD s.executingIdx dPCB).fdTab.getD i (-1)
  let s := updateProc s iNew (fun p => { p with fdTab := p.fdTab.set i fd })
  if 0 ≤ fd then
    let e := s.openFileTab.getD fd.toNat dFd
    { s with openFileTab := s.openFileTab.set fd.toNat { e with refCount := e.refCount + 1 } }
  else s

/-- Supervisor call 0x03, `fork()`: fail with -1 when the table is full;
otherwise pick the destination slot (first TERMINATED index ≥ 1, else the old
`currentProcesses`), zero it, fill pid/status/tos, copy the trap context,
relocate the child's stack pointer and byte-copy the parent's stack region,
stamp `lastExec`, inherit niceness, copy the descriptor table bumping each
live reference count, return the child pid to the parent and 0 to the child.
Every `executing->` field is re-read from the current table at its use site,
mirroring the pointer accesses of the source. -/
def svcFork (tosP : Int) (st : KState) : KState :=
  let st := emit st 'F'
  if (st.maxProcs : Int) ≤ st.currentProcesses then
    let st := emitStr st ("\nERR: process table full".toList)
    setR0 st (-1)
  else
    let iNew : Nat := forkDest st
    let st : KState := { st with currentProcesses := st.currentProcesses + 1 }
    let st : KState := { st with procTab := st.procTab.set iNew (zeroPCB st.maxFds) }
    let st := updateProc st iNew (fun p => { p with
      pid := iNew
      status := Status.ready
      tos := tosP - (Int.ofNat iNew - 1) * 0x2000 })
    let st := updateProc st iNew (fun p => { p with ctx := st.trapCtx })
    let ex := st.procTab.getD st.executingIdx dPCB
    let stackHeight : Int := ex.tos - ex.ctx.sp
    let st := updateProc st iNew (fun p => { p with ctx := { p.ctx with sp := p.tos - stackHeight } })
    let childSp := (st.procTab.getD iNew dPCB).ctx.sp
    let st : KState := { st with mem := copyMem st.mem childSp.toNat st.trapCtx.sp.toNat stackHeight.toNat }
    let st := updateProc st iNew (fun p => { p with lastExec := st.time })
    let exN := (st.procTab.getD st.executingIdx dPCB).niceness
    let st := updateProc st iNew (fun p => { p with niceness := exN })
    let st := (List.range st.maxFds).foldl (forkFdStep iNew) st
    let st := setR0 st (((st.procTab.getD iNew dPCB).pid : Int))
    updateProc st iNew (fun p => { p with ctx := { p.ctx with gpr := p.ctx.gpr.set 0 0 } })

/-- Supervisor call 0x04, `exit(x)`: emits `X`, closes every live descriptor
of the caller, marks it TERMINATED, decrements `currentProcesses` and invokes
the scheduler. -/
def svcExit (st : KState) : KState :=
  let st := emit st 'X'
  let st := closeFdsOf st st.executingIdx (st.procTab.getD st.executingIdx dPCB).pid
  let st := updateProc st st.executingIdx (fun p => { p with status := Status.terminated })
  let st : KState := { st with currentProcesses := st.currentProcesses - 1 }
  schedule st

/-- Supervisor call 0x05, `exec(x)`: emits `E`, replaces the saved pc with the
supplied entry point and resets the saved sp to the caller's top of stack. -/
def svcExec (st : KState) : KState :=
  let st := emit st 'E'
  let st : KState := { st with trapCtx := { st.trapCtx with pc := st.trapCtx.gpr.getD 0 0 } }
  { st with trapCtx := { st.trapCtx with sp := (st.procTab.getD st.executingIdx dPCB).tos } }

/-- Supervisor call 0x06, `kill(pid, x)`: emits `K`, closes the target's live
descriptors, marks the target TERMINATED, decrements `currentProcesses` and
returns 0.  No scheduling, no pid validation. -/
def svcKill (st : KState) : KState :=
  let st := emit st 'K'
  let pid : Nat := (st.trapCtx.gpr.getD 0 0).toNat
  let st := closeFdsOf st pid pid
  let st := updateProc st pid (fun p => { p with status := Status.terminated })
  let st : KState := { st with currentProcesses := st.currentProcesses - 1 }
  setR0 st 0

/-- Supervisor call 0x07, `nice(pid, x)`: emits `N`, clamps x to [-19, 20],
stores it as the target's niceness and returns the clamped value. -/
def svcNice (st : KState) : KState :=
  let st := emit st 'N'
  let pid : Nat := (st.trapCtx.gpr.getD 0 0).toNat
  let x : Int := st.trapCtx.gpr.getD 1 0
  let x := if x < -19 then -19 else if 20 < x then 20 else x
  let st := updateProc st pid (fun p => { p with niceness := x })
  setR0 st x

/-- Capacity of the byte array embedded in `pipe_t`.  Modelled from the spec
(section 6): per-pipe buffer capacity is the pipe's embedded array length,
implementation-defined, typically 16-64 bytes. -/
def pipeBufferCap : Nat := 32

/-- Pipe as initialised by `pipe()`: `front = 0`, `rear = -1`, `full = false`,
`size` the embedded buffer length (`malloc` leaves the bytes arbitrary;
modelled as zeros — they are never read before being written). -/
def freshPipe (c : Nat) : Pipe := ⟨0, -1, c, false, List.replicate c 0⟩

/-- Supervisor call 0x08, `pipe(pipedes)`: allocate a pipe, open a read end
and a write end on it; on failure print a diagnostic, close whichever end
succeeded and return -1; on success store the pair into user memory at
`pipedes` (two C ints, 4 bytes apart) and return 0. -/
def svcPipe (st : KState) : KState :=
  let pipedes : Int := st.trapCtx.gpr.getD 0 0
  let h := st.pipeHeap.length
  let st : KState := { st with pipeHeap := st.pipeHeap ++ [freshPipe pipeBufferCap] }
  let r1 := open_fd st h Flag.rdonly
  let st := r1.1
  let fdRead := r1.2
  let r2 := open_fd st h Flag.wronly
  let st := r2.1
  let fdWrite := r2.2
  if fdRead = -1 ∨ fdWrite = -1 then
    let st := emitStr st ("\npipe failed".toList)
    let pid := (st.procTab.getD st.executingIdx dPCB).pid
    let st := if 0 ≤ fdRead then (close_fd st fdRead pid).1 else st
    let st := if 0 ≤ fdWrite then (close_fd st fdWrite pid).1 else st
    setR0 st (-1)
  else
    let a := pipedes.toNat
    let st : KState := { st with mem :=
      fun addr => if addr = a then fdRead else if addr = a + 4 then fdWrite else st.mem addr }
    setR0 st 0

/-- Supervisor call 0x09, `close(fd)`: delegate to `close_fd` on behalf of the
executing process and return its result. -/
def svcClose (st : KState) : KState :=
  let fd : Int := st.trapCtx.gpr.getD 0 0
  let pid := (st.procTab.getD st.executingIdx dPCB).pid
  let r := close_fd st fd pid
  setR0 r.1 r.2

/-- Supervisor-call dispatcher (`hilevel_handler_svc`), switching on the
immediate id; unknown ids fall through untouched. -/
def hilevel_handler_svc (tosP : Int) (st : KState) (id : Nat) : KState :=
  match id with
  | 0x00 => schedule st
  | 0x01 => svcWrite st
  | 0x02 => svcRead st
  | 0x03 => svcFork tosP st
  | 0x04 => svcExit st
  | 0x05 => svcExec st
  | 0x06 => svcKill st
  | 0x07 => svcNice st
  | 0x08 => svcPipe st
  | 0x09 => svcClose st
  | _ => st

/-- User-side scaffolding: load the three argument registers before issuing a
supervisor call (user code controls its registers between traps). -/
def setArgs (st : KState) (a0 a1 a2 : Int) : KState :=
  { st with trapCtx := { st.trapCtx with gpr := [a0, a1, a2] } }

/-- A PCB counts towards `currentProcesses` when READY or EXECUTING. -/
def readyOrExec (p : PCB) : Bool :=
  p.status = Status.ready || p.status = Status.executing

/-- Number of READY-or-EXECUTING PCBs in the table. -/
def countRE (st : KState) : Nat := st.procTab.countP readyOrExec

/-- Claimed invariant: `currentProcesses` equals the number of PCBs with
status READY or EXECUTING. -/
def countInv (st : KState) : Prop := st.currentProcesses = (countRE st : Int)

/-- The counting invariant is a decidable equality of integers. -/
instance (st : KState) : Decidable (countInv st) :=
  inferInstanceAs (Decidable (st.currentProcesses = ((countRE st : Nat) : Int)))

/-- Sequential overwrite of a buffer with the bytes `xs`, starting at index
`i` (the footprint of a wrap-free run of the pipe enqueue loop). -/
def writeSeq : List Int → Nat → List Int → List Int
  | buf, _, [] => buf
  | buf, i, b :: bs => writeSeq (buf.set i b) (i + 1) bs

/-- Bytes `buf[i], buf[i+1], ..., buf[i+n-1]` of a buffer. -/
def readSeq (buf : List Int) (i : Nat) : Nat → List Int
  | 0 => []
  | Nat.succ m => buf.getD i 0 :: readSeq buf (i + 1) m

/-- Effect of the descriptor-teardown loop on one descriptor-table slot:
non-negative entries are reset to -1. -/
def wipeLive (e : Int) : Int := if 0 ≤ e then -1 else e

/-- Boot state used by the concrete scenarios: reset applied to the
zero-initialised kernel with 4 process slots, 4 open-file slots, and sample
linker values. -/
def bootSt : KState := hilevel_handler_rst 4096 512 (initState 4 4 zeroCtx)

/-- Concrete scheduling state with a tie: slots 1 and 2 are both READY with
the same maximal aging score 0 (time 0, both `lastExec` 0, both niceness 0),
while slot 0 is EXECUTING with niceness 0, so the comparison bound is -1. -/
def tieSt : KState :=
  { currentProcesses := 3
    time := 0
    procTab := [
      { dPCB with pid := 0, status := Status.executing },
      { dPCB with pid := 1, status := Status.ready },
      { dPCB with pid := 2, status := Status.ready }]
    openFileTab := []
    pipeHeap := []
    executingIdx := 0
    trapCtx := zeroCtx
    mem := fun _ => 0
    out := [] }

/-- Concrete scheduling state with a single READY PCB (slot 1, score 0) and
an EXECUTING process of niceness 20, so the comparison bound is 19. -/
def loneSt : KState :=
  { currentProcesses := 2
    time := 0
    procTab := [
      { dPCB with pid := 0, status := Status.executing, niceness := 20 },
      { dPCB with pid := 1, status := Status.ready }]
    openFileTab := []
    pipeHeap := []
    executingIdx := 0
    trapCtx := zeroCtx
    mem := fun _ => 0
    out := [] }

/-- Concrete pre-fork state: the console (slot 0) is executing with 16 bytes
of stack in use below `tos = 0x100000`; slots 1 and 2 are free. -/
def forkSt : KState :=
  { currentProcesses := 1
    time := 0
    procTab := [
      { dPCB with pid := 0, status := Status.executing, tos := 0x100000,
                  ctx := { zeroCtx with sp := 0x100000 - 16 } },
      dPCB, dPCB]
    openFileTab := [dFd, dFd, dFd, dFd]
    pipeHeap := []
    executingIdx := 0
    trapCtx := { zeroCtx with sp := 0x100000 - 16, gpr := [7, 8, 9] }
    mem := fun _ => 0
    out := [] }

/-- Concrete state whose process table is full (`maxProcs = 3`,
`currentProcesses = 3`). -/
def fullSt : KState := { forkSt with currentProcesses := 3 }

/-- Boot state about to issue `close(1)`: the user loaded fd 1 (stdout, a
reserved descriptor with refCount 1) into gpr[0]. -/
def closeSt : KState :=
  { bootSt with trapCtx := { bootSt.trapCtx with gpr := [1, 0, 0] } }

/-- Boot state about to issue `close(9)`: fd 9 is out of range for
`maxFds = 4`. -/
def closeBadSt : KState :=
  { bootSt with trapCtx := { bootSt.trapCtx with gpr := [9, 0, 0] } }

/-- Characters produced by `printPID`. -/
def pidDigits (pid : Nat) : List Char :=
  let units := pid % 10
  if pid ≥ 10 then [pidChar ((pid - units) / 10), pidChar units] else [pidChar units]

/-- Descriptor table of the teardown loop's target after the loop has
processed its first `k` slot indices: `close_fd` wipes by value, so a live
entry is -1 exactly when its value already occurs among the first `k`
positions. -/
def wipeUpTo (F : List Int) (k : Nat) : List Int :=
  F.map (fun e => if 0 ≤ e ∧ e ∈ F.take k then -1 else e)

/-- Invariant characterising the state after the descriptor-teardown loop of
`exit`/`kill` (with target slot = target pid) has processed its first `k`
slot indices: the target's descriptor table is `wipeUpTo` of the original,
each open-file entry whose index occurs among the first `k` original entries
has its reference count decremented once, and every other kernel field is
untouched. -/
def closeInv (st : KState) (pid k : Nat) (s : KState) : Prop :=
  s.procTab = st.procTab.set pid
    { st.procTab.getD pid dPCB with
        fdTab := wipeUpTo (st.procTab.getD pid dPCB).fdTab k }
  ∧ s.openFileTab.length = st.openFileTab.length
  ∧ (∀ g : Nat, g < st.openFileTab.length →
      s.openFileTab.getD g dFd =
        if ((g : Nat) : Int) ∈ (st.procTab.getD pid dPCB).fdTab.take k then
          { st.openFileTab.getD g dFd with
              refCount := (st.openFileTab.getD g dFd).refCount - 1 }
        else st.openFileTab.getD g dFd)
  ∧ s.currentProcesses = st.currentProcesses
  ∧ s.time = st.time
  ∧ s.executingIdx = st.executingIdx
  ∧ s.trapCtx = st.trapCtx
  ∧ s.mem = st.mem
  ∧ s.pipeHeap = st.pipeHeap
  ∧ s.out = st.out

/-- Concrete state with one allocated pipe of capacity 4, its read end open at
fd 3 and its write end at fd 4, and a single executing process. -/
def pipeSt : KState :=
  { currentProcesses := 1
    time := 0
    procTab := [
      { dPCB with pid := 0, status := Status.executing, fdTab := [0, 1, 2, 3, 4] }]
    openFileTab := [dFd, dFd, dFd,
      { file := some 0, flag := Flag.rdonly, refCount := 1 },
      { file := some 0, flag := Flag.wronly, refCount := 1 }]
    pipeHeap := [freshPipe 4]
    executingIdx := 0
    trapCtx := zeroCtx
    mem := fun a => (a : Int) % 7
    out := [] }

/-- Variant of `loneSt` whose executing process has niceness 0, so that the
single READY PCB meets the comparison bound. -/
def loneOkSt : KState :=
  { loneSt with procTab := [
      { dPCB with pid := 0, status := Status.executing },
      { dPCB with pid := 1, status := Status.ready }] }

end Kernel

namespace Kernel

/-! List helper lemmas used throughout. -/

theorem list_set_oob {α : Type} (l : List α) (i : Nat) (a : α) (h : l.length ≤ i) :
    l.set i a = l := by
  induction l generalizing i with
  | nil => rfl
  | cons x xs ih =>
    cases i with
    | zero => simp at h
    | succ j =>
      simp only [List.set]
      rw [ih j (by simpa using h)]

theorem list_getD_set_self {α : Type} (l : List α) (i : Nat) (a d : α) (h : i < l.length) :
    (l.set i a).getD i d = a := by
  induction l generalizing i with
  | nil => simp at h
  | cons x xs ih =>
    cases i with
    | zero => rfl
    | succ j =>
      simp only [List.set, List.getD_cons_succ]
      exact ih j (by simpa using h)

theorem list_getD_set_ne {α : Type} (l : List α) (i j : Nat) (a d : α) (h : i ≠ j) :
    (l.set i a).getD j d = l.getD j d := by
  induction l generalizing i j with
  | nil => rfl
  | cons x xs ih =>
    cases i with
    | zero =>
      cases j with
      | zero => exact absurd rfl h
      | succ j' => rfl
    | succ i' =>
      cases j with
      | zero => rfl
      | succ j' =>
        simp only [List.set, List.getD_cons_succ]
        exact ih i' j' (by omega)

theorem list_countP_set_eq {α : Type} (l : List α) (i : Nat) (a : α) (f : α → Bool) (d : α)
    (h : i < l.length) (hf : f a = f (l.getD i d)) :
    (l.set i a).countP f = l.countP f := by
  induction l generalizing i with
  | nil => simp at h
  | cons x xs ih =>
    cases i with
    | zero =>
      simp only [List.getD_cons_zero] at hf
      simp [List.set, List.countP_cons, hf]
    | succ j =>
      simp only [List.getD_cons_succ] at hf
      simp only [List.set, List.countP_cons]
      rw [ih j (by simpa using h) hf]

theorem list_countP_set_true {α : Type} (l : List α) (i : Nat) (a : α) (f : α → Bool) (d : α)
    (h : i < l.length) (h0 : f (l.getD i d) = false) (h1 : f a = true) :
    (l.set i a).countP f = l.countP f + 1 := by
  induction l generalizing i with
  | nil => simp at h
  | cons x xs ih =>
    cases i with
    | zero =>
      simp only [List.getD_cons_zero] at h0
      simp [List.set, List.countP_cons, h0, h1]
    | succ j =>
      simp only [List.getD_cons_succ] at h0
      simp only [List.set, List.countP_cons]
      rw [ih j (by simpa using h) h0]
      omega

theorem list_countP_set_false {α : Type} (l : List α) (i : Nat) (a : α) (f : α → Bool) (d : α)
    (h : i < l.length) (h0 : f (l.getD i d) = true) (h1 : f a = false) :
    l.countP f = (l.set i a).countP f + 1 := by
  induction l generalizing i with
  | nil => simp at h
  | cons x xs ih =>
    cases i with
    | zero =>
      simp only [List.getD_cons_zero] at h0
      simp [List.set, List.countP_cons, h0, h1]
    | succ j =>
      simp only [List.getD_cons_succ] at h0
      simp only [List.set, List.countP_cons]
      rw [ih j (by simpa using h) h0]
      omega

theorem list_length_set_eq {α : Type} (l : List α) (i : Nat) (a : α) :
    (l.set i a).length = l.length := by
  simp

/-! Dispatcher reduction lemmas: the supervisor-call switch at each literal
immediate. -/

theorem handler_yield (tosP : Int) (st : KState) : hilevel_handler_svc tosP st 0 = schedule st := rfl

theorem handler_write (tosP : Int) (st : KState) : hilevel_handler_svc tosP st 1 = svcWrite st := rfl

theorem handler_read (tosP : Int) (st : KState) : hilevel_handler_svc tosP st 2 = svcRead st := rfl

theorem handler_fork (tosP : Int) (st : KState) : hilevel_handler_svc tosP st 3 = svcFork tosP st := rfl

theorem handler_exit (tosP : Int) (st : KState) : hilevel_handler_svc tosP st 4 = svcExit st := rfl

theorem handler_exec (tosP : Int) (st : KState) : hilevel_handler_svc tosP st 5 = svcExec st := rfl

theorem handler_kill (tosP : Int) (st : KState) : hilevel_handler_svc tosP st 6 = svcKill st := rfl

theorem handler_nice (tosP : Int) (st : KState) : hilevel_handler_svc tosP st 7 = svcNice st := rfl

theorem handler_pipe (tosP : Int) (st : KState) : hilevel_handler_svc tosP st 8 = svcPipe st := rfl

theorem handler_close (tosP : Int) (st : KState) : hilevel_handler_svc tosP st 9 = svcClose st := rfl

end Kernel

namespace Kernel

/-- C4: if `current_processes ≥ MAX_PROCS` when fork (svc 0x03) is invoked,
the call writes -1 to the caller's gpr[0] and leaves the process table,
`currentProcesses` and the open-file table unchanged. -/
theorem C4_fork_table_full (tosP : Int) (st : KState)
    (h : (st.maxProcs : Int) ≤ st.currentProcesses) :
    (hilevel_handler_svc tosP st 3).procTab = st.procTab ∧
    (hilevel_handler_svc tosP st 3).currentProcesses = st.currentProcesses ∧
    (hilevel_handler_svc tosP st 3).openFileTab = st.openFileTab ∧
    (hilevel_handler_svc tosP st 3).trapCtx.gpr = st.trapCtx.gpr.set 0 (-1) := by
  rw [handler_fork]
  simp only [svcFork, emit, emitStr, setR0, KState.maxProcs] at *
  rw [if_pos h]
  exact ⟨rfl, rfl, rfl, rfl⟩

/-- C4 witness: with 3 process slots and `currentProcesses = 3` the fork
refusal fires as stated. -/
theorem C4_fork_table_full_witness :
    ((fullSt.maxProcs : Int) ≤ fullSt.currentProcesses) ∧
    ((hilevel_handler_svc 0x80000 fullSt 3).procTab = fullSt.procTab ∧
     (hilevel_handler_svc 0x80000 fullSt 3).currentProcesses = fullSt.currentProcesses ∧
     (hilevel_handler_svc 0x80000 fullSt 3).openFileTab = fullSt.openFileTab ∧
     (hilevel_handler_svc 0x80000 fullSt 3).trapCtx.gpr = fullSt.trapCtx.gpr.set 0 (-1)) :=
  ⟨by decide, C4_fork_table_full 0x80000 fullSt (by decide)⟩

end Kernel

namespace Kernel

/-- C9: close (svc 0x09) returns 0 for every fd with 0 ≤ fd < MAX_FDS —
reserved descriptors 0-2 and free entries included — and in every such case
unconditionally decrements `openFileTab[fd].refCount` (so repeated closes can
drive it below zero), leaving every other open-file entry unchanged; -1 is
returned exactly when fd < 0 or fd ≥ MAX_FDS, in which case nothing changes. -/
theorem C9_close_semantics (tosP : Int) (st : KState) :
    ((0 ≤ st.trapCtx.gpr.getD 0 0 → st.trapCtx.gpr.getD 0 0 < (st.maxFds : Int) →
      (hilevel_handler_svc tosP st 9).trapCtx.gpr = st.trapCtx.gpr.set 0 0 ∧
      ((hilevel_handler_svc tosP st 9).openFileTab.getD (st.trapCtx.gpr.getD 0 0).toNat dFd).refCount
        = ((st.openFileTab.getD (st.trapCtx.gpr.getD 0 0).toNat dFd).refCount) - 1 ∧
      (∀ g : Nat, g ≠ (st.trapCtx.gpr.getD 0 0).toNat →
        (hilevel_handler_svc tosP st 9).openFileTab.getD g dFd = st.openFileTab.getD g dFd)) ∧
     (¬ (0 ≤ st.trapCtx.gpr.getD 0 0 ∧ st.trapCtx.gpr.getD 0 0 < (st.maxFds : Int)) →
      (hilevel_handler_svc tosP st 9).trapCtx.gpr = st.trapCtx.gpr.set 0 (-1) ∧
      (hilevel_handler_svc tosP st 9).openFileTab = st.openFileTab ∧
      (hilevel_handler_svc tosP st 9).procTab = st.procTab)) := by
  rw [handler_close]
  constructor
  · intro h1 h2
    simp only [KState.maxFds] at h2
    have hl : (st.trapCtx.gpr.getD 0 0).toNat < st.openFileTab.length := by omega
    simp only [svcClose, close_fd, setR0, updateProc, KState.maxFds]
    rw [if_pos ⟨h1, h2⟩]
    refine ⟨rfl, ?_, ?_⟩
    · exact congrArg FdEntry.refCount (list_getD_set_self _ _ _ _ hl)
    · intro g hg
      exact list_getD_set_ne _ _ _ _ _ (by omega)
  · intro h
    simp only [svcClose, close_fd, setR0, updateProc, KState.maxFds] at *
    rw [if_neg h]
    exact ⟨rfl, rfl, rfl⟩

/-- C9 witness: closing the reserved descriptor 1 (stdout, refCount 1)
returns 0 and drives its refCount to 0; closing fd 9 (out of range for
`maxFds = 4`) returns -1 and changes nothing. -/
theorem C9_close_semantics_witness :
    ((0:Int) ≤ closeSt.trapCtx.gpr.getD 0 0 ∧
     closeSt.trapCtx.gpr.getD 0 0 < (closeSt.maxFds : Int) ∧
     (hilevel_handler_svc 0 closeSt 9).trapCtx.gpr = closeSt.trapCtx.gpr.set 0 0 ∧
     ((hilevel_handler_svc 0 closeSt 9).openFileTab.getD (closeSt.trapCtx.gpr.getD 0 0).toNat dFd).refCount
       = ((closeSt.openFileTab.getD (closeSt.trapCtx.gpr.getD 0 0).toNat dFd).refCount) - 1) ∧
    (¬ (0 ≤ closeBadSt.trapCtx.gpr.getD 0 0 ∧
        closeBadSt.trapCtx.gpr.getD 0 0 < (closeBadSt.maxFds : Int)) ∧
     (hilevel_handler_svc 0 closeBadSt 9).trapCtx.gpr = closeBadSt.trapCtx.gpr.set 0 (-1) ∧
     (hilevel_handler_svc 0 closeBadSt 9).openFileTab = closeBadSt.openFileTab) :=
  ⟨⟨by decide, by decide,
    ((C9_close_semantics 0 closeSt).1 (by decide) (by decide)).1,
    ((C9_close_semantics 0 closeSt).1 (by decide) (by decide)).2.1⟩,
   ⟨by decide,
    ((C9_close_semantics 0 closeBadSt).2 (by decide)).1,
    ((C9_close_semantics 0 closeBadSt).2 (by decide)).2.1⟩⟩

/-- C7 counterexample: the reset handler's console output is not
`R[?->00]` — pid 0 is printed with a single digit. -/
theorem C7_counterexample : bootSt.out ≠ "R[?->00]".toList := by decide

/-- C7 amended: the reset handler's emitted console output is exactly
`R[?->0]` — the marker R, then one dispatch record whose null predecessor is
printed as `?` and whose successor, pid 0, is printed as the single decimal
digit 0 (`printPID` emits a tens digit only for pids ≥ 10). -/
theorem C7_reset_trace (tosC mainC : Int) (ctx0 : Ctx) (mp mf : Nat) :
    (hilevel_handler_rst tosC mainC (initState mp mf ctx0)).out = "R[?->0]".toList := by
  cases mp with
  | zero => rfl
  | succ m => rfl

end Kernel

namespace Kernel

/-! Scheduler selection-scan lemmas. -/

theorem printPID_eq (st : KState) (pid : Nat) :
    printPID st pid = { st with out := st.out ++ pidDigits pid } := by
  unfold printPID pidDigits emit
  by_cases h : pid ≥ 10
  · simp [h]
  · simp [h]

theorem sel_fold_skip (time : Nat) (tab : List PCB) (l : List Nat) (a : Nat) (b : Int)
    (h : ∀ i ∈ l, ¬((tab.getD i dPCB).status = Status.ready ∧
        agingScore time (tab.getD i dPCB) ≥ b)) :
    l.foldl (selStep time tab) (a, b) = (a, b) := by
  induction l with
  | nil => rfl
  | cons x xs ih =>
    simp only [List.foldl_cons]
    have hx : selStep time tab (a, b) x = (a, b) := by
      unfold selStep
      rw [if_neg (h x (List.mem_cons_self x xs))]
    rw [hx]
    exact ih (fun i hi => h i (List.mem_cons_of_mem _ hi))

theorem sel_fold_ub (time : Nat) (tab : List PCB) (l : List Nat) (M : Int) :
    ∀ (a : Nat) (b : Int), b ≤ M →
    (∀ i ∈ l, (tab.getD i dPCB).status = Status.ready →
        agingScore time (tab.getD i dPCB) ≤ M) →
    (l.foldl (selStep time tab) (a, b)).2 ≤ M := by
  induction l with
  | nil => intro a b hb _; exact hb
  | cons x xs ih =>
    intro a b hb h
    simp only [List.foldl_cons]
    unfold selStep
    by_cases hc : (tab.getD x dPCB).status = Status.ready ∧
        agingScore time (tab.getD x dPCB) ≥ b
    · rw [if_pos hc]
      exact ih x (agingScore time (tab.getD x dPCB))
        (h x (List.mem_cons_self x xs) hc.1)
        (fun i hi => h i (List.mem_cons_of_mem _ hi))
    · rw [if_neg hc]
      exact ih a b hb (fun i hi => h i (List.mem_cons_of_mem _ hi))

theorem sel_fold_argmax (time : Nat) (tab : List PCB) (l1 l2 : List Nat) (a : Nat) (b : Int)
    (j : Nat)
    (hr : (tab.getD j dPCB).status = Status.ready)
    (hb : b ≤ agingScore time (tab.getD j dPCB))
    (h1 : ∀ i ∈ l1, (tab.getD i dPCB).status = Status.ready →
        agingScore time (tab.getD i dPCB) ≤ agingScore time (tab.getD j dPCB))
    (h2 : ∀ i ∈ l2, (tab.getD i dPCB).status = Status.ready →
        agingScore time (tab.getD i dPCB) < agingScore time (tab.getD j dPCB)) :
    (l1 ++ j :: l2).foldl (selStep time tab) (a, b)
      = (j, agingScore time (tab.getD j dPCB)) := by
  rw [List.foldl_append]
  have hub : (l1.foldl (selStep time tab) (a, b)).2 ≤ agingScore time (tab.getD j dPCB) :=
    sel_fold_ub time tab l1 _ a b hb h1
  simp only [List.foldl_cons]
  have hstep : selStep time tab (l1.foldl (selStep time tab) (a, b)) j
      = (j, agingScore time (tab.getD j dPCB)) := by
    unfold selStep
    rw [if_pos ⟨hr, hub⟩]
  rw [hstep]
  exact sel_fold_skip time tab l2 _ _
    (fun i hi hc => absurd hc.2 (not_le.mpr (h2 i hi hc.1)))

theorem range_split (n j : Nat) (h : j < n) :
    List.range n = List.range j ++ j :: List.range' (j + 1) (n - j - 1) := by
  have h4 := List.range'_append_1 0 j (n - j)
  rw [Nat.zero_add] at h4
  have h5 : n - j + j = n := by omega
  rw [h5] at h4
  have h2 : n - j = (n - j - 1) + 1 := by omega
  rw [h2, List.range'_succ] at h4
  rw [List.range_eq_range' n, List.range_eq_range' j]
  exact h4.symm

theorem schedule_executingIdx (st : KState) :
    (schedule st).executingIdx = scheduleSelect st := by
  simp only [schedule, dispatch, updateProc, printPID_eq, emit]

theorem scheduleSelect_argmax (st : KState) (j : Nat)
    (hj : j < st.maxProcs)
    (hr : (st.procTab.getD j dPCB).status = Status.ready)
    (hb : (st.procTab.getD st.executingIdx dPCB).niceness - 1
        ≤ agingScore st.time (st.procTab.getD j dPCB))
    (hmax : ∀ i, i < st.maxProcs → (st.procTab.getD i dPCB).status = Status.ready →
        agingScore st.time (st.procTab.getD i dPCB)
          ≤ agingScore st.time (st.procTab.getD j dPCB))
    (hgt : ∀ i, j < i → i < st.maxProcs → (st.procTab.getD i dPCB).status = Status.ready →
        agingScore st.time (st.procTab.getD i dPCB)
          < agingScore st.time (st.procTab.getD j dPCB)) :
    scheduleSelect st = j := by
  show (List.foldl (selStep st.time st.procTab)
      ((st.procTab.getD st.executingIdx dPCB).pid,
       (st.procTab.getD st.executingIdx dPCB).niceness - 1)
      (List.range st.maxProcs)).1 = j
  rw [range_split st.maxProcs j hj]
  rw [sel_fold_argmax st.time st.procTab (List.range j) (List.range' (j + 1) (st.maxProcs - j - 1))
      _ _ j hr hb
      (fun i hi => hmax i (lt_trans (List.mem_range.mp hi) hj))
      (fun i hi => by
        have := List.mem_range'_1.mp hi
        exact hgt i (by omega) (by omega))]

end Kernel

namespace Kernel

/-- C2 counterexample: in `tieSt`, slots 1 and 2 are both READY and share the
maximal aging score (0, which also meets the bound `executing.niceness - 1 =
-1`), yet the scheduler dispatches into slot 2, not the lowest-indexed slot
1. -/
theorem C2_counterexample :
    (tieSt.procTab.getD 1 dPCB).status = Status.ready ∧
    (tieSt.procTab.getD 2 dPCB).status = Status.ready ∧
    agingScore tieSt.time (tieSt.procTab.getD 1 dPCB)
      = agingScore tieSt.time (tieSt.procTab.getD 2 dPCB) ∧
    (∀ i, i < tieSt.maxProcs → (tieSt.procTab.getD i dPCB).status = Status.ready →
      agingScore tieSt.time (tieSt.procTab.getD i dPCB)
        ≤ agingScore tieSt.time (tieSt.procTab.getD 1 dPCB)) ∧
    (tieSt.procTab.getD tieSt.executingIdx dPCB).niceness - 1
      ≤ agingScore tieSt.time (tieSt.procTab.getD 1 dPCB) ∧
    (schedule tieSt).executingIdx = 2 := by
  refine ⟨by decide, by decide, by decide, ?_, by decide, by decide⟩
  decide

/-- C2 amended: whenever the scheduler runs and one or more READY PCBs attain
the maximal aging score (meeting the bound `executing.niceness - 1`), the
scheduler selects the HIGHEST-indexed of those PCBs as the next process to
dispatch (the `>=` comparison lets every later maximal entry displace an
earlier one). -/
theorem C2_tie_highest_index (st : KState) (j : Nat)
    (hj : j < st.maxProcs)
    (hr : (st.procTab.getD j dPCB).status = Status.ready)
    (hb : (st.procTab.getD st.executingIdx dPCB).niceness - 1
        ≤ agingScore st.time (st.procTab.getD j dPCB))
    (hmax : ∀ i, i < st.maxProcs → (st.procTab.getD i dPCB).status = Status.ready →
        agingScore st.time (st.procTab.getD i dPCB)
          ≤ agingScore st.time (st.procTab.getD j dPCB))
    (hgt : ∀ i, j < i → i < st.maxProcs → (st.procTab.getD i dPCB).status = Status.ready →
        agingScore st.time (st.procTab.getD i dPCB)
          < agingScore st.time (st.procTab.getD j dPCB)) :
    (schedule st).executingIdx = j := by
  rw [schedule_executingIdx]
  exact scheduleSelect_argmax st j hj hr hb hmax hgt

/-- C2 witness: in `tieSt`, slot 2 is the highest-indexed of the tied maximal
READY PCBs and the scheduler dispatches into it. -/
theorem C2_tie_highest_index_witness :
    (2 < tieSt.maxProcs) ∧ (schedule tieSt).executingIdx = 2 :=
  ⟨by decide, C2_tie_highest_index tieSt 2 (by decide) (by decide) (by decide)
    (by decide)
    (by
      intro i h1 h2 _
      have h3 : tieSt.maxProcs = 3 := by decide
      rw [h3] at h2
      omega)⟩

/-- C8 counterexample: in `loneSt` exactly one PCB (slot 1) is READY, but its
aging score 0 is below the bound `executing.niceness - 1 = 19`, so the
scheduler re-dispatches the executing slot 0 instead of selecting slot 1. -/
theorem C8_counterexample :
    (loneSt.procTab.getD 1 dPCB).status = Status.ready ∧
    (∀ i, i < loneSt.maxProcs → (loneSt.procTab.getD i dPCB).status = Status.ready → i = 1) ∧
    (schedule loneSt).executingIdx = 0 := by
  refine ⟨by decide, ?_, by decide⟩
  decide

/-- C8 amended: whenever the scheduler runs in a state where exactly one PCB
has status READY, it selects that PCB as the next process to dispatch,
PROVIDED its aging score meets the bound `executing.niceness - 1`; a single
READY PCB whose score is below the bound is passed over and the executing pid
is re-dispatched. -/
theorem C8_single_ready (st : KState) (j : Nat)
    (hj : j < st.maxProcs)
    (hr : (st.procTab.getD j dPCB).status = Status.ready)
    (huniq : ∀ i, i < st.maxProcs → (st.procTab.getD i dPCB).status = Status.ready → i = j)
    (hb : (st.procTab.getD st.executingIdx dPCB).niceness - 1
        ≤ agingScore st.time (st.procTab.getD j dPCB)) :
    (schedule st).executingIdx = j := by
  rw [schedule_executingIdx]
  refine scheduleSelect_argmax st j hj hr hb ?_ ?_
  · intro i hi hri
    rw [huniq i hi hri]
  · intro i hij hi hri
    have := huniq i hi hri
    omega

/-- C8 witness: in `loneOkSt` the single READY PCB (slot 1, score 0, bound
-1) is selected and dispatched. -/
theorem C8_single_ready_witness :
    (1 < loneOkSt.maxProcs) ∧ (schedule loneOkSt).executingIdx = 1 :=
  ⟨by decide, C8_single_ready loneOkSt 1 (by decide) (by decide) (by decide) (by decide)⟩

end Kernel

namespace Kernel

theorem list_set_getD_self {α : Type} (l : List α) (i : Nat) (d : α) :
    l.set i (l.getD i d) = l := by
  induction l generalizing i with
  | nil => rfl
  | cons x xs ih =>
    cases i with
    | zero => rfl
    | succ j =>
      simp only [List.set, List.getD_cons_succ]
      rw [ih j]

theorem forkFdStep_shape (iNew : Nat) (s : KState) (i : Nat) :
    ∃ (q : List Int) (t : List FdEntry),
      t.length = s.openFileTab.length ∧
      forkFdStep iNew s i
        = { s with procTab := s.procTab.set iNew { s.procTab.getD iNew dPCB with fdTab := q },
                   openFileTab := t } := by
  unfold forkFdStep updateProc
  by_cases hfd : (0:Int) ≤ (s.procTab.getD s.executingIdx dPCB).fdTab.getD i (-1)
  · rw [if_pos hfd]
    exact ⟨_, _, by simp, rfl⟩
  · rw [if_neg hfd]
    exact ⟨_, s.openFileTab, rfl, rfl⟩

theorem forkFdLoop_shape (iNew : Nat) (l : List Nat) (s : KState) :
    ∃ (q : List Int) (t : List FdEntry),
      t.length = s.openFileTab.length ∧
      l.foldl (forkFdStep iNew) s
        = { s with procTab := s.procTab.set iNew { s.procTab.getD iNew dPCB with fdTab := q },
                   openFileTab := t } := by
  induction l generalizing s with
  | nil =>
    refine ⟨(s.procTab.getD iNew dPCB).fdTab, s.openFileTab, rfl, ?_⟩
    have : s.procTab.set iNew { s.procTab.getD iNew dPCB with
        fdTab := (s.procTab.getD iNew dPCB).fdTab } = s.procTab := by
      rw [show { s.procTab.getD iNew dPCB with
        fdTab := (s.procTab.getD iNew dPCB).fdTab } = s.procTab.getD iNew dPCB from rfl]
      exact list_set_getD_self _ _ _
    simp only [List.foldl_nil, this]
  | cons x xs ih =>
    simp only [List.foldl_cons]
    obtain ⟨q1, t1, hlen1, he1⟩ := forkFdStep_shape iNew s x
    obtain ⟨q2, t2, hlen2, he2⟩ := ih (forkFdStep iNew s x)
    refine ⟨q2, t2, ?_, ?_⟩
    · rw [hlen2, he1]; exact hlen1
    · rw [he2, he1]
      simp only [List.set_set]
      by_cases hin : iNew < s.procTab.length
      · rw [list_getD_set_self _ _ _ _ hin]
      · rw [list_set_oob _ _ _ (Nat.le_of_not_lt hin),
            list_set_oob _ _ _ (Nat.le_of_not_lt hin)]

/-- The descriptor-inheritance loop of `fork()` only rewrites the child's
descriptor table and the open-file table, expressed through the loop's own
projections so the equation can rewrite any occurrence. -/
theorem forkFdLoop_split (iNew : Nat) (l : List Nat) (s : KState) :
    l.foldl (forkFdStep iNew) s
      = { s with
          procTab := s.procTab.set iNew
            { s.procTab.getD iNew dPCB with
              fdTab := ((l.foldl (forkFdStep iNew) s).procTab.getD iNew dPCB).fdTab }
          openFileTab := (l.foldl (forkFdStep iNew) s).openFileTab } := by
  obtain ⟨q, t, hlen, heq⟩ := forkFdLoop_shape iNew l s
  by_cases hin : iNew < s.procTab.length
  · rw [heq, list_getD_set_self _ _ _ _ hin]
  · rw [heq, list_set_oob _ _ _ (Nat.le_of_not_lt hin),
        list_set_oob _ _ _ (Nat.le_of_not_lt hin)]

theorem forkFdLoop_oftLength (iNew : Nat) (l : List Nat) (s : KState) :
    (l.foldl (forkFdStep iNew) s).openFileTab.length = s.openFileTab.length := by
  obtain ⟨q, t, hlen, heq⟩ := forkFdLoop_shape iNew l s
  rw [heq]
  exact hlen

end Kernel

namespace Kernel

theorem forkDest_frame (st : KState) (o : List Char) :
    forkDest { st with out := o } = forkDest st := rfl

/-- Characterization of a non-full `fork()` whose destination slot differs
from the executing slot: the counter is bumped, the child PCB is built in the
destination slot (pid = slot index, READY, relocated stack pointer at the same
height, inherited niceness, `lastExec` stamped, parent's trap context with
`gpr[0]` zeroed), the parent's `gpr[0]` receives the child pid, the `F` marker
is emitted, and the descriptor/open-file/memory effects are abstracted by
`q`, `t`, `m`. -/
theorem svcFork_nonfull_shape (tosP : Int) (st : KState)
    (h : st.currentProcesses < (st.maxProcs : Int))
    (hi : forkDest st < st.procTab.length)
    (hx : st.executingIdx ≠ forkDest st) :
    ∃ (q : List Int) (t : List FdEntry) (m : Nat → Int),
      svcFork tosP st = { st with
        currentProcesses := st.currentProcesses + 1
        procTab := st.procTab.set (forkDest st)
          { pid := forkDest st
            status := Status.ready
            tos := tosP - (Int.ofNat (forkDest st) - 1) * 0x2000
            ctx := { st.trapCtx with
                     sp := (tosP - (Int.ofNat (forkDest st) - 1) * 0x2000)
                       - ((st.procTab.getD st.executingIdx dPCB).tos
                          - (st.procTab.getD st.executingIdx dPCB).ctx.sp)
                     gpr := st.trapCtx.gpr.set 0 0 }
            lastExec := st.time
            niceness := (st.procTab.getD st.executingIdx dPCB).niceness
            fdTab := q }
        openFileTab := t
        trapCtx := { st.trapCtx with gpr := st.trapCtx.gpr.set 0 ((forkDest st : Nat) : Int) }
        mem := m
        out := st.out ++ ['F'] } ∧
      t.length = st.openFileTab.length := by
  have hc : ¬ ((st.procTab.length : Int) ≤ st.currentProcesses) := by
    simp only [KState.maxProcs] at h
    omega
  have hx' : forkDest st ≠ st.executingIdx := Ne.symm hx
  exact ⟨_, _, _,
    by
      simp only [svcFork, emit, emitStr, updateProc, setR0, KState.maxProcs, KState.maxFds,
        forkDest_frame, List.length_set, List.set_set, if_neg hc, list_getD_set_self, hi,
        zeroPCB, zeroCtx]
      repeat rw [list_getD_set_ne _ _ _ _ _ hx']
      rw [forkFdLoop_split]
      simp only [List.set_set, list_getD_set_self, hi, List.length_set]
      rfl,
    by rw [forkFdLoop_oftLength]⟩

end Kernel

namespace Kernel

/-- C3 counterexample: at `forkSt`, fork (svc 0x03) gives the parent the
child pid 1 in gpr[0] and zeroes the child's saved gpr[0], but the child's
saved stack pointer does NOT equal the parent's trap-time stack pointer —
it is relocated into the child's own stack region — so the two saved
contexts differ in a register other than gpr[0]. -/
theorem C3_counterexample :
    (hilevel_handler_svc 0x80000 forkSt 3).trapCtx.gpr.getD 0 0 = 1 ∧
    ((hilevel_handler_svc 0x80000 forkSt 3).procTab.getD 1 dPCB).ctx.gpr.getD 0 0 = 0 ∧
    ((hilevel_handler_svc 0x80000 forkSt 3).procTab.getD 1 dPCB).ctx.sp ≠ forkSt.trapCtx.sp := by
  refine ⟨by decide, by decide, by decide⟩

/-- C3 amended: a successful fork (svc 0x03, non-full table, destination slot
distinct from the executing slot) yields parent and child observing identical
saved register state except gpr[0] AND sp: the parent's gpr[0] holds the
child's pid, the child's saved gpr[0] is 0, the child's saved sp is relocated
to its own stack region (child tos minus the parent's stack height), and
every other register of the child's saved context equals the parent's saved
context at the trap. -/
theorem C3_fork_ctx (tosP : Int) (st : KState)
    (h : st.currentProcesses < (st.maxProcs : Int))
    (hi : forkDest st < st.procTab.length)
    (hx : st.executingIdx ≠ forkDest st) :
    ((hilevel_handler_svc tosP st 3).procTab.getD (forkDest st) dPCB).ctx
      = { st.trapCtx with
          sp := (tosP - (Int.ofNat (forkDest st) - 1) * 0x2000)
            - ((st.procTab.getD st.executingIdx dPCB).tos
               - (st.procTab.getD st.executingIdx dPCB).ctx.sp)
          gpr := st.trapCtx.gpr.set 0 0 } ∧
    (hilevel_handler_svc tosP st 3).trapCtx
      = { st.trapCtx with gpr := st.trapCtx.gpr.set 0 ((forkDest st : Nat) : Int) } := by
  rw [handler_fork]
  obtain ⟨q, t, m, heq, hlen⟩ := svcFork_nonfull_shape tosP st h hi hx
  rw [heq]
  refine ⟨?_, rfl⟩
  show ((st.procTab.set (forkDest st) _).getD (forkDest st) dPCB).ctx = _
  rw [list_getD_set_self _ _ _ _ hi]

/-- C3 witness: the amended characterization applied at `forkSt` (child slot
1, child tos 0x80000, parent stack height 16). -/
theorem C3_fork_ctx_witness :
    (forkSt.currentProcesses < (forkSt.maxProcs : Int) ∧ forkDest forkSt = 1 ∧
     forkSt.executingIdx ≠ forkDest forkSt) ∧
    ((hilevel_handler_svc 0x80000 forkSt 3).procTab.getD (forkDest forkSt) dPCB).ctx
      = { forkSt.trapCtx with
          sp := ((0x80000 : Int) - (Int.ofNat (forkDest forkSt) - 1) * 0x2000)
            - ((forkSt.procTab.getD forkSt.executingIdx dPCB).tos
               - (forkSt.procTab.getD forkSt.executingIdx dPCB).ctx.sp)
          gpr := forkSt.trapCtx.gpr.set 0 0 } ∧
    (hilevel_handler_svc 0x80000 forkSt 3).trapCtx
      = { forkSt.trapCtx with
          gpr := forkSt.trapCtx.gpr.set 0 ((forkDest forkSt : Nat) : Int) } :=
  ⟨⟨by decide, by decide, by decide⟩,
   C3_fork_ctx 0x80000 forkSt (by decide) (by decide) (by decide)⟩

end Kernel

namespace Kernel

/-! Pipe buffer lemmas. -/

theorem writeSeq_length (bs : List Int) : ∀ (buf : List Int) (i : Nat),
    (writeSeq buf i bs).length = buf.length := by
  induction bs with
  | nil => intro buf i; rfl
  | cons b rest ih =>
    intro buf i
    show (writeSeq (buf.set i b) (i + 1) rest).length = buf.length
    rw [ih]
    simp

theorem writeSeq_getD_lt (bs : List Int) : ∀ (buf : List Int) (i k : Nat), k < i →
    (writeSeq buf i bs).getD k 0 = buf.getD k 0 := by
  induction bs with
  | nil => intro buf i k _; rfl
  | cons b rest ih =>
    intro buf i k hk
    show (writeSeq (buf.set i b) (i + 1) rest).getD k 0 = buf.getD k 0
    rw [ih _ _ _ (by omega)]
    exact list_getD_set_ne _ _ _ _ _ (by omega)

theorem readSeq_writeSeq (bs : List Int) : ∀ (buf : List Int) (j : Nat),
    j + bs.length ≤ buf.length →
    readSeq (writeSeq buf j bs) j bs.length = bs := by
  induction bs with
  | nil => intro buf j _; rfl
  | cons b rest ih =>
    intro buf j hj
    show (writeSeq (buf.set j b) (j + 1) rest).getD j 0
        :: readSeq (writeSeq (buf.set j b) (j + 1) rest) (j + 1) rest.length
      = b :: rest
    have h1 : (writeSeq (buf.set j b) (j + 1) rest).getD j 0 = b := by
      rw [writeSeq_getD_lt _ _ _ _ (by omega)]
      exact list_getD_set_self _ _ _ _ (by simp at hj ⊢; omega)
    rw [h1, ih (buf.set j b) (j + 1) (by simp at hj ⊢; omega)]

theorem readBytes_length (n : Nat) : ∀ (mem : Nat → Int) (a : Nat),
    (readBytes mem a n).length = n := by
  induction n with
  | zero => intro mem a; rfl
  | succ m ih =>
    intro mem a
    show (mem a :: readBytes mem (a + 1) m).length = m + 1
    simp [ih]

/-- A wrap-free run of the enqueue loop starting at `rear = j - 1`,
`front = 0`: all bytes land at consecutive indices, the count is the full
length, and `full` is raised exactly when the run ends at index `c - 1`. -/
theorem pipeWriteLoop_lin (c : Nat) :
    ∀ (bs : List Int) (j : Nat) (buf : List Int), j + bs.length ≤ c →
    pipeWriteLoop ⟨0, (j : Int) - 1, c, false, buf⟩ bs
      = (⟨0, ((j + bs.length : Nat) : Int) - 1, c,
          decide (1 ≤ bs.length ∧ j + bs.length = c), writeSeq buf j bs⟩, bs.length) := by
  intro bs
  induction bs with
  | nil =>
    intro j buf hj
    simp [pipeWriteLoop, writeSeq]
  | cons b rest ih =>
    intro j buf hj
    have hlen : j + (rest.length + 1) ≤ c := by simpa [Nat.add_comm, Nat.add_assoc] using hj
    have hjc : j < c := by omega
    have hrear : ((j : Int) - 1 + 1) % (c : Int) = (j : Int) := by
      have h0 : ((j : Int) - 1 + 1) = (j : Int) := by ring
      rw [h0]
      exact Int.emod_eq_of_lt (by omega) (by exact_mod_cast hjc)
    show (if (false : Bool) then _ else _) = _
    rw [if_neg (by simp)]
    simp only [hrear, List.length_cons]
    by_cases hfull : j + 1 = c
    · have hrest : rest = [] := List.length_eq_zero.mp (by omega)
      subst hrest
      have hcond : (0 : Int) = ((j : Int) + 1) % (c : Int) := by
        have h0 : ((j : Int) + 1) = (c : Int) := by exact_mod_cast hfull
        rw [h0, Int.emod_self]
      rw [if_pos hcond]
      rw [show ((j + ((List.nil : List Int).length + 1) : Nat) : Int) - 1 = (j : Int) from by
            simp only [List.length_nil]
            push_cast; ring,
          show decide (1 ≤ (List.nil : List Int).length + 1
              ∧ j + ((List.nil : List Int).length + 1) = c) = true from by
            simp only [List.length_nil]
            rw [decide_eq_true_eq]
            omega,
          show ((j : Int)).toNat = j from Int.toNat_natCast j]
      rfl
    · have hcond : ¬ ((0 : Int) = ((j : Int) + 1) % (c : Int)) := by
        have hlt : ((j : Int) + 1) % (c : Int) = ((j + 1 : Nat) : Int) := by
          push_cast
          exact Int.emod_eq_of_lt (by omega) (by exact_mod_cast (by omega : j + 1 < c))
        rw [hlt]
        intro hcontra
        have h1 : j + 1 = 0 := by exact_mod_cast hcontra.symm
        omega
      rw [if_neg hcond]
      have hstate : (⟨0, (j : Int), c, false, buf.set ((j : Int)).toNat b⟩ : Pipe)
          = ⟨0, ((j + 1 : Nat) : Int) - 1, c, false, (buf.set j b)⟩ := by
        rw [show ((j : Int)).toNat = j from Int.toNat_natCast j]
        rw [show ((j + 1 : Nat) : Int) - 1 = (j : Int) from by push_cast; ring]
      rw [hstate, ih (j + 1) (buf.set j b) (by omega)]
      rw [show ((j + (rest.length + 1) : Nat) : Int) - 1
              = ((j + 1 + rest.length : Nat) : Int) - 1 from by push_cast; ring,
          show decide (1 ≤ rest.length + 1 ∧ j + (rest.length + 1) = c)
              = decide (1 ≤ rest.length ∧ j + 1 + rest.length = c) from by
            rw [decide_eq_decide]
            omega]
      rfl

end Kernel

namespace Kernel

/-- A run of the dequeue loop over a linearly-filled pipe (`k` bytes at
indices 0..k-1, `full` raised iff `k = c` and nothing read yet): reading
`n ≤ k - i` bytes starting at `front = i` returns `buffer[i..i+n)`, advances
`front`, and clears `full` as soon as one byte is read. -/
theorem pipeReadLoop_lin (c k : Nat) (B : List Int) (hk : k ≤ c) :
    ∀ (n i : Nat), i + n ≤ k →
    pipeReadLoop ⟨((i % c : Nat) : Int), (k : Int) - 1, c, decide (k = c ∧ i = 0), B⟩ n
      = (⟨(((i + n) % c : Nat) : Int), (k : Int) - 1, c,
          decide (k = c ∧ i = 0 ∧ n = 0), B⟩, readSeq B i n) := by
  intro n
  induction n with
  | zero =>
    intro i hi
    rw [show decide (k = c ∧ i = 0 ∧ 0 = 0) = decide (k = c ∧ i = 0) from by
          rw [decide_eq_decide]
          omega]
    rfl
  | succ m ih =>
    intro i hi
    have hik : i < k := by omega
    have hic : i < c := by omega
    have himod : i % c = i := Nat.mod_eq_of_lt hic
    have hnotempty : ¬ (((i % c : Nat) : Int) = ((k : Int) - 1 + 1) % (c : Int)
        ∧ decide (k = c ∧ i = 0) = false) := by
      rw [himod, show ((k : Int) - 1 + 1) = (k : Int) from by ring]
      rintro ⟨h1, h2⟩
      by_cases hkc : k = c
      · have hz : ((k : Int)) % (c : Int) = 0 := by
          rw [show ((k : Int)) = (c : Int) from by exact_mod_cast hkc, Int.emod_self]
        rw [hz] at h1
        have hi0 : i = 0 := by exact_mod_cast h1
        rw [decide_eq_false_iff_not] at h2
        exact h2 ⟨hkc, hi0⟩
      · have hkk : ((k : Int)) % (c : Int) = (k : Int) :=
          Int.emod_eq_of_lt (by omega) (by exact_mod_cast (by omega : k < c))
        rw [hkk] at h1
        have : i = k := by exact_mod_cast h1
        omega
    show (if ((i % c : Nat) : Int) = ((k : Int) - 1 + 1) % (c : Int)
        ∧ decide (k = c ∧ i = 0) = false then _ else _) = _
    rw [if_neg hnotempty]
    have hb : B.getD (((i % c : Nat) : Int)).toNat 0 = B.getD i 0 := by
      rw [himod, Int.toNat_natCast]
    have hfr : (((i % c : Nat) : Int) + 1) % (c : Int) = (((i + 1) % c : Nat) : Int) := by
      rw [himod]
      push_cast
      rfl
    have hfl : (if decide (k = c ∧ i = 0) = true then false else decide (k = c ∧ i = 0))
        = decide (k = c ∧ i + 1 = 0) := by
      rw [show decide (k = c ∧ i + 1 = 0) = false from by simp]
      cases hd : decide (k = c ∧ i = 0) <;> simp
    rw [hb, hfr, hfl, ih (i + 1) (by omega)]
    rw [show i + 1 + m = i + (m + 1) from by omega,
        show decide (k = c ∧ i + 1 = 0 ∧ m = 0) = decide (k = c ∧ i = 0 ∧ m + 1 = 0) from by
          simp]
    rfl

/-- Writing to a full pipe makes no progress: the loop breaks immediately,
returning count 0 and the pipe untouched. -/
theorem pipeWriteLoop_full (p : Pipe) (bs : List Int) (hf : p.full = true) (hb : bs ≠ []) :
    pipeWriteLoop p bs = (p, 0) := by
  cases bs with
  | nil => exact absurd rfl hb
  | cons b rest =>
    show (if p.full then _ else _) = _
    rw [hf]
    rfl

end Kernel

namespace Kernel

theorem mod_cycle (c f d : Nat) (hf : f < c) (hd0 : 0 < d) (hdc : d ≤ c) :
    ((f + d) % c = f) ↔ d = c := by
  constructor
  · intro h
    by_cases hlt : f + d < c
    · rw [Nat.mod_eq_of_lt hlt] at h
      omega
    · rw [Nat.mod_eq_sub_mod (by omega : c ≤ f + d),
          Nat.mod_eq_of_lt (by omega : f + d - c < c)] at h
      omega
  · intro h
    subst h
    rw [Nat.add_mod_right, Nat.mod_eq_of_lt hf]

/-- General-front version of the enqueue run: starting from a state in which
`j ≥ 1` bytes already sit at positions `f, f+1, ..., f+j-1 (mod c)` with
`rear = (f + j - 1) % c` and `full = false`, the loop writes all of `bs`
(provided it fits), keeps `front = f`, advances `rear` and raises `full`
exactly when the pipe closes up. -/
theorem pipeWriteLoop_wrap (c f : Nat) (hf : f < c) :
    ∀ (bs : List Int) (j : Nat) (buf : List Int), 1 ≤ j → j + bs.length ≤ c →
    ∃ buf',
    pipeWriteLoop ⟨(f : Int), (((f + (j - 1)) % c : Nat) : Int), c, false, buf⟩ bs
      = (⟨(f : Int), (((f + (j - 1) + bs.length) % c : Nat) : Int), c,
          decide (1 ≤ bs.length ∧ j + bs.length = c), buf'⟩, bs.length) := by
  intro bs
  induction bs with
  | nil =>
    intro j buf hj1 hj
    refine ⟨buf, ?_⟩
    simp [pipeWriteLoop]
  | cons b rest ih =>
    intro j buf hj1 hj
    have hlen : j + (rest.length + 1) ≤ c := by simpa using hj
    have hc : 0 < c := by omega
    have hrear : (((((f + (j - 1)) % c) : Nat) : Int) + 1) % (c : Int)
        = (((f + j) % c : Nat) : Int) := by
      have hmid : (((((f + (j - 1)) % c) : Nat) : Int) + 1) % (c : Int)
          = ((((f + (j - 1)) % c + 1) % c : Nat) : Int) := by
        push_cast
        rfl
      rw [hmid]
      congr 1
      rw [Nat.mod_add_mod]
      congr 1
      omega
    have hcondv : ((((f + j) % c : Nat) : Int) + 1) % (c : Int)
        = (((f + j + 1) % c : Nat) : Int) := by
      have hmid : ((((f + j) % c : Nat) : Int) + 1) % (c : Int)
          = ((((f + j) % c + 1) % c : Nat) : Int) := by
        push_cast
        rfl
      rw [hmid]
      congr 1
      rw [Nat.mod_add_mod]
    by_cases hfull : j + 1 = c
    · have hrest : rest = [] := List.length_eq_zero.mp (by omega)
      subst hrest
      have hcond : (f : Int) = ((((f + j) % c : Nat) : Int) + 1) % (c : Int) := by
        rw [hcondv]
        have h2 : (f + (j + 1)) % c = f := (mod_cycle c f (j + 1) hf (by omega) (by omega)).mpr hfull
        rw [show f + j + 1 = f + (j + 1) from by omega, h2]
      refine ⟨buf.set ((((f + j) % c : Nat) : Int)).toNat b, ?_⟩
      show (if (false : Bool) then _ else _) = _
      rw [if_neg (by simp)]
      simp only [hrear, List.length_cons]
      rw [if_pos hcond]
      rw [show ((f + (j - 1) + ((List.nil : List Int).length + 1)) % c : Nat) = (f + j) % c from by
            simp only [List.length_nil]
            congr 1
            omega,
          show decide (1 ≤ (List.nil : List Int).length + 1
              ∧ j + ((List.nil : List Int).length + 1) = c) = true from by
            simp only [List.length_nil]
            rw [decide_eq_true_eq]
            omega]
      rfl
    · have hcond : ¬ ((f : Int) = ((((f + j) % c : Nat) : Int) + 1) % (c : Int)) := by
        rw [hcondv]
        intro hcontra
        have h1 : (f + j + 1) % c = f := by exact_mod_cast hcontra.symm
        rw [show f + j + 1 = f + (j + 1) from by omega] at h1
        exact hfull ((mod_cycle c f (j + 1) hf (by omega) (by omega)).mp h1)
      have hstate : (((f + j) % c : Nat) : Int) = (((f + ((j + 1) - 1)) % c : Nat) : Int) := rfl
      obtain ⟨buf', hb⟩ := ih (j + 1) (buf.set ((((f + ((j + 1) - 1)) % c : Nat) : Int)).toNat b)
        (by omega) (by omega)
      refine ⟨buf', ?_⟩
      show (if (false : Bool) then _ else _) = _
      rw [if_neg (by simp)]
      simp only [hrear, List.length_cons]
      rw [if_neg hcond, hstate, hb]
      rw [show ((f + ((j + 1) - 1) + rest.length) % c : Nat)
              = ((f + (j - 1) + (rest.length + 1)) % c : Nat) from by
            congr 1
            omega,
          show decide (1 ≤ rest.length ∧ j + 1 + rest.length = c)
              = decide (1 ≤ rest.length + 1 ∧ j + (rest.length + 1) = c) from by
            rw [decide_eq_decide]
            omega]

end Kernel

namespace Kernel

/-- On the pipe path (`fd ≥ 3` with an allocated pipe behind the descriptor),
`write` reduces to the enqueue loop on the addressed pipe: the resulting pipe
replaces the heap entry and the count written lands in `gpr[0]`. -/
theorem svcWrite_pipe (st : KState) (h : Nat)
    (h3 : 3 ≤ st.trapCtx.gpr.getD 0 0)
    (hfile : (st.openFileTab.getD (st.trapCtx.gpr.getD 0 0).toNat dFd).file = some h) :
    svcWrite st = setR0
      { st with pipeHeap := st.pipeHeap.set h (pipeWriteLoop (st.pipeHeap.getD h dPipe) (readBytes st.mem (st.trapCtx.gpr.getD 1 0).toNat (st.trapCtx.gpr.getD 2 0).toNat)).1 }
      (((pipeWriteLoop (st.pipeHeap.getD h dPipe) (readBytes st.mem (st.trapCtx.gpr.getD 1 0).toNat (st.trapCtx.gpr.getD 2 0).toNat)).2 : Nat) : Int) := by
  show (if st.trapCtx.gpr.getD 0 0 < 0 then _ else _) = _
  rw [if_neg (by omega), if_neg (by omega), if_neg (by omega), if_neg (by omega), hfile]

/-- On the pipe path, `read` reduces to the dequeue loop on the addressed pipe:
the resulting pipe replaces the heap entry, the bytes land in user memory at
the supplied address, and the count read lands in `gpr[0]`. -/
theorem svcRead_pipe (st : KState) (h : Nat)
    (h3 : 3 ≤ st.trapCtx.gpr.getD 0 0)
    (hfile : (st.openFileTab.getD (st.trapCtx.gpr.getD 0 0).toNat dFd).file = some h) :
    svcRead st = setR0
      { st with
        pipeHeap := st.pipeHeap.set h (pipeReadLoop (st.pipeHeap.getD h dPipe) (st.trapCtx.gpr.getD 2 0).toNat).1
        mem := storeBytes st.mem (st.trapCtx.gpr.getD 1 0).toNat (pipeReadLoop (st.pipeHeap.getD h dPipe) (st.trapCtx.gpr.getD 2 0).toNat).2 }
      (((pipeReadLoop (st.pipeHeap.getD h dPipe) (st.trapCtx.gpr.getD 2 0).toNat).2.length : Nat) : Int) := by
  show (if st.trapCtx.gpr.getD 0 0 < 0 then _ else _) = _
  rw [if_neg (by omega), if_neg (by omega), if_neg (by omega), if_neg (by omega), hfile]

/-- `readBytes` only looks at the addresses it covers. -/
theorem readBytes_congr (n : Nat) : ∀ (m1 m2 : Nat → Int) (a : Nat),
    (∀ i, i < n → m1 (a + i) = m2 (a + i)) →
    readBytes m1 a n = readBytes m2 a n := by
  induction n with
  | zero => intro m1 m2 a _; rfl
  | succ k ih =>
    intro m1 m2 a hag
    show m1 a :: readBytes m1 (a + 1) k = m2 a :: readBytes m2 (a + 1) k
    rw [show m1 a = m2 a from by simpa using hag 0 (by omega)]
    rw [ih m1 m2 (a + 1) (fun i hi => by
      have := hag (i + 1) (by omega)
      rw [show a + (i + 1) = a + 1 + i from by omega] at this
      exact this)]

/-- Reading back a stored block returns exactly the stored bytes. -/
theorem readBytes_storeBytes : ∀ (xs : List Int) (m : Nat → Int) (a : Nat),
    readBytes (storeBytes m a xs) a xs.length = xs := by
  intro xs
  induction xs with
  | nil => intro m a; rfl
  | cons x rest ih =>
    intro m a
    show storeBytes m a (x :: rest) a :: readBytes (storeBytes m a (x :: rest)) (a + 1) rest.length
      = x :: rest
    have h0 : storeBytes m a (x :: rest) a = x := by
      show (if a ≤ a ∧ a < a + (x :: rest).length then (x :: rest).getD (a - a) 0 else m a) = x
      rw [if_pos (by simp only [List.length_cons]; omega)]
      simp
    rw [h0, readBytes_congr rest.length _ (storeBytes m (a + 1) rest) (a + 1)
      (fun i hi => by
        show (if a ≤ a + 1 + i ∧ a + 1 + i < a + (x :: rest).length
            then (x :: rest).getD (a + 1 + i - a) 0 else m (a + 1 + i))
          = (if a + 1 ≤ a + 1 + i ∧ a + 1 + i < a + 1 + rest.length
            then rest.getD (a + 1 + i - (a + 1)) 0 else m (a + 1 + i))
        rw [if_pos (by simp only [List.length_cons]; omega), if_pos (by omega)]
        rw [show a + 1 + i - a = i + 1 from by omega, show a + 1 + i - (a + 1) = i from by omega]
        rfl), ih m (a + 1)]

end Kernel

namespace Kernel

/-- C6: writing exactly `C` bytes into an empty pipe of capacity `C` (via svc
0x01 on a descriptor backed by a fresh pipe) returns `C` in `gpr[0]` and
raises `full`; an immediately following write of `n ≥ 1` bytes through the
same descriptor returns 0 and leaves the pipe — buffer, front, rear and
full — unchanged. -/
theorem C6_pipe_fill_then_write (tosP : Int) (st : KState) (fdv bufA bufB : Int)
    (h c n : Nat)
    (hfd : 3 ≤ fdv)
    (hfile : (st.openFileTab.getD fdv.toNat dFd).file = some h)
    (hh : h < st.pipeHeap.length)
    (hp : st.pipeHeap.getD h dPipe = freshPipe c)
    (hc : 0 < c) (hn : 1 ≤ n) :
    (hilevel_handler_svc tosP (setArgs st fdv bufA (c : Int)) 1).trapCtx.gpr.getD 0 0 = (c : Int)
    ∧ ((hilevel_handler_svc tosP (setArgs st fdv bufA (c : Int)) 1).pipeHeap.getD h dPipe).full
        = true
    ∧ (hilevel_handler_svc tosP
        (setArgs (hilevel_handler_svc tosP (setArgs st fdv bufA (c : Int)) 1) fdv bufB (n : Int))
        1).trapCtx.gpr.getD 0 0 = 0
    ∧ (hilevel_handler_svc tosP
        (setArgs (hilevel_handler_svc tosP (setArgs st fdv bufA (c : Int)) 1) fdv bufB (n : Int))
        1).pipeHeap.getD h dPipe
      = (hilevel_handler_svc tosP (setArgs st fdv bufA (c : Int)) 1).pipeHeap.getD h dPipe := by
  have hfp : freshPipe c = (⟨0, ((0 : Nat) : Int) - 1, c, false, List.replicate c 0⟩ : Pipe) := by
    simp only [freshPipe, Pipe.mk.injEq]
    norm_num
  have hbs : (readBytes st.mem bufA.toNat c).length = c := readBytes_length c st.mem bufA.toNat
  have E1 : hilevel_handler_svc tosP (setArgs st fdv bufA (c : Int)) 1 = setR0 { (setArgs st fdv bufA (c : Int)) with pipeHeap := st.pipeHeap.set h (⟨0, ((0 + c : Nat) : Int) - 1, c, true, writeSeq (List.replicate c 0) 0 (readBytes st.mem bufA.toNat c)⟩ : Pipe) } ((c : Nat) : Int) := by
    rw [handler_write, svcWrite_pipe (setArgs st fdv bufA (c : Int)) h hfd hfile]
    rw [show (setArgs st fdv bufA (c : Int)).pipeHeap = st.pipeHeap from rfl,
        show (setArgs st fdv bufA (c : Int)).mem = st.mem from rfl,
        show (setArgs st fdv bufA (c : Int)).trapCtx.gpr.getD 1 0 = bufA from rfl,
        show (setArgs st fdv bufA (c : Int)).trapCtx.gpr.getD 2 0 = (c : Int) from rfl,
        show ((c : Int)).toNat = c from rfl, hp, hfp,
        pipeWriteLoop_lin c (readBytes st.mem bufA.toNat c) 0 (List.replicate c 0)
          (by rw [hbs]; omega), hbs,
        show decide (1 ≤ c ∧ 0 + c = c) = true from by
          rw [decide_eq_true_eq]
          omega]
    rfl
  have hbs2ne : readBytes st.mem bufB.toNat n ≠ [] := by
    intro he
    have hl := readBytes_length n st.mem bufB.toNat
    rw [he] at hl
    simp at hl
    omega
  have hfile2 : (((setArgs (setR0 { (setArgs st fdv bufA (c : Int)) with pipeHeap := st.pipeHeap.set h (⟨0, ((0 + c : Nat) : Int) - 1, c, true, writeSeq (List.replicate c 0) 0 (readBytes st.mem bufA.toNat c)⟩ : Pipe) } ((c : Nat) : Int)) fdv bufB (n : Int))).openFileTab.getD fdv.toNat dFd).file
      = some h := hfile
  have E2 : hilevel_handler_svc tosP (setArgs (setR0 { (setArgs st fdv bufA (c : Int)) with pipeHeap := st.pipeHeap.set h (⟨0, ((0 + c : Nat) : Int) - 1, c, true, writeSeq (List.replicate c 0) 0 (readBytes st.mem bufA.toNat c)⟩ : Pipe) } ((c : Nat) : Int)) fdv bufB (n : Int)) 1
      = setR0 { (setArgs (setR0 { (setArgs st fdv bufA (c : Int)) with pipeHeap := st.pipeHeap.set h (⟨0, ((0 + c : Nat) : Int) - 1, c, true, writeSeq (List.replicate c 0) 0 (readBytes st.mem bufA.toNat c)⟩ : Pipe) } ((c : Nat) : Int)) fdv bufB (n : Int)) with
          pipeHeap := (st.pipeHeap.set h (⟨0, ((0 + c : Nat) : Int) - 1, c, true, writeSeq (List.replicate c 0) 0 (readBytes st.mem bufA.toNat c)⟩ : Pipe)).set h (⟨0, ((0 + c : Nat) : Int) - 1, c, true, writeSeq (List.replicate c 0) 0 (readBytes st.mem bufA.toNat c)⟩ : Pipe) } ((0 : Nat) : Int) := by
    rw [handler_write, svcWrite_pipe (setArgs (setR0 { (setArgs st fdv bufA (c : Int)) with pipeHeap := st.pipeHeap.set h (⟨0, ((0 + c : Nat) : Int) - 1, c, true, writeSeq (List.replicate c 0) 0 (readBytes st.mem bufA.toNat c)⟩ : Pipe) } ((c : Nat) : Int)) fdv bufB (n : Int)) h hfd hfile2]
    rw [show (setArgs (setR0 { (setArgs st fdv bufA (c : Int)) with pipeHeap := st.pipeHeap.set h (⟨0, ((0 + c : Nat) : Int) - 1, c, true, writeSeq (List.replicate c 0) 0 (readBytes st.mem bufA.toNat c)⟩ : Pipe) } ((c : Nat) : Int)) fdv bufB (n : Int)).pipeHeap = st.pipeHeap.set h (⟨0, ((0 + c : Nat) : Int) - 1, c, true, writeSeq (List.replicate c 0) 0 (readBytes st.mem bufA.toNat c)⟩ : Pipe) from rfl,
        show (setArgs (setR0 { (setArgs st fdv bufA (c : Int)) with pipeHeap := st.pipeHeap.set h (⟨0, ((0 + c : Nat) : Int) - 1, c, true, writeSeq (List.replicate c 0) 0 (readBytes st.mem bufA.toNat c)⟩ : Pipe) } ((c : Nat) : Int)) fdv bufB (n : Int)).mem = st.mem from rfl,
        show (setArgs (setR0 { (setArgs st fdv bufA (c : Int)) with pipeHeap := st.pipeHeap.set h (⟨0, ((0 + c : Nat) : Int) - 1, c, true, writeSeq (List.replicate c 0) 0 (readBytes st.mem bufA.toNat c)⟩ : Pipe) } ((c : Nat) : Int)) fdv bufB (n : Int)).trapCtx.gpr.getD 1 0 = bufB from rfl,
        show (setArgs (setR0 { (setArgs st fdv bufA (c : Int)) with pipeHeap := st.pipeHeap.set h (⟨0, ((0 + c : Nat) : Int) - 1, c, true, writeSeq (List.replicate c 0) 0 (readBytes st.mem bufA.toNat c)⟩ : Pipe) } ((c : Nat) : Int)) fdv bufB (n : Int)).trapCtx.gpr.getD 2 0 = (n : Int) from rfl,
        show ((n : Int)).toNat = n from rfl,
        list_getD_set_self st.pipeHeap h (⟨0, ((0 + c : Nat) : Int) - 1, c, true, writeSeq (List.replicate c 0) 0 (readBytes st.mem bufA.toNat c)⟩ : Pipe) dPipe hh,
        pipeWriteLoop_full (⟨0, ((0 + c : Nat) : Int) - 1, c, true, writeSeq (List.replicate c 0) 0 (readBytes st.mem bufA.toNat c)⟩ : Pipe) (readBytes st.mem bufB.toNat n) rfl hbs2ne]
    rfl
  refine ⟨by rw [E1]; rfl, ?_, ?_, ?_⟩
  · rw [E1]
    rw [show (setR0 { (setArgs st fdv bufA (c : Int)) with pipeHeap := st.pipeHeap.set h (⟨0, ((0 + c : Nat) : Int) - 1, c, true, writeSeq (List.replicate c 0) 0 (readBytes st.mem bufA.toNat c)⟩ : Pipe) } ((c : Nat) : Int)).pipeHeap = st.pipeHeap.set h (⟨0, ((0 + c : Nat) : Int) - 1, c, true, writeSeq (List.replicate c 0) 0 (readBytes st.mem bufA.toNat c)⟩ : Pipe) from rfl,
        list_getD_set_self st.pipeHeap h (⟨0, ((0 + c : Nat) : Int) - 1, c, true, writeSeq (List.replicate c 0) 0 (readBytes st.mem bufA.toNat c)⟩ : Pipe) dPipe hh]
  · rw [E1, E2]
    rfl
  · rw [E1, E2]
    rw [show (setR0 { (setArgs (setR0 { (setArgs st fdv bufA (c : Int)) with pipeHeap := st.pipeHeap.set h (⟨0, ((0 + c : Nat) : Int) - 1, c, true, writeSeq (List.replicate c 0) 0 (readBytes st.mem bufA.toNat c)⟩ : Pipe) } ((c : Nat) : Int)) fdv bufB (n : Int)) with
          pipeHeap := (st.pipeHeap.set h (⟨0, ((0 + c : Nat) : Int) - 1, c, true, writeSeq (List.replicate c 0) 0 (readBytes st.mem bufA.toNat c)⟩ : Pipe)).set h (⟨0, ((0 + c : Nat) : Int) - 1, c, true, writeSeq (List.replicate c 0) 0 (readBytes st.mem bufA.toNat c)⟩ : Pipe) } ((0 : Nat) : Int)).pipeHeap
        = (st.pipeHeap.set h (⟨0, ((0 + c : Nat) : Int) - 1, c, true, writeSeq (List.replicate c 0) 0 (readBytes st.mem bufA.toNat c)⟩ : Pipe)).set h (⟨0, ((0 + c : Nat) : Int) - 1, c, true, writeSeq (List.replicate c 0) 0 (readBytes st.mem bufA.toNat c)⟩ : Pipe) from rfl,
        show (setR0 { (setArgs st fdv bufA (c : Int)) with pipeHeap := st.pipeHeap.set h (⟨0, ((0 + c : Nat) : Int) - 1, c, true, writeSeq (List.replicate c 0) 0 (readBytes st.mem bufA.toNat c)⟩ : Pipe) } ((c : Nat) : Int)).pipeHeap = st.pipeHeap.set h (⟨0, ((0 + c : Nat) : Int) - 1, c, true, writeSeq (List.replicate c 0) 0 (readBytes st.mem bufA.toNat c)⟩ : Pipe) from rfl,
        list_getD_set_self st.pipeHeap h (⟨0, ((0 + c : Nat) : Int) - 1, c, true, writeSeq (List.replicate c 0) 0 (readBytes st.mem bufA.toNat c)⟩ : Pipe) dPipe hh,
        list_getD_set_self (st.pipeHeap.set h (⟨0, ((0 + c : Nat) : Int) - 1, c, true, writeSeq (List.replicate c 0) 0 (readBytes st.mem bufA.toNat c)⟩ : Pipe)) h (⟨0, ((0 + c : Nat) : Int) - 1, c, true, writeSeq (List.replicate c 0) 0 (readBytes st.mem bufA.toNat c)⟩ : Pipe) dPipe
          (by rw [list_length_set_eq]; exact hh)]

end Kernel

namespace Kernel

/-- Witness for C6 at a concrete state: pipe handle 0 of capacity 4 behind
write descriptor 4, filled with 4 bytes and then written 2 more. -/
theorem C6_pipe_fill_then_write_witness :
    (3 ≤ (4 : Int)
      ∧ (pipeSt.openFileTab.getD ((4 : Int)).toNat dFd).file = some 0
      ∧ 0 < pipeSt.pipeHeap.length
      ∧ pipeSt.pipeHeap.getD 0 dPipe = freshPipe 4
      ∧ 0 < 4 ∧ 1 ≤ 2)
    ∧ ((hilevel_handler_svc 0 (setArgs pipeSt 4 64 ((4 : Nat) : Int)) 1).trapCtx.gpr.getD 0 0
        = ((4 : Nat) : Int)
      ∧ ((hilevel_handler_svc 0 (setArgs pipeSt 4 64 ((4 : Nat) : Int)) 1).pipeHeap.getD 0
          dPipe).full = true
      ∧ (hilevel_handler_svc 0
          (setArgs (hilevel_handler_svc 0 (setArgs pipeSt 4 64 ((4 : Nat) : Int)) 1) 4 80
            ((2 : Nat) : Int)) 1).trapCtx.gpr.getD 0 0 = 0
      ∧ (hilevel_handler_svc 0
          (setArgs (hilevel_handler_svc 0 (setArgs pipeSt 4 64 ((4 : Nat) : Int)) 1) 4 80
            ((2 : Nat) : Int)) 1).pipeHeap.getD 0 dPipe
        = (hilevel_handler_svc 0 (setArgs pipeSt 4 64 ((4 : Nat) : Int)) 1).pipeHeap.getD 0
          dPipe) :=
  ⟨⟨by decide, rfl, by decide, rfl, by decide, by decide⟩,
   C6_pipe_fill_then_write 0 pipeSt 4 64 80 0 4 2 (by decide) rfl (by decide) rfl
     (by decide) (by decide)⟩

end Kernel

namespace Kernel

/-- C1: on a freshly created pipe of capacity `c`, a `write(fdw, bufA, k)`
followed immediately by a `read(fdr, outA, k)` (both via the svc interface,
`k ≤ c`) returns `k` from both calls and delivers the written bytes to the
reader's buffer in order. -/
theorem C1_pipe_roundtrip (tosP : Int) (st : KState) (fdw fdr bufA outA : Int)
    (h c k : Nat)
    (hfw : 3 ≤ fdw) (hfr : 3 ≤ fdr)
    (hw : (st.openFileTab.getD fdw.toNat dFd).file = some h)
    (hr : (st.openFileTab.getD fdr.toNat dFd).file = some h)
    (hh : h < st.pipeHeap.length)
    (hp : st.pipeHeap.getD h dPipe = freshPipe c)
    (hc : 0 < c) (hk : k ≤ c) :
    (hilevel_handler_svc tosP (setArgs st fdw bufA (k : Int)) 1).trapCtx.gpr.getD 0 0 = (k : Int)
    ∧ (hilevel_handler_svc tosP
        (setArgs (hilevel_handler_svc tosP (setArgs st fdw bufA (k : Int)) 1) fdr outA (k : Int))
        2).trapCtx.gpr.getD 0 0 = (k : Int)
    ∧ readBytes (hilevel_handler_svc tosP
        (setArgs (hilevel_handler_svc tosP (setArgs st fdw bufA (k : Int)) 1) fdr outA (k : Int))
        2).mem outA.toNat k
      = readBytes st.mem bufA.toNat k := by
  have hfp : freshPipe c = (⟨0, ((0 : Nat) : Int) - 1, c, false, List.replicate c 0⟩ : Pipe) := by
    simp only [freshPipe, Pipe.mk.injEq]
    norm_num
  have hbs : (readBytes st.mem bufA.toNat k).length = k := readBytes_length k st.mem bufA.toNat
  have E1 : hilevel_handler_svc tosP (setArgs st fdw bufA (k : Int)) 1 = setR0 { (setArgs st fdw bufA (k : Int)) with pipeHeap := st.pipeHeap.set h (⟨0, ((0 + k : Nat) : Int) - 1, c, decide (1 ≤ k ∧ 0 + k = c), (writeSeq (List.replicate c 0) 0 (readBytes st.mem bufA.toNat k))⟩ : Pipe) } ((k : Nat) : Int) := by
    rw [handler_write, svcWrite_pipe (setArgs st fdw bufA (k : Int)) h hfw hw]
    rw [show (setArgs st fdw bufA (k : Int)).pipeHeap = st.pipeHeap from rfl,
        show (setArgs st fdw bufA (k : Int)).mem = st.mem from rfl,
        show (setArgs st fdw bufA (k : Int)).trapCtx.gpr.getD 1 0 = bufA from rfl,
        show (setArgs st fdw bufA (k : Int)).trapCtx.gpr.getD 2 0 = (k : Int) from rfl,
        show ((k : Int)).toNat = k from rfl, hp, hfp,
        pipeWriteLoop_lin c (readBytes st.mem bufA.toNat k) 0 (List.replicate c 0) (by rw [hbs]; omega), hbs]
    rfl
  have hP1shape : (⟨0, ((0 + k : Nat) : Int) - 1, c, decide (1 ≤ k ∧ 0 + k = c), (writeSeq (List.replicate c 0) 0 (readBytes st.mem bufA.toNat k))⟩ : Pipe) = (⟨((0 % c : Nat) : Int), (k : Int) - 1, c, decide (k = c ∧ 0 = 0), (writeSeq (List.replicate c 0) 0 (readBytes st.mem bufA.toNat k))⟩ : Pipe) := by
    rw [show decide (1 ≤ k ∧ 0 + k = c) = decide (k = c ∧ 0 = 0) from by
          rw [decide_eq_decide]
          omega]
    simp only [Pipe.mk.injEq]
    norm_num
  have hrs : readSeq (writeSeq (List.replicate c 0) 0 (readBytes st.mem bufA.toNat k)) 0 k = (readBytes st.mem bufA.toNat k) := by
    have hx := readSeq_writeSeq (readBytes st.mem bufA.toNat k) (List.replicate c 0) 0
      (by rw [hbs]; simp only [List.length_replicate]; omega)
    rwa [hbs] at hx
  have E2 : hilevel_handler_svc tosP (setArgs (setR0 { (setArgs st fdw bufA (k : Int)) with pipeHeap := st.pipeHeap.set h (⟨0, ((0 + k : Nat) : Int) - 1, c, decide (1 ≤ k ∧ 0 + k = c), (writeSeq (List.replicate c 0) 0 (readBytes st.mem bufA.toNat k))⟩ : Pipe) } ((k : Nat) : Int)) fdr outA (k : Int)) 2
      = setR0 { (setArgs (setR0 { (setArgs st fdw bufA (k : Int)) with pipeHeap := st.pipeHeap.set h (⟨0, ((0 + k : Nat) : Int) - 1, c, decide (1 ≤ k ∧ 0 + k = c), (writeSeq (List.replicate c 0) 0 (readBytes st.mem bufA.toNat k))⟩ : Pipe) } ((k : Nat) : Int)) fdr outA (k : Int)) with
          pipeHeap := (st.pipeHeap.set h (⟨0, ((0 + k : Nat) : Int) - 1, c, decide (1 ≤ k ∧ 0 + k = c), (writeSeq (List.replicate c 0) 0 (readBytes st.mem bufA.toNat k))⟩ : Pipe)).set h
            (⟨(((0 + k) % c : Nat) : Int), (k : Int) - 1, c,
              decide (k = c ∧ 0 = 0 ∧ k = 0), (writeSeq (List.replicate c 0) 0 (readBytes st.mem bufA.toNat k))⟩ : Pipe)
          mem := storeBytes st.mem outA.toNat (readBytes st.mem bufA.toNat k) } ((k : Nat) : Int) := by
    rw [handler_read, svcRead_pipe (setArgs (setR0 { (setArgs st fdw bufA (k : Int)) with pipeHeap := st.pipeHeap.set h (⟨0, ((0 + k : Nat) : Int) - 1, c, decide (1 ≤ k ∧ 0 + k = c), (writeSeq (List.replicate c 0) 0 (readBytes st.mem bufA.toNat k))⟩ : Pipe) } ((k : Nat) : Int)) fdr outA (k : Int)) h hfr hr]
    rw [show (setArgs (setR0 { (setArgs st fdw bufA (k : Int)) with pipeHeap := st.pipeHeap.set h (⟨0, ((0 + k : Nat) : Int) - 1, c, decide (1 ≤ k ∧ 0 + k = c), (writeSeq (List.replicate c 0) 0 (readBytes st.mem bufA.toNat k))⟩ : Pipe) } ((k : Nat) : Int)) fdr outA (k : Int)).pipeHeap = st.pipeHeap.set h (⟨0, ((0 + k : Nat) : Int) - 1, c, decide (1 ≤ k ∧ 0 + k = c), (writeSeq (List.replicate c 0) 0 (readBytes st.mem bufA.toNat k))⟩ : Pipe) from rfl,
        show (setArgs (setR0 { (setArgs st fdw bufA (k : Int)) with pipeHeap := st.pipeHeap.set h (⟨0, ((0 + k : Nat) : Int) - 1, c, decide (1 ≤ k ∧ 0 + k = c), (writeSeq (List.replicate c 0) 0 (readBytes st.mem bufA.toNat k))⟩ : Pipe) } ((k : Nat) : Int)) fdr outA (k : Int)).mem = st.mem from rfl,
        show (setArgs (setR0 { (setArgs st fdw bufA (k : Int)) with pipeHeap := st.pipeHeap.set h (⟨0, ((0 + k : Nat) : Int) - 1, c, decide (1 ≤ k ∧ 0 + k = c), (writeSeq (List.replicate c 0) 0 (readBytes st.mem bufA.toNat k))⟩ : Pipe) } ((k : Nat) : Int)) fdr outA (k : Int)).trapCtx.gpr.getD 1 0 = outA from rfl,
        show (setArgs (setR0 { (setArgs st fdw bufA (k : Int)) with pipeHeap := st.pipeHeap.set h (⟨0, ((0 + k : Nat) : Int) - 1, c, decide (1 ≤ k ∧ 0 + k = c), (writeSeq (List.replicate c 0) 0 (readBytes st.mem bufA.toNat k))⟩ : Pipe) } ((k : Nat) : Int)) fdr outA (k : Int)).trapCtx.gpr.getD 2 0 = (k : Int) from rfl,
        show ((k : Int)).toNat = k from rfl,
        list_getD_set_self st.pipeHeap h (⟨0, ((0 + k : Nat) : Int) - 1, c, decide (1 ≤ k ∧ 0 + k = c), (writeSeq (List.replicate c 0) 0 (readBytes st.mem bufA.toNat k))⟩ : Pipe) dPipe hh, hP1shape,
        pipeReadLoop_lin c k (writeSeq (List.replicate c 0) 0 (readBytes st.mem bufA.toNat k)) hk k 0 (by omega), hrs, hbs]
  refine ⟨by rw [E1]; rfl, by rw [E1, E2]; rfl, ?_⟩
  rw [E1, E2]
  rw [show (setR0 { (setArgs (setR0 { (setArgs st fdw bufA (k : Int)) with pipeHeap := st.pipeHeap.set h (⟨0, ((0 + k : Nat) : Int) - 1, c, decide (1 ≤ k ∧ 0 + k = c), (writeSeq (List.replicate c 0) 0 (readBytes st.mem bufA.toNat k))⟩ : Pipe) } ((k : Nat) : Int)) fdr outA (k : Int)) with
          pipeHeap := (st.pipeHeap.set h (⟨0, ((0 + k : Nat) : Int) - 1, c, decide (1 ≤ k ∧ 0 + k = c), (writeSeq (List.replicate c 0) 0 (readBytes st.mem bufA.toNat k))⟩ : Pipe)).set h
            (⟨(((0 + k) % c : Nat) : Int), (k : Int) - 1, c,
              decide (k = c ∧ 0 = 0 ∧ k = 0), (writeSeq (List.replicate c 0) 0 (readBytes st.mem bufA.toNat k))⟩ : Pipe)
          mem := storeBytes st.mem outA.toNat (readBytes st.mem bufA.toNat k) } ((k : Nat) : Int)).mem
        = storeBytes st.mem outA.toNat (readBytes st.mem bufA.toNat k) from rfl]
  have hsb := readBytes_storeBytes (readBytes st.mem bufA.toNat k) st.mem outA.toNat
  rwa [hbs] at hsb

end Kernel

namespace Kernel

/-- Witness for C1 at a concrete state: 3 bytes written through descriptor 4
and read back through descriptor 3 of the fresh capacity-4 pipe. -/
theorem C1_pipe_roundtrip_witness :
    (3 ≤ (4 : Int) ∧ 3 ≤ (3 : Int)
      ∧ (pipeSt.openFileTab.getD ((4 : Int)).toNat dFd).file = some 0
      ∧ (pipeSt.openFileTab.getD ((3 : Int)).toNat dFd).file = some 0
      ∧ 0 < pipeSt.pipeHeap.length
      ∧ pipeSt.pipeHeap.getD 0 dPipe = freshPipe 4
      ∧ 0 < 4 ∧ 3 ≤ 4)
    ∧ ((hilevel_handler_svc 0 (setArgs pipeSt 4 64 ((3 : Nat) : Int)) 1).trapCtx.gpr.getD 0 0
        = ((3 : Nat) : Int)
      ∧ (hilevel_handler_svc 0
          (setArgs (hilevel_handler_svc 0 (setArgs pipeSt 4 64 ((3 : Nat) : Int)) 1) 3 80
            ((3 : Nat) : Int)) 2).trapCtx.gpr.getD 0 0 = ((3 : Nat) : Int)
      ∧ readBytes (hilevel_handler_svc 0
          (setArgs (hilevel_handler_svc 0 (setArgs pipeSt 4 64 ((3 : Nat) : Int)) 1) 3 80
            ((3 : Nat) : Int)) 2).mem ((80 : Int)).toNat 3
        = readBytes pipeSt.mem ((64 : Int)).toNat 3) :=
  ⟨⟨by decide, by decide, rfl, rfl, by decide, rfl, by decide, by decide⟩,
   C1_pipe_roundtrip 0 pipeSt 4 3 64 80 0 4 3 (by decide) (by decide) rfl rfl
     (by decide) rfl (by decide) (by decide)⟩

end Kernel

namespace Kernel

/-! Helper lemmas for the descriptor-teardown loop. -/

theorem list_getD_map (f : Int → Int) (l : List Int) (i : Nat) (d d' : Int)
    (h : i < l.length) : (l.map f).getD i d = f (l.getD i d') := by
  rw [List.getD_eq_getElem l d' h, List.getD_eq_getElem (l.map f) d (by simpa using h)]
  exact List.getElem_map f

theorem list_mem_take_succ (l : List Int) (k : Nat) (e : Int) (hk : k < l.length) :
    e ∈ l.take (k + 1) ↔ e ∈ l.take k ∨ e = l.getD k (-1) := by
  rw [List.take_succ, List.mem_append, List.getElem?_eq_getElem hk,
      List.getD_eq_getElem l (-1) hk]
  simp

theorem wipeUpTo_zero (F : List Int) : wipeUpTo F 0 = F := by
  simp [wipeUpTo]

theorem wipeUpTo_succ_live (F : List Int) (k : Nat) (hk : k < F.length)
    (hpos : 0 ≤ F.getD k (-1)) (hnew : F.getD k (-1) ∉ F.take k) :
    (wipeUpTo F k).map (fun e => if e = F.getD k (-1) then -1 else e) = wipeUpTo F (k + 1) := by
  rw [wipeUpTo, wipeUpTo, List.map_map]
  refine List.map_congr_left ?_
  intro e he
  show (if (if 0 ≤ e ∧ e ∈ F.take k then (-1 : Int) else e) = F.getD k (-1) then (-1 : Int)
      else (if 0 ≤ e ∧ e ∈ F.take k then (-1 : Int) else e))
    = if 0 ≤ e ∧ e ∈ F.take (k + 1) then -1 else e
  by_cases h1 : 0 ≤ e ∧ e ∈ F.take k
  · rw [if_pos h1]
    rw [if_neg (show ¬ (-1 : Int) = F.getD k (-1) from by omega)]
    rw [if_pos ⟨h1.1, (list_mem_take_succ F k e hk).mpr (Or.inl h1.2)⟩]
  · rw [if_neg h1]
    by_cases h2 : e = F.getD k (-1)
    · rw [if_pos h2, if_pos ⟨by rw [h2]; exact hpos, (list_mem_take_succ F k e hk).mpr (Or.inr h2)⟩]
    · rw [if_neg h2, if_neg (by
        rintro ⟨hpe, hmem⟩
        rcases (list_mem_take_succ F k e hk).mp hmem with hm | hm
        · exact h1 ⟨hpe, hm⟩
        · exact h2 hm)]

theorem wipeUpTo_succ_skip (F : List Int) (k : Nat)
    (hskip : F.length ≤ k ∨ F.getD k (-1) < 0 ∨ F.getD k (-1) ∈ F.take k) :
    wipeUpTo F (k + 1) = wipeUpTo F k := by
  rw [wipeUpTo, wipeUpTo]
  refine List.map_congr_left ?_
  intro e he
  rcases Nat.lt_or_ge k F.length with hk | hk
  · have hiff : (0 ≤ e ∧ e ∈ F.take (k + 1)) ↔ (0 ≤ e ∧ e ∈ F.take k) := by
      constructor
      · rintro ⟨hp, hm⟩
        rcases (list_mem_take_succ F k e hk).mp hm with hm2 | hm2
        · exact ⟨hp, hm2⟩
        · rcases hskip with h | h | h
          · omega
          · rw [hm2] at hp
            omega
          · exact ⟨hp, by rw [hm2]; exact h⟩
      · rintro ⟨hp, hm⟩
        exact ⟨hp, (list_mem_take_succ F k e hk).mpr (Or.inl hm)⟩
    rw [if_congr hiff rfl rfl]
  · rw [List.take_of_length_le (by omega : F.length ≤ k + 1), List.take_of_length_le hk]

theorem mem_take_succ_skip (F : List Int) (k g : Nat)
    (hskip : F.length ≤ k ∨ F.getD k (-1) < 0 ∨ F.getD k (-1) ∈ F.take k) :
    (((g : Nat) : Int) ∈ F.take (k + 1)) ↔ (((g : Nat) : Int) ∈ F.take k) := by
  rcases Nat.lt_or_ge k F.length with hk | hk
  · constructor
    · intro hm
      rcases (list_mem_take_succ F k _ hk).mp hm with hm2 | hm2
      · exact hm2
      · rcases hskip with h | h | h
        · omega
        · exfalso
          omega
        · rw [hm2]
          exact h
    · intro hm
      exact (list_mem_take_succ F k _ hk).mpr (Or.inl hm)
  · rw [List.take_of_length_le (by omega : F.length ≤ k + 1), List.take_of_length_le hk]

/-- The teardown invariant holds before the loop's first iteration. -/
theorem closeInv_zero (st : KState) (pid : Nat) (hpid : pid < st.procTab.length) :
    closeInv st pid 0 st := by
  refine ⟨?_, rfl, ?_, rfl, rfl, rfl, rfl, rfl, rfl, rfl⟩
  · rw [wipeUpTo_zero]
    exact (list_set_getD_self st.procTab pid dPCB).symm
  · intro g hg
    rw [if_neg (by simp)]

end Kernel

namespace Kernel

/-- The teardown invariant is preserved by an iteration that finds nothing to
close (index beyond the table, a negative entry, or an entry already wiped). -/
theorem closeInv_succ_skip (st : KState) (pid k : Nat) (s : KState)
    (hinv : closeInv st pid k s)
    (hskip : (st.procTab.getD pid dPCB).fdTab.length ≤ k ∨ (st.procTab.getD pid dPCB).fdTab.getD k (-1) < 0 ∨ (st.procTab.getD pid dPCB).fdTab.getD k (-1) ∈ (st.procTab.getD pid dPCB).fdTab.take k) :
    closeInv st pid (k + 1) s := by
  obtain ⟨hpt, holen, hoft, hrest⟩ := hinv
  refine ⟨?_, holen, ?_, hrest⟩
  · rw [hpt, wipeUpTo_succ_skip _ _ hskip]
  · intro g hg
    rw [hoft g hg, if_congr (mem_take_succ_skip _ k g hskip) rfl rfl]

/-- One iteration of the teardown loop preserves the invariant, advancing the
processed prefix by one. -/
theorem closeInv_step (st : KState) (pid : Nat)
    (hpid : pid < st.procTab.length)
    (hF : ∀ e ∈ (st.procTab.getD pid dPCB).fdTab, e < (st.openFileTab.length : Int))
    (k : Nat) (s : KState) (hinv : closeInv st pid k s) :
    closeInv st pid (k + 1)
      (if 0 ≤ (s.procTab.getD pid dPCB).fdTab.getD k (-1)
        then (close_fd s ((s.procTab.getD pid dPCB).fdTab.getD k (-1)) pid).1 else s) := by
  have hpt := hinv.1
  have holen := hinv.2.1
  have hoft := hinv.2.2.1
  have hgd : s.procTab.getD pid dPCB
      = { (st.procTab.getD pid dPCB) with fdTab := wipeUpTo (st.procTab.getD pid dPCB).fdTab k } := by
    rw [hpt]
    exact list_getD_set_self st.procTab pid _ dPCB hpid
  rcases Nat.lt_or_ge k (st.procTab.getD pid dPCB).fdTab.length with hkF | hkF
  case inr =>
    have hfd : (s.procTab.getD pid dPCB).fdTab.getD k (-1) = -1 := by
      rw [hgd]
      exact List.getD_eq_default _ _ (by rw [wipeUpTo, List.length_map]; exact hkF)
    rw [hfd, if_neg (by omega)]
    exact closeInv_succ_skip st pid k s hinv (Or.inl hkF)
  case inl =>
  have hfd : (s.procTab.getD pid dPCB).fdTab.getD k (-1)
      = if 0 ≤ (st.procTab.getD pid dPCB).fdTab.getD k (-1) ∧ (st.procTab.getD pid dPCB).fdTab.getD k (-1) ∈ (st.procTab.getD pid dPCB).fdTab.take k then -1 else (st.procTab.getD pid dPCB).fdTab.getD k (-1) := by
    rw [hgd]
    show (wipeUpTo (st.procTab.getD pid dPCB).fdTab k).getD k (-1) = _
    rw [wipeUpTo]
    exact list_getD_map _ _ k (-1) (-1) hkF
  by_cases hlive : 0 ≤ (st.procTab.getD pid dPCB).fdTab.getD k (-1) ∧ (st.procTab.getD pid dPCB).fdTab.getD k (-1) ∉ (st.procTab.getD pid dPCB).fdTab.take k
  case neg =>
    have hns : ¬ 0 ≤ (s.procTab.getD pid dPCB).fdTab.getD k (-1) := by
      rw [hfd]
      by_cases h0 : 0 ≤ (st.procTab.getD pid dPCB).fdTab.getD k (-1) ∧ (st.procTab.getD pid dPCB).fdTab.getD k (-1) ∈ (st.procTab.getD pid dPCB).fdTab.take k
      · rw [if_pos h0]
        omega
      · rw [if_neg h0]
        intro hp
        exact h0 ⟨hp, by
          by_contra hnm
          exact hlive ⟨hp, hnm⟩⟩
    rw [if_neg hns]
    refine closeInv_succ_skip st pid k s hinv ?_
    right
    by_cases h0 : 0 ≤ (st.procTab.getD pid dPCB).fdTab.getD k (-1)
    · right
      by_contra hnm
      exact hlive ⟨h0, hnm⟩
    · left
      omega
  case pos =>
  have hfd2 : (s.procTab.getD pid dPCB).fdTab.getD k (-1) = (st.procTab.getD pid dPCB).fdTab.getD k (-1) := by
    rw [hfd, if_neg (fun hc => hlive.2 hc.2)]
  rw [hfd2, if_pos hlive.1]
  have hvF : (st.procTab.getD pid dPCB).fdTab.getD k (-1) ∈ (st.procTab.getD pid dPCB).fdTab := by
    rw [List.getD_eq_getElem _ (-1) hkF]
    exact List.getElem_mem hkF
  have hvM := hF _ hvF
  have hvtM : ((st.procTab.getD pid dPCB).fdTab.getD k (-1)).toNat < st.openFileTab.length := by omega
  have hrange : 0 ≤ (st.procTab.getD pid dPCB).fdTab.getD k (-1) ∧ (st.procTab.getD pid dPCB).fdTab.getD k (-1) < (s.maxFds : Int) := by
    refine ⟨hlive.1, ?_⟩
    rw [show s.maxFds = s.openFileTab.length from rfl, holen]
    exact hvM
  have hcf : (close_fd s ((st.procTab.getD pid dPCB).fdTab.getD k (-1)) pid).1
      = { s with
          procTab := s.procTab.set pid
            { s.procTab.getD pid dPCB with
                fdTab := (s.procTab.getD pid dPCB).fdTab.map
                  (fun e => if e = (st.procTab.getD pid dPCB).fdTab.getD k (-1) then -1 else e) }
          openFileTab := s.openFileTab.set ((st.procTab.getD pid dPCB).fdTab.getD k (-1)).toNat
            { s.openFileTab.getD ((st.procTab.getD pid dPCB).fdTab.getD k (-1)).toNat dFd with
                refCount := (s.openFileTab.getD ((st.procTab.getD pid dPCB).fdTab.getD k (-1)).toNat dFd).refCount - 1 } } := by
    show ((if 0 ≤ (st.procTab.getD pid dPCB).fdTab.getD k (-1) ∧ (st.procTab.getD pid dPCB).fdTab.getD k (-1) < (s.maxFds : Int) then _ else _ : KState × Int)).1 = _
    rw [if_pos hrange]
    rfl
  rw [hcf]
  refine ⟨?_, ?_, ?_, hinv.2.2.2⟩
  · show s.procTab.set pid
        { s.procTab.getD pid dPCB with
            fdTab := (s.procTab.getD pid dPCB).fdTab.map
              (fun e => if e = (st.procTab.getD pid dPCB).fdTab.getD k (-1) then -1 else e) }
      = st.procTab.set pid { (st.procTab.getD pid dPCB) with fdTab := wipeUpTo (st.procTab.getD pid dPCB).fdTab (k + 1) }
    rw [hgd, hpt, List.set_set]
    show st.procTab.set pid
        { (st.procTab.getD pid dPCB) with fdTab := (wipeUpTo (st.procTab.getD pid dPCB).fdTab k).map (fun e => if e = (st.procTab.getD pid dPCB).fdTab.getD k (-1) then -1 else e) }
      = st.procTab.set pid { (st.procTab.getD pid dPCB) with fdTab := wipeUpTo (st.procTab.getD pid dPCB).fdTab (k + 1) }
    rw [wipeUpTo_succ_live (st.procTab.getD pid dPCB).fdTab k hkF hlive.1 hlive.2]
  · show (s.openFileTab.set ((st.procTab.getD pid dPCB).fdTab.getD k (-1)).toNat _).length = st.openFileTab.length
    rw [list_length_set_eq, holen]
  · intro g hg
    show (s.openFileTab.set ((st.procTab.getD pid dPCB).fdTab.getD k (-1)).toNat
        { s.openFileTab.getD ((st.procTab.getD pid dPCB).fdTab.getD k (-1)).toNat dFd with
            refCount := (s.openFileTab.getD ((st.procTab.getD pid dPCB).fdTab.getD k (-1)).toNat dFd).refCount - 1 }).getD g dFd = _
    by_cases hgv : g = ((st.procTab.getD pid dPCB).fdTab.getD k (-1)).toNat
    · rw [hgv, list_getD_set_self s.openFileTab _ _ dFd (by rw [holen]; exact hvtM),
          hoft ((st.procTab.getD pid dPCB).fdTab.getD k (-1)).toNat hvtM,
          if_neg (by
            rw [Int.toNat_of_nonneg hlive.1]
            exact fun hc => hlive.2 hc),
          if_pos ((list_mem_take_succ (st.procTab.getD pid dPCB).fdTab k _ hkF).mpr
            (Or.inr (Int.toNat_of_nonneg hlive.1)))]
    · have hiffg : (((g : Nat) : Int) ∈ (st.procTab.getD pid dPCB).fdTab.take k)
          ↔ (((g : Nat) : Int) ∈ (st.procTab.getD pid dPCB).fdTab.take (k + 1)) := by
        constructor
        · intro hm
          exact (list_mem_take_succ (st.procTab.getD pid dPCB).fdTab k _ hkF).mpr (Or.inl hm)
        · intro hm
          rcases (list_mem_take_succ (st.procTab.getD pid dPCB).fdTab k _ hkF).mp hm with hm2 | hm2
          · exact hm2
          · exfalso
            exact hgv (by omega)
      rw [list_getD_set_ne s.openFileTab ((st.procTab.getD pid dPCB).fdTab.getD k (-1)).toNat g _ dFd (fun he => hgv he.symm),
          hoft g hg,
          if_congr hiffg rfl rfl]

end Kernel

namespace Kernel

/-- Folding the teardown body over any contiguous index range preserves the
invariant, advancing the processed prefix by the range's length. -/
theorem closeInv_fold (st : KState) (pid : Nat)
    (hpid : pid < st.procTab.length)
    (hF : ∀ e ∈ (st.procTab.getD pid dPCB).fdTab, e < (st.openFileTab.length : Int)) :
    ∀ (n k : Nat) (s : KState), closeInv st pid k s →
    closeInv st pid (k + n)
      ((List.range' k n).foldl (fun s i =>
        let fd := (s.procTab.getD pid dPCB).fdTab.getD i (-1)
        if 0 ≤ fd then (close_fd s fd pid).1 else s) s) := by
  intro n
  induction n with
  | zero =>
    intro k s hinv
    exact hinv
  | succ m ih =>
    intro k s hinv
    rw [List.range'_succ k m 1]
    have h1 := closeInv_step st pid hpid hF k s hinv
    have h2 := ih (k + 1) _ h1
    rw [show k + (m + 1) = k + 1 + m from by omega]
    exact h2

/-- `closeFdsOf` (the teardown loop of `exit` and `kill`, with target slot
equal to target pid) realises the invariant at prefix `MAX_FDS`. -/
theorem closeFdsOf_spec (st : KState) (pid : Nat)
    (hpid : pid < st.procTab.length)
    (hF : ∀ e ∈ (st.procTab.getD pid dPCB).fdTab, e < (st.openFileTab.length : Int)) :
    closeInv st pid st.openFileTab.length (closeFdsOf st pid pid) := by
  have h0 := closeInv_zero st pid hpid
  have h1 := closeInv_fold st pid hpid hF st.openFileTab.length 0 st h0
  rw [Nat.zero_add] at h1
  show closeInv st pid st.openFileTab.length
    ((List.range st.maxFds).foldl (fun s i =>
      let fd := (s.procTab.getD pid dPCB).fdTab.getD i (-1)
      if 0 ≤ fd then (close_fd s fd pid).1 else s) st)
  rw [show st.maxFds = st.openFileTab.length from rfl,
      List.range_eq_range' st.openFileTab.length]
  exact h1

end Kernel

namespace Kernel

/-- `wipeUpTo` at a prefix covering the whole table is the pointwise wipe of
live entries. -/
theorem wipeUpTo_all (F : List Int) (M : Nat) (h : F.length ≤ M) :
    wipeUpTo F M = F.map wipeLive := by
  rw [wipeUpTo]
  refine List.map_congr_left ?_
  intro e he
  rw [List.take_of_length_le h]
  show (if 0 ≤ e ∧ e ∈ F then -1 else e) = wipeLive e
  rw [wipeLive]
  by_cases h0 : 0 ≤ e
  · rw [if_pos ⟨h0, he⟩, if_pos h0]
  · rw [if_neg (fun hc => h0 hc.1), if_neg h0]

/-- C10: kill (svc 0x06) performs no scheduling and touches nothing beyond its
target: `executing`, `time`, user memory, the pipe heap and every other PCB
are unchanged; it emits exactly `K`, writes 0 into the caller's saved
`gpr[0]`, decrements `current_processes`, wipes the target's live descriptor
slots, marks the target TERMINATED, and decrements the reference count of each
open-file entry indexed by a live entry of the target's descriptor table
(once per distinct index, since `close_fd` wipes by value). -/
theorem C10_kill_frame (tosP : Int) (st : KState)
    (hpid : (st.trapCtx.gpr.getD 0 0).toNat < st.procTab.length)
    (hF : ∀ e ∈ (st.procTab.getD (st.trapCtx.gpr.getD 0 0).toNat dPCB).fdTab, e < (st.openFileTab.length : Int))
    (hFlen : (st.procTab.getD (st.trapCtx.gpr.getD 0 0).toNat dPCB).fdTab.length ≤ st.openFileTab.length) :
    (hilevel_handler_svc tosP st 6).executingIdx = st.executingIdx
    ∧ (hilevel_handler_svc tosP st 6).time = st.time
    ∧ (hilevel_handler_svc tosP st 6).mem = st.mem
    ∧ (hilevel_handler_svc tosP st 6).pipeHeap = st.pipeHeap
    ∧ (hilevel_handler_svc tosP st 6).out = st.out ++ ['K']
    ∧ (hilevel_handler_svc tosP st 6).trapCtx
        = { st.trapCtx with gpr := st.trapCtx.gpr.set 0 0 }
    ∧ (hilevel_handler_svc tosP st 6).currentProcesses = st.currentProcesses - 1
    ∧ (hilevel_handler_svc tosP st 6).procTab.length = st.procTab.length
    ∧ (∀ j : Nat, j ≠ (st.trapCtx.gpr.getD 0 0).toNat →
        (hilevel_handler_svc tosP st 6).procTab.getD j dPCB = st.procTab.getD j dPCB)
    ∧ (hilevel_handler_svc tosP st 6).procTab.getD (st.trapCtx.gpr.getD 0 0).toNat dPCB
        = { (st.procTab.getD (st.trapCtx.gpr.getD 0 0).toNat dPCB) with status := Status.terminated, fdTab := (st.procTab.getD (st.trapCtx.gpr.getD 0 0).toNat dPCB).fdTab.map wipeLive }
    ∧ (hilevel_handler_svc tosP st 6).openFileTab.length = st.openFileTab.length
    ∧ (∀ g : Nat, g < st.openFileTab.length →
        (hilevel_handler_svc tosP st 6).openFileTab.getD g dFd
          = if ((g : Nat) : Int) ∈ (st.procTab.getD (st.trapCtx.gpr.getD 0 0).toNat dPCB).fdTab then
              { st.openFileTab.getD g dFd with
                  refCount := (st.openFileTab.getD g dFd).refCount - 1 }
            else st.openFileTab.getD g dFd) := by
  obtain ⟨hpt, holen, hoft, hcp, htime, hexec, htrap, hmem, hpipe, hout⟩ :=
    closeFdsOf_spec ({ st with out := st.out ++ ['K'] } : KState) (st.trapCtx.gpr.getD 0 0).toNat hpid hF
  refine ⟨hexec, htime, hmem, hpipe, hout, ?_, ?_, ?_, ?_, ?_, holen, ?_⟩
  · show { (closeFdsOf ({ st with out := st.out ++ ['K'] } : KState) (st.trapCtx.gpr.getD 0 0).toNat (st.trapCtx.gpr.getD 0 0).toNat).trapCtx with gpr := (closeFdsOf ({ st with out := st.out ++ ['K'] } : KState) (st.trapCtx.gpr.getD 0 0).toNat (st.trapCtx.gpr.getD 0 0).toNat).trapCtx.gpr.set 0 0 }
      = { st.trapCtx with gpr := st.trapCtx.gpr.set 0 0 }
    rw [htrap]
  · show (closeFdsOf ({ st with out := st.out ++ ['K'] } : KState) (st.trapCtx.gpr.getD 0 0).toNat (st.trapCtx.gpr.getD 0 0).toNat).currentProcesses - 1 = st.currentProcesses - 1
    rw [hcp]
  · show ((closeFdsOf ({ st with out := st.out ++ ['K'] } : KState) (st.trapCtx.gpr.getD 0 0).toNat (st.trapCtx.gpr.getD 0 0).toNat).procTab.set (st.trapCtx.gpr.getD 0 0).toNat
        { (closeFdsOf ({ st with out := st.out ++ ['K'] } : KState) (st.trapCtx.gpr.getD 0 0).toNat (st.trapCtx.gpr.getD 0 0).toNat).procTab.getD (st.trapCtx.gpr.getD 0 0).toNat dPCB with status := Status.terminated }).length
      = st.procTab.length
    rw [list_length_set_eq, hpt, list_length_set_eq]
  · intro j hj
    show ((closeFdsOf ({ st with out := st.out ++ ['K'] } : KState) (st.trapCtx.gpr.getD 0 0).toNat (st.trapCtx.gpr.getD 0 0).toNat).procTab.set (st.trapCtx.gpr.getD 0 0).toNat
        { (closeFdsOf ({ st with out := st.out ++ ['K'] } : KState) (st.trapCtx.gpr.getD 0 0).toNat (st.trapCtx.gpr.getD 0 0).toNat).procTab.getD (st.trapCtx.gpr.getD 0 0).toNat dPCB with status := Status.terminated }).getD j dPCB
      = st.procTab.getD j dPCB
    rw [list_getD_set_ne _ _ _ _ _ (fun he => hj he.symm), hpt,
        list_getD_set_ne _ _ _ _ _ (fun he => hj he.symm)]
  · show ((closeFdsOf ({ st with out := st.out ++ ['K'] } : KState) (st.trapCtx.gpr.getD 0 0).toNat (st.trapCtx.gpr.getD 0 0).toNat).procTab.set (st.trapCtx.gpr.getD 0 0).toNat
        { (closeFdsOf ({ st with out := st.out ++ ['K'] } : KState) (st.trapCtx.gpr.getD 0 0).toNat (st.trapCtx.gpr.getD 0 0).toNat).procTab.getD (st.trapCtx.gpr.getD 0 0).toNat dPCB with status := Status.terminated }).getD (st.trapCtx.gpr.getD 0 0).toNat dPCB
      = { (st.procTab.getD (st.trapCtx.gpr.getD 0 0).toNat dPCB) with status := Status.terminated, fdTab := (st.procTab.getD (st.trapCtx.gpr.getD 0 0).toNat dPCB).fdTab.map wipeLive }
    rw [list_getD_set_self _ _ _ _ (by rw [hpt, list_length_set_eq]; exact hpid),
        show (closeFdsOf ({ st with out := st.out ++ ['K'] } : KState) (st.trapCtx.gpr.getD 0 0).toNat (st.trapCtx.gpr.getD 0 0).toNat).procTab.getD (st.trapCtx.gpr.getD 0 0).toNat dPCB
          = { ({ st with out := st.out ++ ['K'] } : KState).procTab.getD (st.trapCtx.gpr.getD 0 0).toNat dPCB with
              fdTab := wipeUpTo (({ st with out := st.out ++ ['K'] } : KState).procTab.getD (st.trapCtx.gpr.getD 0 0).toNat dPCB).fdTab
                ({ st with out := st.out ++ ['K'] } : KState).openFileTab.length } from by
          rw [hpt]
          exact list_getD_set_self _ _ _ _ hpid]
    show ({ (st.procTab.getD (st.trapCtx.gpr.getD 0 0).toNat dPCB) with status := Status.terminated, fdTab := wipeUpTo (st.procTab.getD (st.trapCtx.gpr.getD 0 0).toNat dPCB).fdTab st.openFileTab.length } : PCB) = _
    rw [wipeUpTo_all (st.procTab.getD (st.trapCtx.gpr.getD 0 0).toNat dPCB).fdTab st.openFileTab.length hFlen]
  · intro g hg
    show (closeFdsOf ({ st with out := st.out ++ ['K'] } : KState) (st.trapCtx.gpr.getD 0 0).toNat (st.trapCtx.gpr.getD 0 0).toNat).openFileTab.getD g dFd = _
    rw [hoft g hg,
        show ({ st with out := st.out ++ ['K'] } : KState).procTab = st.procTab from rfl,
        show ({ st with out := st.out ++ ['K'] } : KState).openFileTab = st.openFileTab from rfl,
        List.take_of_length_le hFlen]

end Kernel

namespace Kernel

/-- Witness for C10: the process of `pipeSt` kills itself (pid 0); its five
live descriptors are wiped, the five reference counts drop by one, and the
frame facts hold. -/
theorem C10_kill_frame_witness :
    ((pipeSt.trapCtx.gpr.getD 0 0).toNat < pipeSt.procTab.length
      ∧ (∀ e ∈ (pipeSt.procTab.getD (pipeSt.trapCtx.gpr.getD 0 0).toNat dPCB).fdTab, e < (pipeSt.openFileTab.length : Int))
      ∧ (pipeSt.procTab.getD (pipeSt.trapCtx.gpr.getD 0 0).toNat dPCB).fdTab.length ≤ pipeSt.openFileTab.length)
    ∧ ((hilevel_handler_svc 0 pipeSt 6).executingIdx = pipeSt.executingIdx
    ∧ (hilevel_handler_svc 0 pipeSt 6).time = pipeSt.time
    ∧ (hilevel_handler_svc 0 pipeSt 6).mem = pipeSt.mem
    ∧ (hilevel_handler_svc 0 pipeSt 6).pipeHeap = pipeSt.pipeHeap
    ∧ (hilevel_handler_svc 0 pipeSt 6).out = pipeSt.out ++ ['K']
    ∧ (hilevel_handler_svc 0 pipeSt 6).trapCtx
        = { pipeSt.trapCtx with gpr := pipeSt.trapCtx.gpr.set 0 0 }
    ∧ (hilevel_handler_svc 0 pipeSt 6).currentProcesses = pipeSt.currentProcesses - 1
    ∧ (hilevel_handler_svc 0 pipeSt 6).procTab.length = pipeSt.procTab.length
    ∧ (∀ j : Nat, j ≠ (pipeSt.trapCtx.gpr.getD 0 0).toNat →
        (hilevel_handler_svc 0 pipeSt 6).procTab.getD j dPCB = pipeSt.procTab.getD j dPCB)
    ∧ (hilevel_handler_svc 0 pipeSt 6).procTab.getD (pipeSt.trapCtx.gpr.getD 0 0).toNat dPCB
        = { (pipeSt.procTab.getD (pipeSt.trapCtx.gpr.getD 0 0).toNat dPCB) with status := Status.terminated, fdTab := (pipeSt.procTab.getD (pipeSt.trapCtx.gpr.getD 0 0).toNat dPCB).fdTab.map wipeLive }
    ∧ (hilevel_handler_svc 0 pipeSt 6).openFileTab.length = pipeSt.openFileTab.length
    ∧ (∀ g : Nat, g < pipeSt.openFileTab.length →
        (hilevel_handler_svc 0 pipeSt 6).openFileTab.getD g dFd
          = if ((g : Nat) : Int) ∈ (pipeSt.procTab.getD (pipeSt.trapCtx.gpr.getD 0 0).toNat dPCB).fdTab then
              { pipeSt.openFileTab.getD g dFd with
                  refCount := (pipeSt.openFileTab.getD g dFd).refCount - 1 }
            else pipeSt.openFileTab.getD g dFd)) :=
  ⟨⟨by decide, by decide, by decide⟩,
   C10_kill_frame 0 pipeSt (by decide) (by decide) (by decide)⟩

end Kernel

namespace Kernel

/-- A `set` whose new value scores the same under `f` as the entry it
replaces leaves `countP f` unchanged (out-of-range sets are no-ops). -/
theorem list_countP_set_f {α : Type} (f : α → Bool) (l : List α) (i : Nat) (v d : α)
    (hv : f v = f (l.getD i d)) :
    (l.set i v).countP f = l.countP f := by
  rcases Nat.lt_or_ge i l.length with h | h
  · exact list_countP_set_eq l i v f d h hv
  · rw [list_set_oob l i v h]

/-- Such a `set` also preserves the `f`-score of every entry. -/
theorem list_getD_set_f {α : Type} (f : α → Bool) (l : List α) (i j : Nat) (v d : α)
    (hv : f v = f (l.getD i d)) :
    f ((l.set i v).getD j d) = f (l.getD j d) := by
  by_cases hij : i = j
  · subst hij
    rcases Nat.lt_or_ge i l.length with h | h
    · rw [list_getD_set_self l i v d h, hv]
    · rw [list_set_oob l i v h]
  · rw [list_getD_set_ne l i j v d hij]

/-- The process table after `schedule`: save the outgoing context, stamp
`lastExec`, demote the previous process EXECUTING → READY, promote the chosen
slot to EXECUTING. -/
theorem schedule_procTab (st : KState) :
    (schedule st).procTab = ((((st.procTab.set st.executingIdx { st.procTab.getD st.executingIdx dPCB with ctx := st.trapCtx }).set (st.procTab.getD st.executingIdx dPCB).pid { (st.procTab.set st.executingIdx { st.procTab.getD st.executingIdx dPCB with ctx := st.trapCtx }).getD (st.procTab.getD st.executingIdx dPCB).pid dPCB with lastExec := st.time }).set (st.procTab.getD st.executingIdx dPCB).pid (if (((st.procTab.set st.executingIdx { st.procTab.getD st.executingIdx dPCB with ctx := st.trapCtx }).set (st.procTab.getD st.executingIdx dPCB).pid { (st.procTab.set st.executingIdx { st.procTab.getD st.executingIdx dPCB with ctx := st.trapCtx }).getD (st.procTab.getD st.executingIdx dPCB).pid dPCB with lastExec := st.time }).getD (st.procTab.getD st.executingIdx dPCB).pid dPCB).status = Status.executing then { ((st.procTab.set st.executingIdx { st.procTab.getD st.executingIdx dPCB with ctx := st.trapCtx }).set (st.procTab.getD st.executingIdx dPCB).pid { (st.procTab.set st.executingIdx { st.procTab.getD st.executingIdx dPCB with ctx := st.trapCtx }).getD (st.procTab.getD st.executingIdx dPCB).pid dPCB with lastExec := st.time }).getD (st.procTab.getD st.executingIdx dPCB).pid dPCB with status := Status.ready } else ((st.procTab.set st.executingIdx { st.procTab.getD st.executingIdx dPCB with ctx := st.trapCtx }).set (st.procTab.getD st.executingIdx dPCB).pid { (st.procTab.set st.executingIdx { st.procTab.getD st.executingIdx dPCB with ctx := st.trapCtx }).getD (st.procTab.getD st.executingIdx dPCB).pid dPCB with lastExec := st.time }).getD (st.procTab.getD st.executingIdx dPCB).pid dPCB)).set (scheduleSelect st) { (((st.procTab.set st.executingIdx { st.procTab.getD st.executingIdx dPCB with ctx := st.trapCtx }).set (st.procTab.getD st.executingIdx dPCB).pid { (st.procTab.set st.executingIdx { st.procTab.getD st.executingIdx dPCB with ctx := st.trapCtx }).getD (st.procTab.getD st.executingIdx dPCB).pid dPCB with lastExec := st.time }).set (st.procTab.getD st.executingIdx dPCB).pid (if (((st.procTab.set st.executingIdx { st.procTab.getD st.executingIdx dPCB with ctx := st.trapCtx }).set (st.procTab.getD st.executingIdx dPCB).pid { (st.procTab.set st.executingIdx { st.procTab.getD st.executingIdx dPCB with ctx := st.trapCtx }).getD (st.procTab.getD st.executingIdx dPCB).pid dPCB with lastExec := st.time }).getD (st.procTab.getD st.executingIdx dPCB).pid dPCB).status = Status.executing then { ((st.procTab.set st.executingIdx { st.procTab.getD st.executingIdx dPCB with ctx := st.trapCtx }).set (st.procTab.getD st.executingIdx dPCB).pid { (st.procTab.set st.executingIdx { st.procTab.getD st.executingIdx dPCB with ctx := st.trapCtx }).getD (st.procTab.getD st.executingIdx dPCB).pid dPCB with lastExec := st.time }).getD (st.procTab.getD st.executingIdx dPCB).pid dPCB with status := Status.ready } else ((st.procTab.set st.executingIdx { st.procTab.getD st.executingIdx dPCB with ctx := st.trapCtx }).set (st.procTab.getD st.executingIdx dPCB).pid { (st.procTab.set st.executingIdx { st.procTab.getD st.executingIdx dPCB with ctx := st.trapCtx }).getD (st.procTab.getD st.executingIdx dPCB).pid dPCB with lastExec := st.time }).getD (st.procTab.getD st.executingIdx dPCB).pid dPCB)).getD (scheduleSelect st) dPCB with status := Status.executing }) := by
  simp only [schedule, dispatch, updateProc, printPID_eq, emit]

/-- `schedule` does not touch `currentProcesses`. -/
theorem schedule_cp (st : KState) :
    (schedule st).currentProcesses = st.currentProcesses := by
  simp only [schedule, dispatch, updateProc, printPID_eq, emit]

/-- The scheduler preserves the counting invariant whenever the slot it
selects holds a READY or EXECUTING PCB: the context save, `lastExec` stamp
and EXECUTING → READY demotion never change a PCB's READY-or-EXECUTING score,
and the promotion overwrites a PCB that already scored. -/
theorem schedule_countInv (st : KState) (hinv : countInv st)
    (hnext : readyOrExec (st.procTab.getD (scheduleSelect st) dPCB) = true) :
    countInv (schedule st) := by
  have h1 : ∀ j : Nat, readyOrExec ((st.procTab.set st.executingIdx { st.procTab.getD st.executingIdx dPCB with ctx := st.trapCtx }).getD j dPCB)
      = readyOrExec (st.procTab.getD j dPCB) :=
    fun j => list_getD_set_f readyOrExec st.procTab st.executingIdx j _ dPCB rfl
  have h2 : ∀ j : Nat, readyOrExec (((st.procTab.set st.executingIdx { st.procTab.getD st.executingIdx dPCB with ctx := st.trapCtx }).set (st.procTab.getD st.executingIdx dPCB).pid { (st.procTab.set st.executingIdx { st.procTab.getD st.executingIdx dPCB with ctx := st.trapCtx }).getD (st.procTab.getD st.executingIdx dPCB).pid dPCB with lastExec := st.time }).getD j dPCB)
      = readyOrExec ((st.procTab.set st.executingIdx { st.procTab.getD st.executingIdx dPCB with ctx := st.trapCtx }).getD j dPCB) :=
    fun j => list_getD_set_f readyOrExec (st.procTab.set st.executingIdx { st.procTab.getD st.executingIdx dPCB with ctx := st.trapCtx }) (st.procTab.getD st.executingIdx dPCB).pid j _ dPCB rfl
  have hv3 : readyOrExec (if (((st.procTab.set st.executingIdx { st.procTab.getD st.executingIdx dPCB with ctx := st.trapCtx }).set (st.procTab.getD st.executingIdx dPCB).pid { (st.procTab.set st.executingIdx { st.procTab.getD st.executingIdx dPCB with ctx := st.trapCtx }).getD (st.procTab.getD st.executingIdx dPCB).pid dPCB with lastExec := st.time }).getD (st.procTab.getD st.executingIdx dPCB).pid dPCB).status = Status.executing then { ((st.procTab.set st.executingIdx { st.procTab.getD st.executingIdx dPCB with ctx := st.trapCtx }).set (st.procTab.getD st.executingIdx dPCB).pid { (st.procTab.set st.executingIdx { st.procTab.getD st.executingIdx dPCB with ctx := st.trapCtx }).getD (st.procTab.getD st.executingIdx dPCB).pid dPCB with lastExec := st.time }).getD (st.procTab.getD st.executingIdx dPCB).pid dPCB with status := Status.ready } else ((st.procTab.set st.executingIdx { st.procTab.getD st.executingIdx dPCB with ctx := st.trapCtx }).set (st.procTab.getD st.executingIdx dPCB).pid { (st.procTab.set st.executingIdx { st.procTab.getD st.executingIdx dPCB with ctx := st.trapCtx }).getD (st.procTab.getD st.executingIdx dPCB).pid dPCB with lastExec := st.time }).getD (st.procTab.getD st.executingIdx dPCB).pid dPCB) = readyOrExec (((st.procTab.set st.executingIdx { st.procTab.getD st.executingIdx dPCB with ctx := st.trapCtx }).set (st.procTab.getD st.executingIdx dPCB).pid { (st.procTab.set st.executingIdx { st.procTab.getD st.executingIdx dPCB with ctx := st.trapCtx }).getD (st.procTab.getD st.executingIdx dPCB).pid dPCB with lastExec := st.time }).getD (st.procTab.getD st.executingIdx dPCB).pid dPCB) := by
    by_cases hs : (((st.procTab.set st.executingIdx { st.procTab.getD st.executingIdx dPCB with ctx := st.trapCtx }).set (st.procTab.getD st.executingIdx dPCB).pid { (st.procTab.set st.executingIdx { st.procTab.getD st.executingIdx dPCB with ctx := st.trapCtx }).getD (st.procTab.getD st.executingIdx dPCB).pid dPCB with lastExec := st.time }).getD (st.procTab.getD st.executingIdx dPCB).pid dPCB).status = Status.executing
    · rw [if_pos hs]
      show (decide (Status.ready = Status.ready) || decide (Status.ready = Status.executing))
        = readyOrExec (((st.procTab.set st.executingIdx { st.procTab.getD st.executingIdx dPCB with ctx := st.trapCtx }).set (st.procTab.getD st.executingIdx dPCB).pid { (st.procTab.set st.executingIdx { st.procTab.getD st.executingIdx dPCB with ctx := st.trapCtx }).getD (st.procTab.getD st.executingIdx dPCB).pid dPCB with lastExec := st.time }).getD (st.procTab.getD st.executingIdx dPCB).pid dPCB)
      rw [show readyOrExec (((st.procTab.set st.executingIdx { st.procTab.getD st.executingIdx dPCB with ctx := st.trapCtx }).set (st.procTab.getD st.executingIdx dPCB).pid { (st.procTab.set st.executingIdx { st.procTab.getD st.executingIdx dPCB with ctx := st.trapCtx }).getD (st.procTab.getD st.executingIdx dPCB).pid dPCB with lastExec := st.time }).getD (st.procTab.getD st.executingIdx dPCB).pid dPCB)
          = (decide ((((st.procTab.set st.executingIdx { st.procTab.getD st.executingIdx dPCB with ctx := st.trapCtx }).set (st.procTab.getD st.executingIdx dPCB).pid { (st.procTab.set st.executingIdx { st.procTab.getD st.executingIdx dPCB with ctx := st.trapCtx }).getD (st.procTab.getD st.executingIdx dPCB).pid dPCB with lastExec := st.time }).getD (st.procTab.getD st.executingIdx dPCB).pid dPCB).status = Status.ready)
            || decide ((((st.procTab.set st.executingIdx { st.procTab.getD st.executingIdx dPCB with ctx := st.trapCtx }).set (st.procTab.getD st.executingIdx dPCB).pid { (st.procTab.set st.executingIdx { st.procTab.getD st.executingIdx dPCB with ctx := st.trapCtx }).getD (st.procTab.getD st.executingIdx dPCB).pid dPCB with lastExec := st.time }).getD (st.procTab.getD st.executingIdx dPCB).pid dPCB).status = Status.executing)) from rfl, hs]
      decide
    · rw [if_neg hs]
  have h3 : ∀ j : Nat, readyOrExec ((((st.procTab.set st.executingIdx { st.procTab.getD st.executingIdx dPCB with ctx := st.trapCtx }).set (st.procTab.getD st.executingIdx dPCB).pid { (st.procTab.set st.executingIdx { st.procTab.getD st.executingIdx dPCB with ctx := st.trapCtx }).getD (st.procTab.getD st.executingIdx dPCB).pid dPCB with lastExec := st.time }).set (st.procTab.getD st.executingIdx dPCB).pid (if (((st.procTab.set st.executingIdx { st.procTab.getD st.executingIdx dPCB with ctx := st.trapCtx }).set (st.procTab.getD st.executingIdx dPCB).pid { (st.procTab.set st.executingIdx { st.procTab.getD st.executingIdx dPCB with ctx := st.trapCtx }).getD (st.procTab.getD st.executingIdx dPCB).pid dPCB with lastExec := st.time }).getD (st.procTab.getD st.executingIdx dPCB).pid dPCB).status = Status.executing then { ((st.procTab.set st.executingIdx { st.procTab.getD st.executingIdx dPCB with ctx := st.trapCtx }).set (st.procTab.getD st.executingIdx dPCB).pid { (st.procTab.set st.executingIdx { st.procTab.getD st.executingIdx dPCB with ctx := st.trapCtx }).getD (st.procTab.getD st.executingIdx dPCB).pid dPCB with lastExec := st.time }).getD (st.procTab.getD st.executingIdx dPCB).pid dPCB with status := Status.ready } else ((st.procTab.set st.executingIdx { st.procTab.getD st.executingIdx dPCB with ctx := st.trapCtx }).set (st.procTab.getD st.executingIdx dPCB).pid { (st.procTab.set st.executingIdx { st.procTab.getD st.executingIdx dPCB with ctx := st.trapCtx }).getD (st.procTab.getD st.executingIdx dPCB).pid dPCB with lastExec := st.time }).getD (st.procTab.getD st.executingIdx dPCB).pid dPCB)).getD j dPCB)
      = readyOrExec (((st.procTab.set st.executingIdx { st.procTab.getD st.executingIdx dPCB with ctx := st.trapCtx }).set (st.procTab.getD st.executingIdx dPCB).pid { (st.procTab.set st.executingIdx { st.procTab.getD st.executingIdx dPCB with ctx := st.trapCtx }).getD (st.procTab.getD st.executingIdx dPCB).pid dPCB with lastExec := st.time }).getD j dPCB) :=
    fun j => list_getD_set_f readyOrExec ((st.procTab.set st.executingIdx { st.procTab.getD st.executingIdx dPCB with ctx := st.trapCtx }).set (st.procTab.getD st.executingIdx dPCB).pid { (st.procTab.set st.executingIdx { st.procTab.getD st.executingIdx dPCB with ctx := st.trapCtx }).getD (st.procTab.getD st.executingIdx dPCB).pid dPCB with lastExec := st.time }) (st.procTab.getD st.executingIdx dPCB).pid j _ dPCB hv3
  have hv4 : readyOrExec { (((st.procTab.set st.executingIdx { st.procTab.getD st.executingIdx dPCB with ctx := st.trapCtx }).set (st.procTab.getD st.executingIdx dPCB).pid { (st.procTab.set st.executingIdx { st.procTab.getD st.executingIdx dPCB with ctx := st.trapCtx }).getD (st.procTab.getD st.executingIdx dPCB).pid dPCB with lastExec := st.time }).set (st.procTab.getD st.executingIdx dPCB).pid (if (((st.procTab.set st.executingIdx { st.procTab.getD st.executingIdx dPCB with ctx := st.trapCtx }).set (st.procTab.getD st.executingIdx dPCB).pid { (st.procTab.set st.executingIdx { st.procTab.getD st.executingIdx dPCB with ctx := st.trapCtx }).getD (st.procTab.getD st.executingIdx dPCB).pid dPCB with lastExec := st.time }).getD (st.procTab.getD st.executingIdx dPCB).pid dPCB).status = Status.executing then { ((st.procTab.set st.executingIdx { st.procTab.getD st.executingIdx dPCB with ctx := st.trapCtx }).set (st.procTab.getD st.executingIdx dPCB).pid { (st.procTab.set st.executingIdx { st.procTab.getD st.executingIdx dPCB with ctx := st.trapCtx }).getD (st.procTab.getD st.executingIdx dPCB).pid dPCB with lastExec := st.time }).getD (st.procTab.getD st.executingIdx dPCB).pid dPCB with status := Status.ready } else ((st.procTab.set st.executingIdx { st.procTab.getD st.executingIdx dPCB with ctx := st.trapCtx }).set (st.procTab.getD st.executingIdx dPCB).pid { (st.procTab.set st.executingIdx { st.procTab.getD st.executingIdx dPCB with ctx := st.trapCtx }).getD (st.procTab.getD st.executingIdx dPCB).pid dPCB with lastExec := st.time }).getD (st.procTab.getD st.executingIdx dPCB).pid dPCB)).getD (scheduleSelect st) dPCB with status := Status.executing } = readyOrExec ((((st.procTab.set st.executingIdx { st.procTab.getD st.executingIdx dPCB with ctx := st.trapCtx }).set (st.procTab.getD st.executingIdx dPCB).pid { (st.procTab.set st.executingIdx { st.procTab.getD st.executingIdx dPCB with ctx := st.trapCtx }).getD (st.procTab.getD st.executingIdx dPCB).pid dPCB with lastExec := st.time }).set (st.procTab.getD st.executingIdx dPCB).pid (if (((st.procTab.set st.executingIdx { st.procTab.getD st.executingIdx dPCB with ctx := st.trapCtx }).set (st.procTab.getD st.executingIdx dPCB).pid { (st.procTab.set st.executingIdx { st.procTab.getD st.executingIdx dPCB with ctx := st.trapCtx }).getD (st.procTab.getD st.executingIdx dPCB).pid dPCB with lastExec := st.time }).getD (st.procTab.getD st.executingIdx dPCB).pid dPCB).status = Status.executing then { ((st.procTab.set st.executingIdx { st.procTab.getD st.executingIdx dPCB with ctx := st.trapCtx }).set (st.procTab.getD st.executingIdx dPCB).pid { (st.procTab.set st.executingIdx { st.procTab.getD st.executingIdx dPCB with ctx := st.trapCtx }).getD (st.procTab.getD st.executingIdx dPCB).pid dPCB with lastExec := st.time }).getD (st.procTab.getD st.executingIdx dPCB).pid dPCB with status := Status.ready } else ((st.procTab.set st.executingIdx { st.procTab.getD st.executingIdx dPCB with ctx := st.trapCtx }).set (st.procTab.getD st.executingIdx dPCB).pid { (st.procTab.set st.executingIdx { st.procTab.getD st.executingIdx dPCB with ctx := st.trapCtx }).getD (st.procTab.getD st.executingIdx dPCB).pid dPCB with lastExec := st.time }).getD (st.procTab.getD st.executingIdx dPCB).pid dPCB)).getD (scheduleSelect st) dPCB) := by
    rw [h3, h2, h1, hnext]
    rfl
  have c4 : ((((st.procTab.set st.executingIdx { st.procTab.getD st.executingIdx dPCB with ctx := st.trapCtx }).set (st.procTab.getD st.executingIdx dPCB).pid { (st.procTab.set st.executingIdx { st.procTab.getD st.executingIdx dPCB with ctx := st.trapCtx }).getD (st.procTab.getD st.executingIdx dPCB).pid dPCB with lastExec := st.time }).set (st.procTab.getD st.executingIdx dPCB).pid (if (((st.procTab.set st.executingIdx { st.procTab.getD st.executingIdx dPCB with ctx := st.trapCtx }).set (st.procTab.getD st.executingIdx dPCB).pid { (st.procTab.set st.executingIdx { st.procTab.getD st.executingIdx dPCB with ctx := st.trapCtx }).getD (st.procTab.getD st.executingIdx dPCB).pid dPCB with lastExec := st.time }).getD (st.procTab.getD st.executingIdx dPCB).pid dPCB).status = Status.executing then { ((st.procTab.set st.executingIdx { st.procTab.getD st.executingIdx dPCB with ctx := st.trapCtx }).set (st.procTab.getD st.executingIdx dPCB).pid { (st.procTab.set st.executingIdx { st.procTab.getD st.executingIdx dPCB with ctx := st.trapCtx }).getD (st.procTab.getD st.executingIdx dPCB).pid dPCB with lastExec := st.time }).getD (st.procTab.getD st.executingIdx dPCB).pid dPCB with status := Status.ready } else ((st.procTab.set st.executingIdx { st.procTab.getD st.executingIdx dPCB with ctx := st.trapCtx }).set (st.procTab.getD st.executingIdx dPCB).pid { (st.procTab.set st.executingIdx { st.procTab.getD st.executingIdx dPCB with ctx := st.trapCtx }).getD (st.procTab.getD st.executingIdx dPCB).pid dPCB with lastExec := st.time }).getD (st.procTab.getD st.executingIdx dPCB).pid dPCB)).set (scheduleSelect st) { (((st.procTab.set st.executingIdx { st.procTab.getD st.executingIdx dPCB with ctx := st.trapCtx }).set (st.procTab.getD st.executingIdx dPCB).pid { (st.procTab.set st.executingIdx { st.procTab.getD st.executingIdx dPCB with ctx := st.trapCtx }).getD (st.procTab.getD st.executingIdx dPCB).pid dPCB with lastExec := st.time }).set (st.procTab.getD st.executingIdx dPCB).pid (if (((st.procTab.set st.executingIdx { st.procTab.getD st.executingIdx dPCB with ctx := st.trapCtx }).set (st.procTab.getD st.executingIdx dPCB).pid { (st.procTab.set st.executingIdx { st.procTab.getD st.executingIdx dPCB with ctx := st.trapCtx }).getD (st.procTab.getD st.executingIdx dPCB).pid dPCB with lastExec := st.time }).getD (st.procTab.getD st.executingIdx dPCB).pid dPCB).status = Status.executing then { ((st.procTab.set st.executingIdx { st.procTab.getD st.executingIdx dPCB with ctx := st.trapCtx }).set (st.procTab.getD st.executingIdx dPCB).pid { (st.procTab.set st.executingIdx { st.procTab.getD st.executingIdx dPCB with ctx := st.trapCtx }).getD (st.procTab.getD st.executingIdx dPCB).pid dPCB with lastExec := st.time }).getD (st.procTab.getD st.executingIdx dPCB).pid dPCB with status := Status.ready } else ((st.procTab.set st.executingIdx { st.procTab.getD st.executingIdx dPCB with ctx := st.trapCtx }).set (st.procTab.getD st.executingIdx dPCB).pid { (st.procTab.set st.executingIdx { st.procTab.getD st.executingIdx dPCB with ctx := st.trapCtx }).getD (st.procTab.getD st.executingIdx dPCB).pid dPCB with lastExec := st.time }).getD (st.procTab.getD st.executingIdx dPCB).pid dPCB)).getD (scheduleSelect st) dPCB with status := Status.executing }).countP readyOrExec = (((st.procTab.set st.executingIdx { st.procTab.getD st.executingIdx dPCB with ctx := st.trapCtx }).set (st.procTab.getD st.executingIdx dPCB).pid { (st.procTab.set st.executingIdx { st.procTab.getD st.executingIdx dPCB with ctx := st.trapCtx }).getD (st.procTab.getD st.executingIdx dPCB).pid dPCB with lastExec := st.time }).set (st.procTab.getD st.executingIdx dPCB).pid (if (((st.procTab.set st.executingIdx { st.procTab.getD st.executingIdx dPCB with ctx := st.trapCtx }).set (st.procTab.getD st.executingIdx dPCB).pid { (st.procTab.set st.executingIdx { st.procTab.getD st.executingIdx dPCB with ctx := st.trapCtx }).getD (st.procTab.getD st.executingIdx dPCB).pid dPCB with lastExec := st.time }).getD (st.procTab.getD st.executingIdx dPCB).pid dPCB).status = Status.executing then { ((st.procTab.set st.executingIdx { st.procTab.getD st.executingIdx dPCB with ctx := st.trapCtx }).set (st.procTab.getD st.executingIdx dPCB).pid { (st.procTab.set st.executingIdx { st.procTab.getD st.executingIdx dPCB with ctx := st.trapCtx }).getD (st.procTab.getD st.executingIdx dPCB).pid dPCB with lastExec := st.time }).getD (st.procTab.getD st.executingIdx dPCB).pid dPCB with status := Status.ready } else ((st.procTab.set st.executingIdx { st.procTab.getD st.executingIdx dPCB with ctx := st.trapCtx }).set (st.procTab.getD st.executingIdx dPCB).pid { (st.procTab.set st.executingIdx { st.procTab.getD st.executingIdx dPCB with ctx := st.trapCtx }).getD (st.procTab.getD st.executingIdx dPCB).pid dPCB with lastExec := st.time }).getD (st.procTab.getD st.executingIdx dPCB).pid dPCB)).countP readyOrExec :=
    list_countP_set_f readyOrExec (((st.procTab.set st.executingIdx { st.procTab.getD st.executingIdx dPCB with ctx := st.trapCtx }).set (st.procTab.getD st.executingIdx dPCB).pid { (st.procTab.set st.executingIdx { st.procTab.getD st.executingIdx dPCB with ctx := st.trapCtx }).getD (st.procTab.getD st.executingIdx dPCB).pid dPCB with lastExec := st.time }).set (st.procTab.getD st.executingIdx dPCB).pid (if (((st.procTab.set st.executingIdx { st.procTab.getD st.executingIdx dPCB with ctx := st.trapCtx }).set (st.procTab.getD st.executingIdx dPCB).pid { (st.procTab.set st.executingIdx { st.procTab.getD st.executingIdx dPCB with ctx := st.trapCtx }).getD (st.procTab.getD st.executingIdx dPCB).pid dPCB with lastExec := st.time }).getD (st.procTab.getD st.executingIdx dPCB).pid dPCB).status = Status.executing then { ((st.procTab.set st.executingIdx { st.procTab.getD st.executingIdx dPCB with ctx := st.trapCtx }).set (st.procTab.getD st.executingIdx dPCB).pid { (st.procTab.set st.executingIdx { st.procTab.getD st.executingIdx dPCB with ctx := st.trapCtx }).getD (st.procTab.getD st.executingIdx dPCB).pid dPCB with lastExec := st.time }).getD (st.procTab.getD st.executingIdx dPCB).pid dPCB with status := Status.ready } else ((st.procTab.set st.executingIdx { st.procTab.getD st.executingIdx dPCB with ctx := st.trapCtx }).set (st.procTab.getD st.executingIdx dPCB).pid { (st.procTab.set st.executingIdx { st.procTab.getD st.executingIdx dPCB with ctx := st.trapCtx }).getD (st.procTab.getD st.executingIdx dPCB).pid dPCB with lastExec := st.time }).getD (st.procTab.getD st.executingIdx dPCB).pid dPCB)) (scheduleSelect st) _ dPCB hv4
  have c3 : (((st.procTab.set st.executingIdx { st.procTab.getD st.executingIdx dPCB with ctx := st.trapCtx }).set (st.procTab.getD st.executingIdx dPCB).pid { (st.procTab.set st.executingIdx { st.procTab.getD st.executingIdx dPCB with ctx := st.trapCtx }).getD (st.procTab.getD st.executingIdx dPCB).pid dPCB with lastExec := st.time }).set (st.procTab.getD st.executingIdx dPCB).pid (if (((st.procTab.set st.executingIdx { st.procTab.getD st.executingIdx dPCB with ctx := st.trapCtx }).set (st.procTab.getD st.executingIdx dPCB).pid { (st.procTab.set st.executingIdx { st.procTab.getD st.executingIdx dPCB with ctx := st.trapCtx }).getD (st.procTab.getD st.executingIdx dPCB).pid dPCB with lastExec := st.time }).getD (st.procTab.getD st.executingIdx dPCB).pid dPCB).status = Status.executing then { ((st.procTab.set st.executingIdx { st.procTab.getD st.executingIdx dPCB with ctx := st.trapCtx }).set (st.procTab.getD st.executingIdx dPCB).pid { (st.procTab.set st.executingIdx { st.procTab.getD st.executingIdx dPCB with ctx := st.trapCtx }).getD (st.procTab.getD st.executingIdx dPCB).pid dPCB with lastExec := st.time }).getD (st.procTab.getD st.executingIdx dPCB).pid dPCB with status := Status.ready } else ((st.procTab.set st.executingIdx { st.procTab.getD st.executingIdx dPCB with ctx := st.trapCtx }).set (st.procTab.getD st.executingIdx dPCB).pid { (st.procTab.set st.executingIdx { st.procTab.getD st.executingIdx dPCB with ctx := st.trapCtx }).getD (st.procTab.getD st.executingIdx dPCB).pid dPCB with lastExec := st.time }).getD (st.procTab.getD st.executingIdx dPCB).pid dPCB)).countP readyOrExec = ((st.procTab.set st.executingIdx { st.procTab.getD st.executingIdx dPCB with ctx := st.trapCtx }).set (st.procTab.getD st.executingIdx dPCB).pid { (st.procTab.set st.executingIdx { st.procTab.getD st.executingIdx dPCB with ctx := st.trapCtx }).getD (st.procTab.getD st.executingIdx dPCB).pid dPCB with lastExec := st.time }).countP readyOrExec :=
    list_countP_set_f readyOrExec ((st.procTab.set st.executingIdx { st.procTab.getD st.executingIdx dPCB with ctx := st.trapCtx }).set (st.procTab.getD st.executingIdx dPCB).pid { (st.procTab.set st.executingIdx { st.procTab.getD st.executingIdx dPCB with ctx := st.trapCtx }).getD (st.procTab.getD st.executingIdx dPCB).pid dPCB with lastExec := st.time }) (st.procTab.getD st.executingIdx dPCB).pid _ dPCB hv3
  have c2 : ((st.procTab.set st.executingIdx { st.procTab.getD st.executingIdx dPCB with ctx := st.trapCtx }).set (st.procTab.getD st.executingIdx dPCB).pid { (st.procTab.set st.executingIdx { st.procTab.getD st.executingIdx dPCB with ctx := st.trapCtx }).getD (st.procTab.getD st.executingIdx dPCB).pid dPCB with lastExec := st.time }).countP readyOrExec = (st.procTab.set st.executingIdx { st.procTab.getD st.executingIdx dPCB with ctx := st.trapCtx }).countP readyOrExec :=
    list_countP_set_f readyOrExec (st.procTab.set st.executingIdx { st.procTab.getD st.executingIdx dPCB with ctx := st.trapCtx }) (st.procTab.getD st.executingIdx dPCB).pid _ dPCB rfl
  have c1 : (st.procTab.set st.executingIdx { st.procTab.getD st.executingIdx dPCB with ctx := st.trapCtx }).countP readyOrExec = st.procTab.countP readyOrExec :=
    list_countP_set_f readyOrExec st.procTab st.executingIdx _ dPCB rfl
  show (schedule st).currentProcesses = ((List.countP readyOrExec (schedule st).procTab : Nat) : Int)
  rw [schedule_cp, schedule_procTab]
  rw [show List.countP readyOrExec ((((st.procTab.set st.executingIdx { st.procTab.getD st.executingIdx dPCB with ctx := st.trapCtx }).set (st.procTab.getD st.executingIdx dPCB).pid { (st.procTab.set st.executingIdx { st.procTab.getD st.executingIdx dPCB with ctx := st.trapCtx }).getD (st.procTab.getD st.executingIdx dPCB).pid dPCB with lastExec := st.time }).set (st.procTab.getD st.executingIdx dPCB).pid (if (((st.procTab.set st.executingIdx { st.procTab.getD st.executingIdx dPCB with ctx := st.trapCtx }).set (st.procTab.getD st.executingIdx dPCB).pid { (st.procTab.set st.executingIdx { st.procTab.getD st.executingIdx dPCB with ctx := st.trapCtx }).getD (st.procTab.getD st.executingIdx dPCB).pid dPCB with lastExec := st.time }).getD (st.procTab.getD st.executingIdx dPCB).pid dPCB).status = Status.executing then { ((st.procTab.set st.executingIdx { st.procTab.getD st.executingIdx dPCB with ctx := st.trapCtx }).set (st.procTab.getD st.executingIdx dPCB).pid { (st.procTab.set st.executingIdx { st.procTab.getD st.executingIdx dPCB with ctx := st.trapCtx }).getD (st.procTab.getD st.executingIdx dPCB).pid dPCB with lastExec := st.time }).getD (st.procTab.getD st.executingIdx dPCB).pid dPCB with status := Status.ready } else ((st.procTab.set st.executingIdx { st.procTab.getD st.executingIdx dPCB with ctx := st.trapCtx }).set (st.procTab.getD st.executingIdx dPCB).pid { (st.procTab.set st.executingIdx { st.procTab.getD st.executingIdx dPCB with ctx := st.trapCtx }).getD (st.procTab.getD st.executingIdx dPCB).pid dPCB with lastExec := st.time }).getD (st.procTab.getD st.executingIdx dPCB).pid dPCB)).set (scheduleSelect st) { (((st.procTab.set st.executingIdx { st.procTab.getD st.executingIdx dPCB with ctx := st.trapCtx }).set (st.procTab.getD st.executingIdx dPCB).pid { (st.procTab.set st.executingIdx { st.procTab.getD st.executingIdx dPCB with ctx := st.trapCtx }).getD (st.procTab.getD st.executingIdx dPCB).pid dPCB with lastExec := st.time }).set (st.procTab.getD st.executingIdx dPCB).pid (if (((st.procTab.set st.executingIdx { st.procTab.getD st.executingIdx dPCB with ctx := st.trapCtx }).set (st.procTab.getD st.executingIdx dPCB).pid { (st.procTab.set st.executingIdx { st.procTab.getD st.executingIdx dPCB with ctx := st.trapCtx }).getD (st.procTab.getD st.executingIdx dPCB).pid dPCB with lastExec := st.time }).getD (st.procTab.getD st.executingIdx dPCB).pid dPCB).status = Status.executing then { ((st.procTab.set st.executingIdx { st.procTab.getD st.executingIdx dPCB with ctx := st.trapCtx }).set (st.procTab.getD st.executingIdx dPCB).pid { (st.procTab.set st.executingIdx { st.procTab.getD st.executingIdx dPCB with ctx := st.trapCtx }).getD (st.procTab.getD st.executingIdx dPCB).pid dPCB with lastExec := st.time }).getD (st.procTab.getD st.executingIdx dPCB).pid dPCB with status := Status.ready } else ((st.procTab.set st.executingIdx { st.procTab.getD st.executingIdx dPCB with ctx := st.trapCtx }).set (st.procTab.getD st.executingIdx dPCB).pid { (st.procTab.set st.executingIdx { st.procTab.getD st.executingIdx dPCB with ctx := st.trapCtx }).getD (st.procTab.getD st.executingIdx dPCB).pid dPCB with lastExec := st.time }).getD (st.procTab.getD st.executingIdx dPCB).pid dPCB)).getD (scheduleSelect st) dPCB with status := Status.executing }) = ((((st.procTab.set st.executingIdx { st.procTab.getD st.executingIdx dPCB with ctx := st.trapCtx }).set (st.procTab.getD st.executingIdx dPCB).pid { (st.procTab.set st.executingIdx { st.procTab.getD st.executingIdx dPCB with ctx := st.trapCtx }).getD (st.procTab.getD st.executingIdx dPCB).pid dPCB with lastExec := st.time }).set (st.procTab.getD st.executingIdx dPCB).pid (if (((st.procTab.set st.executingIdx { st.procTab.getD st.executingIdx dPCB with ctx := st.trapCtx }).set (st.procTab.getD st.executingIdx dPCB).pid { (st.procTab.set st.executingIdx { st.procTab.getD st.executingIdx dPCB with ctx := st.trapCtx }).getD (st.procTab.getD st.executingIdx dPCB).pid dPCB with lastExec := st.time }).getD (st.procTab.getD st.executingIdx dPCB).pid dPCB).status = Status.executing then { ((st.procTab.set st.executingIdx { st.procTab.getD st.executingIdx dPCB with ctx := st.trapCtx }).set (st.procTab.getD st.executingIdx dPCB).pid { (st.procTab.set st.executingIdx { st.procTab.getD st.executingIdx dPCB with ctx := st.trapCtx }).getD (st.procTab.getD st.executingIdx dPCB).pid dPCB with lastExec := st.time }).getD (st.procTab.getD st.executingIdx dPCB).pid dPCB with status := Status.ready } else ((st.procTab.set st.executingIdx { st.procTab.getD st.executingIdx dPCB with ctx := st.trapCtx }).set (st.procTab.getD st.executingIdx dPCB).pid { (st.procTab.set st.executingIdx { st.procTab.getD st.executingIdx dPCB with ctx := st.trapCtx }).getD (st.procTab.getD st.executingIdx dPCB).pid dPCB with lastExec := st.time }).getD (st.procTab.getD st.executingIdx dPCB).pid dPCB)).set (scheduleSelect st) { (((st.procTab.set st.executingIdx { st.procTab.getD st.executingIdx dPCB with ctx := st.trapCtx }).set (st.procTab.getD st.executingIdx dPCB).pid { (st.procTab.set st.executingIdx { st.procTab.getD st.executingIdx dPCB with ctx := st.trapCtx }).getD (st.procTab.getD st.executingIdx dPCB).pid dPCB with lastExec := st.time }).set (st.procTab.getD st.executingIdx dPCB).pid (if (((st.procTab.set st.executingIdx { st.procTab.getD st.executingIdx dPCB with ctx := st.trapCtx }).set (st.procTab.getD st.executingIdx dPCB).pid { (st.procTab.set st.executingIdx { st.procTab.getD st.executingIdx dPCB with ctx := st.trapCtx }).getD (st.procTab.getD st.executingIdx dPCB).pid dPCB with lastExec := st.time }).getD (st.procTab.getD st.executingIdx dPCB).pid dPCB).status = Status.executing then { ((st.procTab.set st.executingIdx { st.procTab.getD st.executingIdx dPCB with ctx := st.trapCtx }).set (st.procTab.getD st.executingIdx dPCB).pid { (st.procTab.set st.executingIdx { st.procTab.getD st.executingIdx dPCB with ctx := st.trapCtx }).getD (st.procTab.getD st.executingIdx dPCB).pid dPCB with lastExec := st.time }).getD (st.procTab.getD st.executingIdx dPCB).pid dPCB with status := Status.ready } else ((st.procTab.set st.executingIdx { st.procTab.getD st.executingIdx dPCB with ctx := st.trapCtx }).set (st.procTab.getD st.executingIdx dPCB).pid { (st.procTab.set st.executingIdx { st.procTab.getD st.executingIdx dPCB with ctx := st.trapCtx }).getD (st.procTab.getD st.executingIdx dPCB).pid dPCB with lastExec := st.time }).getD (st.procTab.getD st.executingIdx dPCB).pid dPCB)).getD (scheduleSelect st) dPCB with status := Status.executing }).countP readyOrExec from rfl, c4, c3, c2, c1]
  exact hinv

end Kernel

namespace Kernel

/-- `close_fd` never touches `currentProcesses`, `executing`, the table's
length, any PCB's READY-or-EXECUTING score, or the total count of such PCBs
(it only rewrites one process' descriptor table and one open-file entry). -/
theorem close_fd_frame (s : KState) (fd : Int) (pid : Nat) :
    (close_fd s fd pid).1.currentProcesses = s.currentProcesses
    ∧ (close_fd s fd pid).1.executingIdx = s.executingIdx
    ∧ (close_fd s fd pid).1.procTab.length = s.procTab.length
    ∧ (close_fd s fd pid).1.procTab.countP readyOrExec = s.procTab.countP readyOrExec
    ∧ (∀ j : Nat, readyOrExec ((close_fd s fd pid).1.procTab.getD j dPCB)
        = readyOrExec (s.procTab.getD j dPCB)) := by
  by_cases h : 0 ≤ fd ∧ fd < (s.maxFds : Int)
  · have hkey : (close_fd s fd pid).1
        = { (updateProc s pid (fun p => { p with fdTab := p.fdTab.map (fun e => if e = fd then -1 else e) })) with openFileTab := s.openFileTab.set fd.toNat { s.openFileTab.getD fd.toNat dFd with refCount := (s.openFileTab.getD fd.toNat dFd).refCount - 1 } } := by
      show ((if 0 ≤ fd ∧ fd < (s.maxFds : Int) then _ else _ : KState × Int)).1 = _
      rw [if_pos h]
      rfl
    rw [hkey]
    refine ⟨rfl, rfl, ?_, ?_, ?_⟩
    · show (s.procTab.set pid _).length = s.procTab.length
      rw [list_length_set_eq]
    · show (s.procTab.set pid _).countP readyOrExec = s.procTab.countP readyOrExec
      exact list_countP_set_f readyOrExec s.procTab pid _ dPCB rfl
    · intro j
      show readyOrExec ((s.procTab.set pid _).getD j dPCB) = _
      exact list_getD_set_f readyOrExec s.procTab pid j _ dPCB rfl
  · have hkey : (close_fd s fd pid).1 = s := by
      show ((if 0 ≤ fd ∧ fd < (s.maxFds : Int) then _ else _ : KState × Int)).1 = _
      rw [if_neg h]
    rw [hkey]
    exact ⟨rfl, rfl, rfl, rfl, fun j => rfl⟩

/-- The descriptor-teardown fold inherits the frame facts of `close_fd`. -/
theorem closeFds_fold_frame (slot pid : Nat) : ∀ (l : List Nat) (s : KState),
    ((l.foldl (fun s i =>
        let fd := (s.procTab.getD slot dPCB).fdTab.getD i (-1)
        if 0 ≤ fd then (close_fd s fd pid).1 else s) s).currentProcesses
      = s.currentProcesses)
    ∧ ((l.foldl (fun s i =>
        let fd := (s.procTab.getD slot dPCB).fdTab.getD i (-1)
        if 0 ≤ fd then (close_fd s fd pid).1 else s) s).executingIdx = s.executingIdx)
    ∧ ((l.foldl (fun s i =>
        let fd := (s.procTab.getD slot dPCB).fdTab.getD i (-1)
        if 0 ≤ fd then (close_fd s fd pid).1 else s) s).procTab.length = s.procTab.length)
    ∧ ((l.foldl (fun s i =>
        let fd := (s.procTab.getD slot dPCB).fdTab.getD i (-1)
        if 0 ≤ fd then (close_fd s fd pid).1 else s) s).procTab.countP readyOrExec
      = s.procTab.countP readyOrExec)
    ∧ (∀ j : Nat, readyOrExec ((l.foldl (fun s i =>
        let fd := (s.procTab.getD slot dPCB).fdTab.getD i (-1)
        if 0 ≤ fd then (close_fd s fd pid).1 else s) s).procTab.getD j dPCB)
      = readyOrExec (s.procTab.getD j dPCB)) := by
  intro l
  induction l with
  | nil => exact fun s => ⟨rfl, rfl, rfl, rfl, fun j => rfl⟩
  | cons i rest ih =>
    intro s
    obtain ⟨f1, f2, f3, f4, f5⟩ := ih (if 0 ≤ (s.procTab.getD slot dPCB).fdTab.getD i (-1) then (close_fd s ((s.procTab.getD slot dPCB).fdTab.getD i (-1)) pid).1 else s)
    have hg : ((if 0 ≤ (s.procTab.getD slot dPCB).fdTab.getD i (-1) then (close_fd s ((s.procTab.getD slot dPCB).fdTab.getD i (-1)) pid).1 else s).currentProcesses = s.currentProcesses)
        ∧ ((if 0 ≤ (s.procTab.getD slot dPCB).fdTab.getD i (-1) then (close_fd s ((s.procTab.getD slot dPCB).fdTab.getD i (-1)) pid).1 else s).executingIdx = s.executingIdx)
        ∧ ((if 0 ≤ (s.procTab.getD slot dPCB).fdTab.getD i (-1) then (close_fd s ((s.procTab.getD slot dPCB).fdTab.getD i (-1)) pid).1 else s).procTab.length = s.procTab.length)
        ∧ ((if 0 ≤ (s.procTab.getD slot dPCB).fdTab.getD i (-1) then (close_fd s ((s.procTab.getD slot dPCB).fdTab.getD i (-1)) pid).1 else s).procTab.countP readyOrExec = s.procTab.countP readyOrExec)
        ∧ (∀ j : Nat, readyOrExec ((if 0 ≤ (s.procTab.getD slot dPCB).fdTab.getD i (-1) then (close_fd s ((s.procTab.getD slot dPCB).fdTab.getD i (-1)) pid).1 else s).procTab.getD j dPCB)
            = readyOrExec (s.procTab.getD j dPCB)) := by
      by_cases hfd : 0 ≤ (s.procTab.getD slot dPCB).fdTab.getD i (-1)
      · rw [if_pos hfd]
        exact close_fd_frame s _ pid
      · rw [if_neg hfd]
        exact ⟨rfl, rfl, rfl, rfl, fun j => rfl⟩
    obtain ⟨g1, g2, g3, g4, g5⟩ := hg
    exact ⟨f1.trans g1, f2.trans g2, f3.trans g3, f4.trans g4,
      fun j => (f5 j).trans (g5 j)⟩

end Kernel

namespace Kernel

/-- `close_fd` preserves the counting invariant. -/
theorem close_fd_countInv (s : KState) (fd : Int) (pid : Nat) (hinv : countInv s) :
    countInv (close_fd s fd pid).1 := by
  obtain ⟨g1, _, _, g4, _⟩ := close_fd_frame s fd pid
  show (close_fd s fd pid).1.currentProcesses
    = (((close_fd s fd pid).1.procTab.countP readyOrExec : Nat) : Int)
  rw [g1, g4]
  exact hinv

/-- `open_fd` preserves the counting invariant: it only rewrites an open-file
entry and possibly one descriptor-table slot. -/
theorem open_fd_countInv (st : KState) (hIdx : Nat) (fl : Flag) (hinv : countInv st) :
    countInv (open_fd st hIdx fl).1 := by
  show (open_fd st hIdx fl).1.currentProcesses
    = (((open_fd st hIdx fl).1.procTab.countP readyOrExec : Nat) : Int)
  simp only [open_fd]
  split
  · exact hinv
  · split
    · exact hinv
    · rename_i x1 i hi x2 j hj
      exact hinv.trans (congrArg (fun n : Nat => (n : Int))
        (list_countP_set_f readyOrExec st.procTab st.executingIdx
          { st.procTab.getD st.executingIdx dPCB with
              fdTab := (st.procTab.getD st.executingIdx dPCB).fdTab.set j ((i : Nat) : Int) }
          dPCB rfl).symm)

/-- `write` (svc 0x01) preserves the counting invariant: no branch touches the
process table or the counter. -/
theorem svcWrite_countInv (st : KState) (hinv : countInv st) : countInv (svcWrite st) := by
  show (svcWrite st).currentProcesses
    = (((svcWrite st).procTab.countP readyOrExec : Nat) : Int)
  simp only [svcWrite, emitStr, setR0]
  split_ifs <;> first
    | exact hinv
    | (split <;> exact hinv)

/-- `read` (svc 0x02) preserves the counting invariant. -/
theorem svcRead_countInv (st : KState) (hinv : countInv st) : countInv (svcRead st) := by
  show (svcRead st).currentProcesses
    = (((svcRead st).procTab.countP readyOrExec : Nat) : Int)
  simp only [svcRead, emitStr, setR0]
  split_ifs <;> first
    | exact hinv
    | (split <;> exact hinv)

/-- `exec` (svc 0x05) preserves the counting invariant: it only rewrites the
trap context. -/
theorem svcExec_countInv (st : KState) (hinv : countInv st) : countInv (svcExec st) := hinv

/-- `nice` (svc 0x07) preserves the counting invariant: it only rewrites a
niceness field. -/
theorem svcNice_countInv (st : KState) (hinv : countInv st) : countInv (svcNice st) := by
  show (svcNice st).currentProcesses
    = (((svcNice st).procTab.countP readyOrExec : Nat) : Int)
  exact hinv.trans (congrArg (fun n : Nat => (n : Int))
    (list_countP_set_f readyOrExec st.procTab (st.trapCtx.gpr.getD 0 0).toNat
      { st.procTab.getD (st.trapCtx.gpr.getD 0 0).toNat dPCB with
          niceness := (if st.trapCtx.gpr.getD 1 0 < -19 then (-19 : Int)
            else if 20 < st.trapCtx.gpr.getD 1 0 then 20 else st.trapCtx.gpr.getD 1 0) }
      dPCB rfl).symm)

/-- `close` (svc 0x09) preserves the counting invariant. -/
theorem svcClose_countInv (st : KState) (hinv : countInv st) : countInv (svcClose st) :=
  close_fd_countInv st (st.trapCtx.gpr.getD 0 0)
    (st.procTab.getD st.executingIdx dPCB).pid hinv

end Kernel

namespace Kernel

/-- A full-table fork (svc 0x03) preserves the counting invariant: it only
emits diagnostics and writes -1 into the caller's gpr[0]. -/
theorem svcFork_full_countInv (tosP : Int) (st : KState)
    (hfull : (st.maxProcs : Int) ≤ st.currentProcesses) (hinv : countInv st) :
    countInv (svcFork tosP st) := by
  have hkey : svcFork tosP st
      = setR0 (emitStr (emit st 'F') ("\nERR: process table full".toList)) (-1) := by
    show (if ((emit st 'F').maxProcs : Int) ≤ (emit st 'F').currentProcesses then _ else _) = _
    rw [if_pos (show ((emit st 'F').maxProcs : Int) ≤ (emit st 'F').currentProcesses from hfull)]
  rw [hkey]
  exact hinv

/-- A non-full fork whose destination slot holds no READY/EXECUTING PCB
preserves the counting invariant: the counter and the READY/EXECUTING count
both grow by exactly one. -/
theorem svcFork_nonfull_countInv (tosP : Int) (st : KState)
    (h : st.currentProcesses < (st.maxProcs : Int))
    (hi : forkDest st < st.procTab.length)
    (hx : st.executingIdx ≠ forkDest st)
    (hds : readyOrExec (st.procTab.getD (forkDest st) dPCB) = false)
    (hinv : countInv st) :
    countInv (svcFork tosP st) := by
  obtain ⟨q, t, m, heq, hlen⟩ := svcFork_nonfull_shape tosP st h hi hx
  rw [heq]
  show st.currentProcesses + 1
    = (((st.procTab.set (forkDest st) { pid := forkDest st, status := Status.ready, tos := tosP - (Int.ofNat (forkDest st) - 1) * 0x2000, ctx := { st.trapCtx with sp := (tosP - (Int.ofNat (forkDest st) - 1) * 0x2000) - ((st.procTab.getD st.executingIdx dPCB).tos - (st.procTab.getD st.executingIdx dPCB).ctx.sp), gpr := st.trapCtx.gpr.set 0 0 }, lastExec := st.time, niceness := (st.procTab.getD st.executingIdx dPCB).niceness, fdTab := q }).countP readyOrExec : Nat) : Int)
  rw [list_countP_set_true st.procTab (forkDest st) { pid := forkDest st, status := Status.ready, tos := tosP - (Int.ofNat (forkDest st) - 1) * 0x2000, ctx := { st.trapCtx with sp := (tosP - (Int.ofNat (forkDest st) - 1) * 0x2000) - ((st.procTab.getD st.executingIdx dPCB).tos - (st.procTab.getD st.executingIdx dPCB).ctx.sp), gpr := st.trapCtx.gpr.set 0 0 }, lastExec := st.time, niceness := (st.procTab.getD st.executingIdx dPCB).niceness, fdTab := q } readyOrExec dPCB hi hds rfl]
  have hinv2 : st.currentProcesses = ((st.procTab.countP readyOrExec : Nat) : Int) := hinv
  push_cast
  omega

/-- `exit` (svc 0x04) preserves the counting invariant provided the executing
slot is live (it is demoted from the count as the counter drops) and the slot
the subsequent schedule selects is READY or EXECUTING. -/
theorem svcExit_countInv (st : KState) (hinv : countInv st)
    (h1 : st.executingIdx < st.procTab.length)
    (h2 : readyOrExec (st.procTab.getD st.executingIdx dPCB) = true)
    (h3 : readyOrExec (({ updateProc (closeFdsOf (emit st 'X') st.executingIdx (st.procTab.getD st.executingIdx dPCB).pid) (closeFdsOf (emit st 'X') st.executingIdx (st.procTab.getD st.executingIdx dPCB).pid).executingIdx (fun p => { p with status := Status.terminated }) with currentProcesses := (updateProc (closeFdsOf (emit st 'X') st.executingIdx (st.procTab.getD st.executingIdx dPCB).pid) (closeFdsOf (emit st 'X') st.executingIdx (st.procTab.getD st.executingIdx dPCB).pid).executingIdx (fun p => { p with status := Status.terminated })).currentProcesses - 1 } : KState).procTab.getD (scheduleSelect ({ updateProc (closeFdsOf (emit st 'X') st.executingIdx (st.procTab.getD st.executingIdx dPCB).pid) (closeFdsOf (emit st 'X') st.executingIdx (st.procTab.getD st.executingIdx dPCB).pid).executingIdx (fun p => { p with status := Status.terminated }) with currentProcesses := (updateProc (closeFdsOf (emit st 'X') st.executingIdx (st.procTab.getD st.executingIdx dPCB).pid) (closeFdsOf (emit st 'X') st.executingIdx (st.procTab.getD st.executingIdx dPCB).pid).executingIdx (fun p => { p with status := Status.terminated })).currentProcesses - 1 } : KState)) dPCB) = true) :
    countInv (svcExit st) := by
  obtain ⟨f1, f2, f3, f4, f5⟩ := closeFds_fold_frame st.executingIdx
    (st.procTab.getD st.executingIdx dPCB).pid (List.range (emit st 'X').maxFds) (emit st 'X')
  have f1' : (closeFdsOf (emit st 'X') st.executingIdx (st.procTab.getD st.executingIdx dPCB).pid).currentProcesses = st.currentProcesses := f1
  have f2' : (closeFdsOf (emit st 'X') st.executingIdx (st.procTab.getD st.executingIdx dPCB).pid).executingIdx = st.executingIdx := f2
  have f3' : (closeFdsOf (emit st 'X') st.executingIdx (st.procTab.getD st.executingIdx dPCB).pid).procTab.length = st.procTab.length := f3
  have f4' : (closeFdsOf (emit st 'X') st.executingIdx (st.procTab.getD st.executingIdx dPCB).pid).procTab.countP readyOrExec = st.procTab.countP readyOrExec := f4
  have f5' : ∀ j : Nat, readyOrExec ((closeFdsOf (emit st 'X') st.executingIdx (st.procTab.getD st.executingIdx dPCB).pid).procTab.getD j dPCB)
      = readyOrExec (st.procTab.getD j dPCB) := f5
  have hmid : countInv ({ updateProc (closeFdsOf (emit st 'X') st.executingIdx (st.procTab.getD st.executingIdx dPCB).pid) (closeFdsOf (emit st 'X') st.executingIdx (st.procTab.getD st.executingIdx dPCB).pid).executingIdx (fun p => { p with status := Status.terminated }) with currentProcesses := (updateProc (closeFdsOf (emit st 'X') st.executingIdx (st.procTab.getD st.executingIdx dPCB).pid) (closeFdsOf (emit st 'X') st.executingIdx (st.procTab.getD st.executingIdx dPCB).pid).executingIdx (fun p => { p with status := Status.terminated })).currentProcesses - 1 } : KState) := by
    show (closeFdsOf (emit st 'X') st.executingIdx (st.procTab.getD st.executingIdx dPCB).pid).currentProcesses - 1
      = ((((closeFdsOf (emit st 'X') st.executingIdx (st.procTab.getD st.executingIdx dPCB).pid).procTab.set (closeFdsOf (emit st 'X') st.executingIdx (st.procTab.getD st.executingIdx dPCB).pid).executingIdx { (closeFdsOf (emit st 'X') st.executingIdx (st.procTab.getD st.executingIdx dPCB).pid).procTab.getD (closeFdsOf (emit st 'X') st.executingIdx (st.procTab.getD st.executingIdx dPCB).pid).executingIdx dPCB with status := Status.terminated }).countP readyOrExec : Nat) : Int)
    have hin : (closeFdsOf (emit st 'X') st.executingIdx (st.procTab.getD st.executingIdx dPCB).pid).executingIdx < (closeFdsOf (emit st 'X') st.executingIdx (st.procTab.getD st.executingIdx dPCB).pid).procTab.length := by
      rw [f2', f3']
      exact h1
    have hT : readyOrExec ((closeFdsOf (emit st 'X') st.executingIdx (st.procTab.getD st.executingIdx dPCB).pid).procTab.getD (closeFdsOf (emit st 'X') st.executingIdx (st.procTab.getD st.executingIdx dPCB).pid).executingIdx dPCB) = true := by
      rw [f5' (closeFdsOf (emit st 'X') st.executingIdx (st.procTab.getD st.executingIdx dPCB).pid).executingIdx, f2']
      exact h2
    have hc := list_countP_set_false (closeFdsOf (emit st 'X') st.executingIdx (st.procTab.getD st.executingIdx dPCB).pid).procTab (closeFdsOf (emit st 'X') st.executingIdx (st.procTab.getD st.executingIdx dPCB).pid).executingIdx
      { (closeFdsOf (emit st 'X') st.executingIdx (st.procTab.getD st.executingIdx dPCB).pid).procTab.getD (closeFdsOf (emit st 'X') st.executingIdx (st.procTab.getD st.executingIdx dPCB).pid).executingIdx dPCB with status := Status.terminated }
      readyOrExec dPCB hin hT rfl
    rw [f4'] at hc
    rw [f1']
    have hinv2 : st.currentProcesses = ((st.procTab.countP readyOrExec : Nat) : Int) := hinv
    omega
  exact schedule_countInv _ hmid h3

/-- `kill` (svc 0x06) preserves the counting invariant exactly when the target
slot holds a READY or EXECUTING PCB (hypotheses below): the count then drops
with the counter. -/
theorem svcKill_countInv (st : KState) (hinv : countInv st)
    (h1 : (st.trapCtx.gpr.getD 0 0).toNat < st.procTab.length)
    (h2 : readyOrExec (st.procTab.getD (st.trapCtx.gpr.getD 0 0).toNat dPCB) = true) :
    countInv (svcKill st) := by
  obtain ⟨f1, f2, f3, f4, f5⟩ := closeFds_fold_frame (st.trapCtx.gpr.getD 0 0).toNat (st.trapCtx.gpr.getD 0 0).toNat
    (List.range (emit st 'K').maxFds) (emit st 'K')
  have f1' : (closeFdsOf (emit st 'K') (st.trapCtx.gpr.getD 0 0).toNat (st.trapCtx.gpr.getD 0 0).toNat).currentProcesses = st.currentProcesses := f1
  have f3' : (closeFdsOf (emit st 'K') (st.trapCtx.gpr.getD 0 0).toNat (st.trapCtx.gpr.getD 0 0).toNat).procTab.length = st.procTab.length := f3
  have f4' : (closeFdsOf (emit st 'K') (st.trapCtx.gpr.getD 0 0).toNat (st.trapCtx.gpr.getD 0 0).toNat).procTab.countP readyOrExec = st.procTab.countP readyOrExec := f4
  have f5' : ∀ j : Nat, readyOrExec ((closeFdsOf (emit st 'K') (st.trapCtx.gpr.getD 0 0).toNat (st.trapCtx.gpr.getD 0 0).toNat).procTab.getD j dPCB)
      = readyOrExec (st.procTab.getD j dPCB) := f5
  show ((closeFdsOf (emit st 'K') (st.trapCtx.gpr.getD 0 0).toNat (st.trapCtx.gpr.getD 0 0).toNat).currentProcesses - 1 : Int)
    = ((((closeFdsOf (emit st 'K') (st.trapCtx.gpr.getD 0 0).toNat (st.trapCtx.gpr.getD 0 0).toNat).procTab.set (st.trapCtx.gpr.getD 0 0).toNat { (closeFdsOf (emit st 'K') (st.trapCtx.gpr.getD 0 0).toNat (st.trapCtx.gpr.getD 0 0).toNat).procTab.getD (st.trapCtx.gpr.getD 0 0).toNat dPCB with status := Status.terminated }).countP readyOrExec : Nat) : Int)
  have hin : (st.trapCtx.gpr.getD 0 0).toNat < (closeFdsOf (emit st 'K') (st.trapCtx.gpr.getD 0 0).toNat (st.trapCtx.gpr.getD 0 0).toNat).procTab.length := by
    rw [f3']
    exact h1
  have hT : readyOrExec ((closeFdsOf (emit st 'K') (st.trapCtx.gpr.getD 0 0).toNat (st.trapCtx.gpr.getD 0 0).toNat).procTab.getD (st.trapCtx.gpr.getD 0 0).toNat dPCB) = true := by
    rw [f5' (st.trapCtx.gpr.getD 0 0).toNat]
    exact h2
  have hc := list_countP_set_false (closeFdsOf (emit st 'K') (st.trapCtx.gpr.getD 0 0).toNat (st.trapCtx.gpr.getD 0 0).toNat).procTab (st.trapCtx.gpr.getD 0 0).toNat
    { (closeFdsOf (emit st 'K') (st.trapCtx.gpr.getD 0 0).toNat (st.trapCtx.gpr.getD 0 0).toNat).procTab.getD (st.trapCtx.gpr.getD 0 0).toNat dPCB with status := Status.terminated }
    readyOrExec dPCB hin hT rfl
  rw [f4'] at hc
  rw [f1']
  have hinv2 : st.currentProcesses = ((st.procTab.countP readyOrExec : Nat) : Int) := hinv
  omega

/-- The process table built by reset counts exactly one live PCB. -/
theorem countP_reset_shape (mp : Nat) (z : PCB) (g : PCB → PCB) (con : PCB) (f : PCB → Bool)
    (hmp : 0 < mp) (hg : ∀ p, f (g p) = false) (hcon : f con = true) :
    (((List.replicate mp z).map g).set 0 con).countP f = 1 := by
  have hlen : 0 < ((List.replicate mp z).map g).length := by simp [hmp]
  have h0f : f (((List.replicate mp z).map g).getD 0 dPCB) = false := by
    rw [List.getD_eq_getElem _ dPCB hlen, List.getElem_map]
    exact hg _
  rw [list_countP_set_true _ 0 con f dPCB hlen h0f hcon]
  rw [show ((List.replicate mp z).map g).countP f = 0 from by
    rw [List.countP_eq_zero]
    intro a ha
    rcases List.mem_map.mp ha with ⟨b, hb, hab⟩
    rw [← hab]
    simp [hg b]]

/-- Reset establishes the counting invariant (for a non-empty process table):
it invalidates every PCB, installs the READY console in slot 0 and bumps the
counter from 0 to 1. -/
theorem rst_countInv (tosC mainC : Int) (ctx0 : Ctx) (mp mf : Nat) (hmp : 0 < mp) :
    countInv (hilevel_handler_rst tosC mainC (initState mp mf ctx0)) := by
  show (hilevel_handler_rst tosC mainC (initState mp mf ctx0)).currentProcesses
    = (((hilevel_handler_rst tosC mainC (initState mp mf ctx0)).procTab.countP readyOrExec : Nat) : Int)
  simp only [hilevel_handler_rst, initState, dispatch, updateProc, printPID_eq, emit]
  refine Eq.trans (by norm_num : (0 : Int) + 1 = ((1 : Nat) : Int))
    (congrArg (fun n : Nat => (n : Int)) ?_)
  refine (countP_reset_shape mp (zeroPCB mf) (fun p => { p with status := Status.invalid }) _
    readyOrExec hmp (fun p => rfl) ?_).symm
  rfl

end Kernel

namespace Kernel

set_option maxHeartbeats 1000000 in
/-- `pipe` (svc 0x08) preserves the counting invariant: allocation, the two
`open_fd` calls, the failure-path `close_fd` calls and the user-memory store
never touch the process counter or any status. -/
theorem svcPipe_countInv (st : KState) (hinv : countInv st) : countInv (svcPipe st) := by
  have hA : countInv ({ st with pipeHeap := st.pipeHeap ++ [freshPipe pipeBufferCap] } : KState) :=
    hinv
  have hB := open_fd_countInv ({ st with pipeHeap := st.pipeHeap ++ [freshPipe pipeBufferCap] } : KState)
    st.pipeHeap.length Flag.rdonly hA
  have hC := open_fd_countInv
    (open_fd ({ st with pipeHeap := st.pipeHeap ++ [freshPipe pipeBufferCap] } : KState)
      st.pipeHeap.length Flag.rdonly).1
    st.pipeHeap.length Flag.wronly hB
  simp only [svcPipe]
  split_ifs
  · exact close_fd_countInv _ _ _ (close_fd_countInv _ _ _ hC)
  · exact close_fd_countInv _ _ _ hC
  · exact close_fd_countInv _ _ _ hC
  · exact hC
  · exact hC

end Kernel

namespace Kernel

/-- C5 counterexample: the invariant holds after boot, but a single kill of
pid 1 — whose PCB is INVALID, not READY or EXECUTING — decrements
`current_processes` without changing the READY/EXECUTING count, so the
claimed preservation by every operation at arbitrary arguments fails. -/
theorem C5_counterexample :
    countInv bootSt
    ∧ ¬ countInv (hilevel_handler_svc 0
        { bootSt with trapCtx := { bootSt.trapCtx with gpr := [1, 0, 0] } } 6) :=
  ⟨by decide, by decide⟩

/-- C5 amended: the counting invariant `current_processes = #{READY,
EXECUTING}` holds after reset (non-empty table), and is preserved by: yield
and every schedule when the selected slot is READY or EXECUTING; write, read,
exec, nice, pipe and close unconditionally; fork when the table is full, and
otherwise when its destination slot is in range, distinct from the executing
slot and not READY/EXECUTING; exit when the executing slot is live and the
subsequently scheduled slot is READY or EXECUTING; and kill exactly when the
target slot is in range and READY or EXECUTING. -/
theorem C5_count_invariant
    (tosC mainC : Int) (ctx0 : Ctx) (mp mf : Nat) (hmp : 0 < mp)
    (stY : KState) (hinvY : countInv stY)
    (hselY : readyOrExec (stY.procTab.getD (scheduleSelect stY) dPCB) = true)
    (stW : KState) (hinvW : countInv stW)
    (stR : KState) (hinvR : countInv stR)
    (tosF : Int) (stFf : KState) (hinvFf : countInv stFf)
    (hFf : (stFf.maxProcs : Int) ≤ stFf.currentProcesses)
    (stF : KState) (hinvF : countInv stF)
    (hF1 : stF.currentProcesses < (stF.maxProcs : Int))
    (hF2 : forkDest stF < stF.procTab.length)
    (hF3 : stF.executingIdx ≠ forkDest stF)
    (hF4 : readyOrExec (stF.procTab.getD (forkDest stF) dPCB) = false)
    (stX : KState) (hinvX : countInv stX)
    (hX1 : stX.executingIdx < stX.procTab.length)
    (hX2 : readyOrExec (stX.procTab.getD stX.executingIdx dPCB) = true)
    (hX3 : readyOrExec (({ updateProc (closeFdsOf (emit stX 'X') stX.executingIdx (stX.procTab.getD stX.executingIdx dPCB).pid) (closeFdsOf (emit stX 'X') stX.executingIdx (stX.procTab.getD stX.executingIdx dPCB).pid).executingIdx (fun p => { p with status := Status.terminated }) with currentProcesses := (updateProc (closeFdsOf (emit stX 'X') stX.executingIdx (stX.procTab.getD stX.executingIdx dPCB).pid) (closeFdsOf (emit stX 'X') stX.executingIdx (stX.procTab.getD stX.executingIdx dPCB).pid).executingIdx (fun p => { p with status := Status.terminated })).currentProcesses - 1 } : KState).procTab.getD (scheduleSelect ({ updateProc (closeFdsOf (emit stX 'X') stX.executingIdx (stX.procTab.getD stX.executingIdx dPCB).pid) (closeFdsOf (emit stX 'X') stX.executingIdx (stX.procTab.getD stX.executingIdx dPCB).pid).executingIdx (fun p => { p with status := Status.terminated }) with currentProcesses := (updateProc (closeFdsOf (emit stX 'X') stX.executingIdx (stX.procTab.getD stX.executingIdx dPCB).pid) (closeFdsOf (emit stX 'X') stX.executingIdx (stX.procTab.getD stX.executingIdx dPCB).pid).executingIdx (fun p => { p with status := Status.terminated })).currentProcesses - 1 } : KState)) dPCB) = true)
    (stK : KState) (hinvK : countInv stK)
    (hK1 : (stK.trapCtx.gpr.getD 0 0).toNat < stK.procTab.length)
    (hK2 : readyOrExec (stK.procTab.getD (stK.trapCtx.gpr.getD 0 0).toNat dPCB) = true)
    (stE : KState) (hinvE : countInv stE)
    (stN : KState) (hinvN : countInv stN)
    (stP : KState) (hinvP : countInv stP)
    (stC : KState) (hinvC : countInv stC)
    (tosO : Int) :
    countInv (hilevel_handler_rst tosC mainC (initState mp mf ctx0))
    ∧ countInv (hilevel_handler_svc tosO stY 0)
    ∧ countInv (hilevel_handler_svc tosO stW 1)
    ∧ countInv (hilevel_handler_svc tosO stR 2)
    ∧ countInv (hilevel_handler_svc tosF stFf 3)
    ∧ countInv (hilevel_handler_svc tosF stF 3)
    ∧ countInv (hilevel_handler_svc tosO stX 4)
    ∧ countInv (hilevel_handler_svc tosO stE 5)
    ∧ countInv (hilevel_handler_svc tosO stK 6)
    ∧ countInv (hilevel_handler_svc tosO stN 7)
    ∧ countInv (hilevel_handler_svc tosO stP 8)
    ∧ countInv (hilevel_handler_svc tosO stC 9) :=
  ⟨rst_countInv tosC mainC ctx0 mp mf hmp,
   schedule_countInv stY hinvY hselY,
   svcWrite_countInv stW hinvW,
   svcRead_countInv stR hinvR,
   svcFork_full_countInv tosF stFf hFf hinvFf,
   svcFork_nonfull_countInv tosF stF hF1 hF2 hF3 hF4 hinvF,
   svcExit_countInv stX hinvX hX1 hX2 hX3,
   svcExec_countInv stE hinvE,
   svcKill_countInv stK hinvK hK1 hK2,
   svcNice_countInv stN hinvN,
   svcPipe_countInv stP hinvP,
   svcClose_countInv stC hinvC⟩

end Kernel

namespace Kernel

/-- Witness for the amended C5 at concrete states: boot parameters of the
model, `bootSt` for yield/write/read/fork/exec/nice/pipe/close, `tieSt` for
the full-table fork, exit and (self-)kill. -/
theorem C5_count_invariant_witness :
    (0 < 4
      ∧ countInv bootSt
      ∧ readyOrExec (bootSt.procTab.getD (scheduleSelect bootSt) dPCB) = true
      ∧ countInv tieSt
      ∧ (tieSt.maxProcs : Int) ≤ tieSt.currentProcesses
      ∧ bootSt.currentProcesses < (bootSt.maxProcs : Int)
      ∧ forkDest bootSt < bootSt.procTab.length
      ∧ bootSt.executingIdx ≠ forkDest bootSt
      ∧ readyOrExec (bootSt.procTab.getD (forkDest bootSt) dPCB) = false
      ∧ tieSt.executingIdx < tieSt.procTab.length
      ∧ readyOrExec (tieSt.procTab.getD tieSt.executingIdx dPCB) = true
      ∧ readyOrExec (({ updateProc (closeFdsOf (emit tieSt 'X') tieSt.executingIdx (tieSt.procTab.getD tieSt.executingIdx dPCB).pid) (closeFdsOf (emit tieSt 'X') tieSt.executingIdx (tieSt.procTab.getD tieSt.executingIdx dPCB).pid).executingIdx (fun p => { p with status := Status.terminated }) with currentProcesses := (updateProc (closeFdsOf (emit tieSt 'X') tieSt.executingIdx (tieSt.procTab.getD tieSt.executingIdx dPCB).pid) (closeFdsOf (emit tieSt 'X') tieSt.executingIdx (tieSt.procTab.getD tieSt.executingIdx dPCB).pid).executingIdx (fun p => { p with status := Status.terminated })).currentProcesses - 1 } : KState).procTab.getD (scheduleSelect ({ updateProc (closeFdsOf (emit tieSt 'X') tieSt.executingIdx (tieSt.procTab.getD tieSt.executingIdx dPCB).pid) (closeFdsOf (emit tieSt 'X') tieSt.executingIdx (tieSt.procTab.getD tieSt.executingIdx dPCB).pid).executingIdx (fun p => { p with status := Status.terminated }) with currentProcesses := (updateProc (closeFdsOf (emit tieSt 'X') tieSt.executingIdx (tieSt.procTab.getD tieSt.executingIdx dPCB).pid) (closeFdsOf (emit tieSt 'X') tieSt.executingIdx (tieSt.procTab.getD tieSt.executingIdx dPCB).pid).executingIdx (fun p => { p with status := Status.terminated })).currentProcesses - 1 } : KState)) dPCB) = true
      ∧ (tieSt.trapCtx.gpr.getD 0 0).toNat < tieSt.procTab.length
      ∧ readyOrExec (tieSt.procTab.getD (tieSt.trapCtx.gpr.getD 0 0).toNat dPCB) = true)
    ∧ (countInv (hilevel_handler_rst 4096 512 (initState 4 4 zeroCtx))
      ∧ countInv (hilevel_handler_svc 0 bootSt 0)
      ∧ countInv (hilevel_handler_svc 0 bootSt 1)
      ∧ countInv (hilevel_handler_svc 0 bootSt 2)
      ∧ countInv (hilevel_handler_svc 0x80000 tieSt 3)
      ∧ countInv (hilevel_handler_svc 0x80000 bootSt 3)
      ∧ countInv (hilevel_handler_svc 0 tieSt 4)
      ∧ countInv (hilevel_handler_svc 0 bootSt 5)
      ∧ countInv (hilevel_handler_svc 0 tieSt 6)
      ∧ countInv (hilevel_handler_svc 0 bootSt 7)
      ∧ countInv (hilevel_handler_svc 0 bootSt 8)
      ∧ countInv (hilevel_handler_svc 0 bootSt 9)) :=
  ⟨by decide,
   C5_count_invariant 4096 512 zeroCtx 4 4 (by decide)
     bootSt (by decide) (by decide)
     bootSt (by decide)
     bootSt (by decide)
     0x80000 tieSt (by decide) (by decide)
     bootSt (by decide) (by decide) (by decide) (by decide) (by decide)
     tieSt (by decide) (by decide) (by decide) (by decide)
     tieSt (by decide) (by decide) (by decide)
     bootSt (by decide)
     bootSt (by decide)
     bootSt (by decide)
     bootSt (by decide)
     0⟩

end Kernel
